import Mathlib

/-!
Hourglass project: spring-following icon and circular menu.

A shallow embedding of `src/js/icon-follow.js` and `src/js/circular-menu.js`.

Numbers. JavaScript numbers are modelled by an arbitrary linearly ordered field `α`
with a floor function (`ℚ` for evaluation, `ℝ` for the statements that involve `π`).
Definitions without a rounding argument compute exactly. Definitions with a rounding
argument `fl` pass the exact result of every arithmetic operation through `fl`; with
`fl64` (IEEE 754 binary64, round to nearest, ties to even, normal range) they compute what
the code computes on doubles, with the identity they compute exactly. The members of the
JavaScript `Math` object that the sources read (`Math.PI`, `Math.cos`, `Math.sin`) are a
parameter, `JsMath α`.

Browser. Values the code reads from the browser at the time of a call (layout boxes,
viewport size, the clock, the result of a style scan) are arguments of the embedded
function.
-/

/-- The members of the JavaScript `Math` object used by the two scripts. -/
structure JsMath (α : Type) where
  PI : α
  cos : α → α
  sin : α → α

/-- The rectangle returned by `getBoundingClientRect()`. -/
structure Rect (α : Type) where
  left : α
  top : α
  width : α
  height : α

/-- The `pointerType` of a pointer event. -/
inductive PointerType where
  | mouse
  | touch
  | pen
deriving DecidableEq, Repr

/-- A pointer event as far as the handlers read it. -/
structure PointerEvent (α : Type) where
  pointerType : PointerType
  pointerId : Nat
  clientX : α
  clientY : α

section
variable {α : Type} [LinearOrderedField α] [FloorRing α]

/-- The integer nearest to `x`, the even one of the two when `x` lies half way. -/
def roundHalfEven (x : α) : ℤ :=
  if x - (⌊x⌋ : α) < 1 / 2 then ⌊x⌋
  else if 1 / 2 < x - (⌊x⌋ : α) then ⌊x⌋ + 1
  else if ⌊x⌋ % 2 = 0 then ⌊x⌋ else ⌊x⌋ + 1

/-- The IEEE 754 binary64 value of the real `x`: rounded to 53 significant bits, to
nearest, ties to even. The exponent range is not bounded (no overflow, no subnormals), as
fits the pixel-sized quantities of the two scripts. Each of `+`, `-`, `*`, `/` on doubles
returns `fl64` of the exact result. -/
def fl64 (x : α) : α :=
  if x = 0 then 0
  else (roundHalfEven (x / (2 : α) ^ (Int.log 2 |x| - 52)) : α) * (2 : α) ^ (Int.log 2 |x| - 52)

end

namespace IconFollow

/-- The CONFIG block of `icon-follow.js` (lines 8-19) that the logic reads. The source fixes
`freqHz = 2.2`, `dampingRatio = 1.05`, `CLAMP_TO_VIEWPORT = true`. -/
structure Config (α : Type) where
  freqHz : α
  dampingRatio : α
  CLAMP_TO_VIEWPORT : Bool

/-- The finger-to-corner offset `grab` (line 56). -/
structure Grab (α : Type) where
  x : α
  y : α

/-- The closure variables of `icon-follow.js` (lines 45-63). `active` is the identity of the
followed element, `transform` the pair written to `active.style.transform` as
`translate3d(_px, _px, 0)`. -/
structure State (α : Type) where
  active : Option Nat
  picked : Bool
  baseLeft : α
  baseTop : α
  halfW : α
  halfH : α
  x : α
  y : α
  vx : α
  vy : α
  tx : α
  ty : α
  touchDragging : Bool
  touchPointerId : Option Nat
  grab : Grab α
  lastT : Option α
  rafId : Option Nat
  transform : Option (ℤ × ℤ)

/-- What `setTargetFromClientXY` reads from the browser when clamping: `window.innerWidth`,
`window.innerHeight`, `active.offsetWidth`, `active.offsetHeight`. -/
structure Layout (α : Type) where
  innerWidth : α
  innerHeight : α
  offsetWidth : α
  offsetHeight : α

/-- The second argument `mode` of `setTargetFromClientXY`; any value other than `'mouse'`
takes the grab-offset branch. -/
inductive Mode where
  | mouse
  | touch
deriving DecidableEq, Repr

section
variable {α : Type} [LinearOrderedField α] [FloorRing α]

/-- State before any icon has been picked (lines 45-63). -/
def initState : State α :=
  { active := none, picked := false, baseLeft := 0, baseTop := 0, halfW := 0, halfH := 0,
    x := 0, y := 0, vx := 0, vy := 0, tx := 0, ty := 0,
    touchDragging := false, touchPointerId := none, grab := ⟨0, 0⟩,
    lastT := none, rafId := none, transform := none }

/-- The constant `TWO_PI` (line 59). -/
def TWO_PI (m : JsMath α) : α := m.PI * 2

/-- The constant `omega` (line 60). -/
def omega (m : JsMath α) (c : Config α) : α := TWO_PI m * c.freqHz

/-- The function `Math.round`: nearest integer, ties towards plus infinity. -/
def jsRound (v : α) : ℤ := ⌊v + 1 / 2⌋

/-- The function `stepSpring(dt)` (lines 65-73). -/
def stepSpring (m : JsMath α) (c : Config α) (s : State α) (dt : α) : State α :=
  let z := c.dampingRatio
  let ax := -2 * z * omega m c * s.vx - (omega m c * omega m c) * (s.x - s.tx)
  let ay := -2 * z * omega m c * s.vy - (omega m c * omega m c) * (s.y - s.ty)
  let vx := s.vx + ax * dt
  let vy := s.vy + ay * dt
  let x := s.x + vx * dt
  let y := s.y + vy * dt
  { s with
    vx := vx, vy := vy, x := x, y := y,
    transform := if s.active.isSome then some (jsRound x, jsRound y) else s.transform }

/-- The frame callback `animate(t)` (lines 75-82); `raf` is the handle returned by
`requestAnimationFrame`. -/
def animate (m : JsMath α) (c : Config α) (s : State α) (t : α) (raf : Nat) : State α :=
  let lastT := match s.lastT with
    | none => t
    | some l => l
  let dt := (t - lastT) / 1000
  let dt := if dt > 33 / 1000 then 33 / 1000 else dt
  { stepSpring m c { s with lastT := some t } dt with rafId := some raf }

/-- The function `setTargetFromClientXY(cx, cy, mode)` (lines 86-109). -/
def setTargetFromClientXY (c : Config α) (lay : Layout α) (s : State α)
    (cx cy : α) (mode : Mode) : State α :=
  if s.active.isNone then s
  else
    let desiredLeft := if mode = Mode.mouse then cx - s.halfW else cx - s.grab.x
    let desiredTop := if mode = Mode.mouse then cy - s.halfH else cy - s.grab.y
    let maxLeft := lay.innerWidth - lay.offsetWidth
    let maxTop := lay.innerHeight - lay.offsetHeight
    let desiredLeft :=
      if c.CLAMP_TO_VIEWPORT then
        (if desiredLeft < 0 then 0 else if desiredLeft > maxLeft then maxLeft else desiredLeft)
      else desiredLeft
    let desiredTop :=
      if c.CLAMP_TO_VIEWPORT then
        (if desiredTop < 0 then 0 else if desiredTop > maxTop then maxTop else desiredTop)
      else desiredTop
    { s with tx := desiredLeft - s.baseLeft, ty := desiredTop - s.baseTop }

/-- The function `setTargetFromClientXY(cx, cy, mode)` (lines 86-109) with every
subtraction rounded by `fl`. -/
def setTargetFromClientXYFl (fl : α → α) (c : Config α) (lay : Layout α) (s : State α)
    (cx cy : α) (mode : Mode) : State α :=
  if s.active.isNone then s
  else
    let desiredLeft := if mode = Mode.mouse then fl (cx - s.halfW) else fl (cx - s.grab.x)
    let desiredTop := if mode = Mode.mouse then fl (cy - s.halfH) else fl (cy - s.grab.y)
    let maxLeft := fl (lay.innerWidth - lay.offsetWidth)
    let maxTop := fl (lay.innerHeight - lay.offsetHeight)
    let desiredLeft :=
      if c.CLAMP_TO_VIEWPORT then
        (if desiredLeft < 0 then 0 else if desiredLeft > maxLeft then maxLeft else desiredLeft)
      else desiredLeft
    let desiredTop :=
      if c.CLAMP_TO_VIEWPORT then
        (if desiredTop < 0 then 0 else if desiredTop > maxTop then maxTop else desiredTop)
      else desiredTop
    { s with tx := fl (desiredLeft - s.baseLeft), ty := fl (desiredTop - s.baseTop) }

/-- The `pointerdown` listener put on every icon (lines 160-220), for the icon `el` whose
`getBoundingClientRect()` is `r`; `fl` rounds every arithmetic result and `raf` is the
handle `requestAnimationFrame` returns if `ensureRAF` (line 83) calls it. Only the closure
variables are tracked: the inline styles of the icons and the listener registrations are
not. The `??` fallbacks of line 198 are dead for pointer events, whose `clientX`/`clientY`
are always numbers. -/
def onIconPointerDown (fl : α → α) (c : Config α) (lay : Layout α) (s : State α)
    (el : Nat) (r : Rect α) (e : PointerEvent α) (raf : Nat) : State α :=
  let s1 : State α :=
    { s with
      picked := true,
      active := some el,
      baseLeft := r.left, baseTop := r.top,
      halfW := fl (r.width / 2), halfH := fl (r.height / 2),
      x := 0, y := 0, vx := 0, vy := 0, tx := 0, ty := 0,
      lastT := none,
      rafId := match s.rafId with
        | none => some raf
        | some h => some h,
      transform := some (0, 0) }
  if e.pointerType = PointerType.mouse then
    setTargetFromClientXYFl fl c lay s1 e.clientX e.clientY Mode.mouse
  else
    let s2 : State α :=
      { s1 with
        touchDragging := true,
        touchPointerId := some e.pointerId,
        grab := ⟨fl (e.clientX - r.left), fl (e.clientY - r.top)⟩ }
    setTargetFromClientXYFl fl c lay s2 e.clientX e.clientY Mode.touch

/-- The listener `onGlobalTouchStart(e)` (lines 140-156); `r` is the current
`active.getBoundingClientRect()`, `fl` rounds every arithmetic result. -/
def onGlobalTouchStart (fl : α → α) (c : Config α) (lay : Layout α) (s : State α)
    (r : Rect α) (e : PointerEvent α) : State α :=
  if s.active.isNone ∨ e.pointerType = PointerType.mouse then s
  else
    let s1 : State α :=
      { s with
        touchDragging := true,
        touchPointerId := some e.pointerId,
        grab := ⟨fl (e.clientX - r.left), fl (e.clientY - r.top)⟩ }
    setTargetFromClientXYFl fl c lay s1 e.clientX e.clientY Mode.touch

/-- The listener `onTouchMove(e)` (lines 122-127); `fl` rounds every arithmetic result. -/
def onTouchMove (fl : α → α) (c : Config α) (lay : Layout α) (s : State α)
    (e : PointerEvent α) : State α :=
  if ¬ s.touchDragging ∨ s.active.isNone then s
  else if some e.pointerId ≠ s.touchPointerId then s
  else setTargetFromClientXYFl fl c lay s e.clientX e.clientY Mode.touch

/-- The per-axis recurrence of the spec (section 4.1), written from its words:
`a = -2·ζ·ω·v - ω²·(pos - target)`, then `v += a·dt`, then `pos += v·dt`.
Returns the new `(pos, v)`. -/
def specAxisStep (zeta om pos v target dt : α) : α × α :=
  let a := -2 * zeta * om * v - om ^ 2 * (pos - target)
  let v1 := v + a * dt
  (pos + v1 * dt, v1)

/-- The first half of `setTargetFromClientXY` (lines 91-98): the desired top-left corner
before clamping. -/
def desiredCorner (s : State α) (cx cy : α) (mode : Mode) : α × α :=
  (if mode = Mode.mouse then cx - s.halfW else cx - s.grab.x,
   if mode = Mode.mouse then cy - s.halfH else cy - s.grab.y)

/-- The clamp of lines 100-105 leaves the corner `d` as it is: clamping is off, or `d` lies
within `[0, maxLeft] × [0, maxTop]`. -/
def ClampKeeps (c : Config α) (lay : Layout α) (d : α × α) : Prop :=
  c.CLAMP_TO_VIEWPORT = false ∨
    (0 ≤ d.1 ∧ d.1 ≤ lay.innerWidth - lay.offsetWidth ∧
     0 ≤ d.2 ∧ d.2 ≤ lay.innerHeight - lay.offsetHeight)

/-- The first half of `setTargetFromClientXY` (lines 91-98) on doubles: the desired
top-left corner before clamping, each subtraction rounded by `fl`. -/
def desiredCornerFl (fl : α → α) (s : State α) (cx cy : α) (mode : Mode) : α × α :=
  (if mode = Mode.mouse then fl (cx - s.halfW) else fl (cx - s.grab.x),
   if mode = Mode.mouse then fl (cy - s.halfH) else fl (cy - s.grab.y))

/-- The clamp of lines 100-105, with `maxLeft` and `maxTop` rounded by `fl`, leaves the
corner `d` as it is. -/
def ClampKeepsFl (fl : α → α) (c : Config α) (lay : Layout α) (d : α × α) : Prop :=
  c.CLAMP_TO_VIEWPORT = false ∨
    (0 ≤ d.1 ∧ d.1 ≤ fl (lay.innerWidth - lay.offsetWidth) ∧
     0 ≤ d.2 ∧ d.2 ≤ fl (lay.innerHeight - lay.offsetHeight))

/-- On one axis the velocity `v` points from `pos` towards `target` and is at most
`zeta * om` times the remaining distance. The rest state `v = 0` satisfies it. -/
def Approaching (zeta om pos v target : α) : Prop :=
  (pos ≤ target ∧ 0 ≤ v ∧ v ≤ zeta * om * (target - pos)) ∨
  (target ≤ pos ∧ v ≤ 0 ∧ -v ≤ zeta * om * (pos - target))

/-- The closure variables of a session right after the reset of line 192 (position and
velocity zero) once the target offset has been set to `(tx, ty)`. -/
def restState (tx ty : α) : State α :=
  { (initState : State α) with active := some 0, picked := true, tx := tx, ty := ty }

/-- The constants the source configures (lines 13, 14 and 18): `freqHz = 2.2`,
`dampingRatio = 1.05`, `CLAMP_TO_VIEWPORT = true`. -/
def configured : Config α := ⟨22 / 10, 105 / 100, true⟩

/-- Repeated `stepSpring`, one call per frame delta, oldest first. -/
def runSpring (m : JsMath α) (c : Config α) (s : State α) (dts : List α) : State α :=
  dts.foldl (stepSpring m c) s

end

end IconFollow

namespace CircularMenu

/-- The CSS class given to a node the script creates: `cmv2-clone` (line 111),
`cmv2-backdrop` (line 168), `cmv2-root` (line 175), `cmv2-item` (line 181). -/
inductive Cls where
  | clone
  | backdrop
  | root
  | item
deriving DecidableEq, Repr

/-- DOM node identities. `page k` is an element of the host page; `made c k` is the node
with class `c` produced by the `k`-th `cloneNode`/`createElement` call of the script. -/
inductive Node where
  | page (k : Nat)
  | made (c : Cls) (k : Nat)
deriving DecidableEq, Repr

/-- What an `onSelect` callback may do with its context: call `ctx.closeMenu()` or
`ctx.reattach()` (lines 213-215). -/
inductive CtxCall where
  | closeMenu
  | reattach
deriving DecidableEq, Repr

/-- A configured menu item (lines 23-25). `onSelect` lists, in order, the context calls the
callback makes; the empty list also stands for an absent callback (`item.onSelect?.`). -/
structure MenuItemSpec where
  id : String
  label : Option String
  icon : Option String
  onSelect : List CtxCall
deriving DecidableEq, Repr

/-- A point `{ x, y }`. -/
structure Point (α : Type) where
  x : α
  y : α

/-- The fields of `state.opts` that the logic reads (lines 20-43); theme tokens are styling
only and are left out. -/
structure Opts (α : Type) where
  radius : α
  gapAngleDeg : α
  items : List MenuItemSpec
  doubleTapMs : α
  doubleTapTolPx : α
  anchor : Rect α → Point α

/-- The record `state.lastTap` (line 47). -/
structure Tap (α : Type) where
  t : α
  x : α
  y : α

/-- The record `state.frozen` (line 49). -/
structure Frozen where
  origEl : Node
  cloneEl : Node
deriving DecidableEq, Repr

/-- A menu button: its node, the item its listener closes over, and the `style.left` /
`style.top` pixel values written by `polarPlace` (`none` while unset). -/
structure ItemNode (α : Type) where
  node : Node
  item : MenuItemSpec
  left : Option α
  top : Option α

/-- The record `state.menu` (line 50). -/
structure Menu (α : Type) where
  root : Node
  items : List (ItemNode α)
  backdrop : Node

/-- A child of `document.body` appended by the script, with its own child nodes. -/
structure BodyChild where
  node : Node
  kids : List Node
deriving DecidableEq, Repr

/-- The part of the document the script manages: the children it appended to
`document.body` (oldest first, each with its children), the elements whose inline
`style.visibility` is `'hidden'`, and the number of nodes created so far. The `img`/`span`
contents of a button are not tracked. -/
structure Dom where
  body : List BodyChild
  hidden : List Node
  next : Nat
deriving DecidableEq, Repr

/-- The module-level `state` object (lines 45-51) together with the document. -/
structure State (α : Type) where
  opts : Opts α
  lastTap : Tap α
  detached : Bool
  frozen : Option Frozen
  menu : Option (Menu α)
  dom : Dom

/-- One element returned by `ICON_SELECTORS.flatMap(sel => $all(sel))` with the computed
style values `getActiveIcon` reads: `opacity` is `parseFloat(cs.opacity)`, `zIndex` is
`parseInt(cs.zIndex || '0', 10)` with `none` for `NaN`. -/
structure ScanEl (α : Type) where
  el : Node
  position : String
  display : String
  visibility : String
  opacity : α
  zIndex : Option ℤ

/-- What the handlers read from the browser during one call: the selector scan, and the
current `getBoundingClientRect()` of the clone. -/
structure Browser (α : Type) where
  scan : List (ScanEl α)
  cloneRect : Rect α

/-- The argument of `init(options)`: every field may be absent. -/
structure Options (α : Type) where
  radius : Option α
  gapAngleDeg : Option α
  items : Option (List MenuItemSpec)
  doubleTapMs : Option α
  doubleTapTolPx : Option α
  anchor : Option (Rect α → Point α)

/-- `n` is in the document: a child of `body` or a child of one. -/
def Dom.contains (d : Dom) (n : Node) : Bool :=
  d.body.any (fun c => decide (c.node = n) || decide (n ∈ c.kids))

/-- `n.parentNode.removeChild(n)` when `n` has a parent, nothing otherwise. -/
def Dom.detach (d : Dom) (n : Node) : Dom :=
  { d with
    body := (d.body.filter (fun c => decide (c.node ≠ n))).map
      (fun c => { c with kids := c.kids.filter (fun k => decide (k ≠ n)) }) }

/-- `document.body.appendChild(c.node)` for a node that is not yet in the document. -/
def Dom.appendToBody (d : Dom) (c : BodyChild) : Dom :=
  { d with body := d.body ++ [c] }

/-- The node was created by the script with class `c`. -/
def Node.hasClass (c : Cls) : Node → Bool
  | Node.made c1 _ => decide (c1 = c)
  | Node.page _ => false

/-- Number of nodes of class `c` in the document. -/
def Dom.count (d : Dom) (c : Cls) : Nat :=
  ((d.body.map (fun b => b.node :: b.kids)).flatten.filter (Node.hasClass c)).length

section
variable {α : Type} [LinearOrderedField α]

/-- The object `DEFAULTS` (lines 20-43). -/
def DEFAULTS : Opts α :=
  { radius := 100, gapAngleDeg := 0, items := [], doubleTapMs := 300, doubleTapTolPx := 40,
    anchor := fun r => ⟨r.left + r.width / 2, r.top + r.height / 2⟩ }

/-- The state once the script has loaded and `API.init()` has run with no options
(lines 45-51, 317), in a document to which the script has appended nothing. -/
def initState : State α :=
  { opts := DEFAULTS, lastTap := ⟨0, 0, 0⟩, detached := false, frozen := none, menu := none,
    dom := { body := [], hidden := [], next := 0 } }

/-- The function `getActiveIcon()` (lines 62-73) on the scanned elements. -/
def getActiveIcon (scan : List (ScanEl α)) : Option Node :=
  let candidates :=
    ((scan.filter (fun e =>
        decide (e.position = "fixed") && decide (e.display ≠ "none")
          && decide (e.visibility ≠ "hidden") && decide (e.opacity > 0))).map
      (fun e => (e.el, e.zIndex.getD 0))).insertionSort (fun a b => b.2 ≤ a.2)
  candidates.head?.map Prod.fst

/-- The function `freezeIcon(el)` (lines 107-136). The geometry and z-index written to the
clone are styling and are not tracked. -/
def freezeIcon (s : State α) (el : Option Node) : State α :=
  match el with
  | none => s
  | some el =>
    let clone := Node.made Cls.clone s.dom.next
    let dom : Dom :=
      { body := s.dom.body ++ [⟨clone, []⟩], hidden := el :: s.dom.hidden,
        next := s.dom.next + 1 }
    { s with dom := dom, detached := true, frozen := some ⟨el, clone⟩ }

/-- The function `closeMenu()` (lines 240-246). -/
def closeMenu (s : State α) : State α :=
  match s.menu with
  | none => s
  | some m => { s with dom := (s.dom.detach m.root).detach m.backdrop, menu := none }

/-- The function `reattach()` (lines 138-147). -/
def reattach (s : State α) : State α :=
  match s.frozen with
  | none => s
  | some f =>
    let dom : Dom :=
      { s.dom with hidden := s.dom.hidden.filter (fun n => decide (n ≠ f.origEl)) }
    closeMenu { s with dom := dom.detach f.cloneEl, frozen := none, detached := false }

/-- The function `polarPlace(root, cx, cy, radius, items, gapDeg)` (lines 149-162); the
result is `items` with the written `left`/`top`. -/
def polarPlace (m : JsMath α) (_root : Node) (cx cy radius : α) (items : List (ItemNode α))
    (gapDeg : α) : List (ItemNode α) :=
  let n := items.length
  if n = 0 then items
  else
    let full := m.PI * 2
    let span := full - (gapDeg * m.PI / 180)
    let start := -m.PI / 2 - span / 2
    items.mapIdx (fun i it =>
      let angle := start + ((i : α) + 1 / 2) * (span / (n : α))
      let x := cx + radius * m.cos angle
      let y := cy + radius * m.sin angle
      { it with left := some x, top := some y })

/-- The function `polarPlace` (lines 149-162) on doubles: the same statements, with every
arithmetic result rounded by `fl` (the negation in `-Math.PI/2` and the conversion of the
loop index and of `n` to a number are exact and carry no rounding of their own). With
`fl = id` this is `polarPlace`. -/
def polarPlaceFl (fl : α → α) (m : JsMath α) (_root : Node) (cx cy radius : α)
    (items : List (ItemNode α)) (gapDeg : α) : List (ItemNode α) :=
  let n := items.length
  if n = 0 then items
  else
    let full := fl (m.PI * 2)
    let span := fl (full - fl (fl (gapDeg * m.PI) / 180))
    let start := fl (fl (-m.PI / 2) - fl (span / 2))
    items.mapIdx (fun i it =>
      let angle := fl (start + fl (fl ((i : α) + 1 / 2) * fl (span / (n : α))))
      let x := fl (cx + fl (radius * m.cos angle))
      let y := fl (cy + fl (radius * m.sin angle))
      { it with left := some x, top := some y })

/-- The value of `angle` (line 156) in iteration `i` of the loop of `polarPlaceFl` over `n`
items. -/
def polarAngleFl (fl : α → α) (m : JsMath α) (gapDeg : α) (n i : Nat) : α :=
  let full := fl (m.PI * 2)
  let span := fl (full - fl (fl (gapDeg * m.PI) / 180))
  let start := fl (fl (-m.PI / 2) - fl (span / 2))
  fl (start + fl (fl ((i : α) + 1 / 2) * fl (span / (n : α))))

/-- The function `buildMenu(items, cx, cy)` (lines 164-229). Nodes are numbered in creation
order: backdrop, root, then one button per item. -/
def buildMenu (m : JsMath α) (s : State α) (items : List MenuItemSpec) (cx cy : α) : State α :=
  let backdrop := Node.made Cls.backdrop s.dom.next
  let root := Node.made Cls.root (s.dom.next + 1)
  let buttons : List (ItemNode α) :=
    items.mapIdx (fun i item => ⟨Node.made Cls.item (s.dom.next + 2 + i), item, none, none⟩)
  let dom : Dom :=
    { s.dom with
      body := s.dom.body ++ [⟨backdrop, []⟩, ⟨root, buttons.map (fun b => b.node)⟩],
      next := s.dom.next + 2 + items.length }
  let placed := polarPlace m root cx cy s.opts.radius buttons s.opts.gapAngleDeg
  { s with dom := dom, menu := some ⟨root, placed, backdrop⟩ }

/-- The function `openMenu()` (lines 231-238). -/
def openMenu (m : JsMath α) (b : Browser α) (s : State α) : State α :=
  if s.detached = false ∨ s.frozen.isNone then s
  else
    let s1 := closeMenu s
    let p := s1.opts.anchor b.cloneRect
    buildMenu m s1 s1.opts.items p.x p.y

/-- The function `onBodyDblClick()` (lines 249-256). -/
def onBodyDblClick (m : JsMath α) (b : Browser α) (s : State α) : State α :=
  let active := getActiveIcon b.scan
  if s.detached = false then
    if active.isNone then s
    else openMenu m b (freezeIcon s active)
  else openMenu m b s

/-- The condition of the `if` on line 264, for an event at position `ev` and clock
reading `now`. -/
def doubleTapHit (s : State α) (ev : PointerEvent α) (now : α) : Bool :=
  let dt := now - s.lastTap.t
  let dx := |ev.clientX - s.lastTap.x|
  let dy := |ev.clientY - s.lastTap.y|
  decide (dt ≤ s.opts.doubleTapMs) && decide (dx ≤ s.opts.doubleTapTolPx)
    && decide (dy ≤ s.opts.doubleTapTolPx)

/-- The listener `onBodyPointerDown(ev)` (lines 258-270); `now` is `performance.now()`. -/
def onBodyPointerDown (m : JsMath α) (b : Browser α) (s : State α) (ev : PointerEvent α)
    (now : α) : State α :=
  if ev.pointerType ≠ PointerType.touch then s
  else if doubleTapHit s ev now then
    let s1 := onBodyDblClick m b s
    { s1 with lastTap := { s1.lastTap with t := 0 } }
  else { s with lastTap := ⟨now, ev.clientX, ev.clientY⟩ }

/-- Whether `onBodyPointerDown(ev)` reaches the call of `onBodyDblClick` (line 265). -/
def triggers (s : State α) (ev : PointerEvent α) (now : α) : Bool :=
  decide (ev.pointerType = PointerType.touch) && doubleTapHit s ev now

/-- The callback of an item run against the context: each call in turn. -/
def runOnSelect (s : State α) : List CtxCall → State α
  | [] => s
  | CtxCall.closeMenu :: cs => runOnSelect (closeMenu s) cs
  | CtxCall.reattach :: cs => runOnSelect (reattach s) cs

/-- The `pointerdown` listener of the `i`-th button of the displayed menu (lines 202-218).
Buttons of a closed menu are out of the document and receive no events. -/
def onItemPointerDown (s : State α) (i : Nat) : State α :=
  match s.menu with
  | none => s
  | some mn =>
    match mn.items.get? i with
    | none => s
    | some it => runOnSelect s it.item.onSelect

/-- The method `API.init(options)` (lines 274-299), state part. -/
def API.init (s : State α) (o : Options α) : State α :=
  { s with
    opts :=
      { radius := o.radius.getD (DEFAULTS : Opts α).radius,
        gapAngleDeg := o.gapAngleDeg.getD (DEFAULTS : Opts α).gapAngleDeg,
        items := o.items.getD (DEFAULTS : Opts α).items,
        doubleTapMs := o.doubleTapMs.getD (DEFAULTS : Opts α).doubleTapMs,
        doubleTapTolPx := o.doubleTapTolPx.getD (DEFAULTS : Opts α).doubleTapTolPx,
        anchor := o.anchor.getD (DEFAULTS : Opts α).anchor } }

/-- The method `API.updateItems(items)` (lines 300-303). -/
def API.updateItems (m : JsMath α) (b : Browser α) (s : State α)
    (items : List MenuItemSpec) : State α :=
  let s1 : State α := { s with opts := { s.opts with items := items } }
  if s1.menu.isSome then openMenu m b s1 else s1

/-- The method `API.open` (line 304). -/
def API.open (m : JsMath α) (b : Browser α) (s : State α) : State α := openMenu m b s

/-- The method `API.close` (line 305). -/
def API.close (s : State α) : State α := closeMenu s

/-- The method `API.isOpen()` (line 306). -/
def API.isOpen (s : State α) : Bool := s.menu.isSome

/-- The method `API.getState()` (lines 307-310). -/
def API.getState (s : State α) : Bool × Option Frozen := (s.detached, s.frozen)

/-- What can happen to the menu script between two points of quiescence. -/
inductive Event (α : Type) where
  /-- A `dblclick` reaching `document.body` (lines 287-290); `inMenu` tells whether its
  target lies inside `.cmv2-root`. -/
  | dblclick (b : Browser α) (inMenu : Bool)
  /-- A `pointerdown` reaching `document.body` (line 291). -/
  | bodyPointerDown (b : Browser α) (ev : PointerEvent α) (now : α)
  /-- A `pointerdown`, `mousedown` or `touchstart` on the clone (lines 128-131). -/
  | cloneDown
  /-- A `pointerdown` on the backdrop (line 172). -/
  | backdropDown
  /-- A `pointerdown` on the `i`-th button of the menu (line 202). -/
  | itemDown (i : Nat)
  /-- The call `CircularMenu.open()`. -/
  | apiOpen (b : Browser α)
  /-- The call `CircularMenu.close()`. -/
  | apiClose
  /-- The call `CircularMenu.updateItems(items)`. -/
  | apiUpdateItems (b : Browser α) (items : List MenuItemSpec)
  /-- The call `CircularMenu.init(options)`. -/
  | apiInit (o : Options α)

/-- The handler run for each event. -/
def step (m : JsMath α) (s : State α) : Event α → State α
  | Event.dblclick b inMenu => if inMenu then s else onBodyDblClick m b s
  | Event.bodyPointerDown b ev now => onBodyPointerDown m b s ev now
  | Event.cloneDown => reattach s
  | Event.backdropDown => closeMenu s
  | Event.itemDown i => onItemPointerDown s i
  | Event.apiOpen b => API.open m b s
  | Event.apiClose => API.close s
  | Event.apiUpdateItems b items => API.updateItems m b s items
  | Event.apiInit o => API.init s o

/-- The states the script can be in: the initial one and whatever events lead to. -/
inductive Reachable (m : JsMath α) : State α → Prop where
  | init : Reachable m initState
  | step (s : State α) (e : Event α) : Reachable m s → Reachable m (step m s e)

/-- The state after a list of events, oldest first. -/
def run (m : JsMath α) (s : State α) (es : List (Event α)) : State α :=
  es.foldl (step m) s

/-- The invariant of the detach/menu state machine (spec sections 3 and 4.4): `detached`
holds exactly when `frozen` is set, an open menu implies a frozen clone, and the document
holds at most one clone, one menu root and one backdrop. -/
def MenuInvariant (s : State α) : Prop :=
  (s.detached = true ↔ s.frozen.isSome = true) ∧
  (s.menu.isSome = true → s.detached = true) ∧
  s.dom.count Cls.clone ≤ 1 ∧ s.dom.count Cls.root ≤ 1 ∧ s.dom.count Cls.backdrop ≤ 1

/-- The children of `document.body` that the state accounts for: the clone when one is
frozen, then the backdrop and the root (with its buttons) when a menu is open. -/
def expectedBody (s : State α) : List BodyChild :=
  (match s.frozen with
    | none => []
    | some f => [⟨f.cloneEl, []⟩]) ++
  (match s.menu with
    | none => []
    | some mn => [⟨mn.backdrop, []⟩, ⟨mn.root, mn.items.map (fun b => b.node)⟩])

/-- `n` is a node of class `c` created before the `next`-th creation. -/
def Node.madeBefore (n : Node) (c : Cls) (next : Nat) : Prop :=
  ∃ k, k < next ∧ n = Node.made c k

/-- The structural invariant behind `MenuInvariant`: the flags agree, the document holds
exactly the nodes the state refers to, and each of them was created by the script with the
class of its role. -/
structure Consistent (s : State α) : Prop where
  flag : s.detached = s.frozen.isSome
  anchored : s.menu.isSome = true → s.frozen.isSome = true
  body : s.dom.body = expectedBody s
  clone : ∀ f, s.frozen = some f → f.cloneEl.madeBefore Cls.clone s.dom.next
  backdrop : ∀ mn, s.menu = some mn → mn.backdrop.madeBefore Cls.backdrop s.dom.next
  root : ∀ mn, s.menu = some mn → mn.root.madeBefore Cls.root s.dom.next
  items : ∀ mn, s.menu = some mn → ∀ it ∈ mn.items, it.node.madeBefore Cls.item s.dom.next

/-- One `pointerdown` reaching `document.body`: the event, the reading of
`performance.now()` in the handler, and what the browser reports during it. -/
structure BodyDown (α : Type) where
  ev : PointerEvent α
  now : α
  b : Browser α

/-- A touch pointer-down at `(x, y)` handled at clock reading `now`, while the selector
scan finds the followed icon `page 3` (fixed, visible, z-index 999999). -/
def touchNearIcon (x y now : α) : BodyDown α :=
  ⟨⟨PointerType.touch, 1, x, y⟩, now,
    ⟨[⟨Node.page 3, "fixed", "block", "visible", 1, some 999999⟩], ⟨100, 200, 64, 64⟩⟩⟩

/-- The state after `onBodyPointerDown` has handled each pointer-down of a sequence,
oldest first. -/
def tapRun (m : JsMath α) (s : State α) (es : List (BodyDown α)) : State α :=
  es.foldl (fun t e => onBodyPointerDown m e.b t e.ev e.now) s

/-- For each pointer-down of a sequence, oldest first, whether `onBodyPointerDown` calls
`onBodyDblClick` on it; the state is threaded through the handler. -/
def tapTrace (m : JsMath α) (s : State α) : List (BodyDown α) → List Bool
  | [] => []
  | e :: es => triggers s e.ev e.now :: tapTrace m (onBodyPointerDown m e.b s e.ev e.now) es

/-- The event `e` comes at most `ms` after `p` and within `tol` of it on each axis. -/
def closeTo (ms tol : α) (p e : BodyDown α) : Bool :=
  decide (e.now - p.now ≤ ms) && decide (|e.ev.clientX - p.ev.clientX| ≤ tol)
    && decide (|e.ev.clientY - p.ev.clientY| ≤ tol)

/-- The double-tap rule in the words of claim C9: `e` is a touch pointer-down and some
earlier touch pointer-down, not itself consumed by a trigger, is close to it. `past` lists
the earlier events, newest first, each with whether it triggered. -/
def statedTrigger (ms tol : α) (past : List (BodyDown α × Bool)) (e : BodyDown α) : Bool :=
  decide (e.ev.pointerType = PointerType.touch) &&
    past.any (fun p => decide (p.1.ev.pointerType = PointerType.touch) && !p.2
      && closeTo ms tol p.1 e)

/-- The verdicts of `statedTrigger` along a sequence, oldest first. -/
def statedTrace (ms tol : α) : List (BodyDown α × Bool) → List (BodyDown α) → List Bool
  | _, [] => []
  | past, e :: es =>
    statedTrigger ms tol past e ::
      statedTrace ms tol ((e, statedTrigger ms tol past e) :: past) es

/-- The double-tap rule with the most recent earlier touch pointer-down in place of any
earlier one: `e` is a touch pointer-down, and the latest touch pointer-down before it
exists, did not trigger, and is close to it. -/
def recentTrigger (ms tol : α) (past : List (BodyDown α × Bool)) (e : BodyDown α) : Bool :=
  decide (e.ev.pointerType = PointerType.touch) &&
    (match past.find? (fun p => decide (p.1.ev.pointerType = PointerType.touch)) with
      | none => false
      | some p => !p.2 && closeTo ms tol p.1 e)

/-- The verdicts of `recentTrigger` along a sequence, oldest first. -/
def recentTrace (ms tol : α) : List (BodyDown α × Bool) → List (BodyDown α) → List Bool
  | _, [] => []
  | past, e :: es =>
    recentTrigger ms tol past e ::
      recentTrace ms tol ((e, recentTrigger ms tol past e) :: past) es

/-- How `state.lastTap` reflects the history `past` (newest first): it holds the latest
touch pointer-down when that one did not trigger, and has `t = 0` when there is none or
when it triggered. -/
def TapRecorded (s : State α) (past : List (BodyDown α × Bool)) : Prop :=
  match past.find? (fun p => decide (p.1.ev.pointerType = PointerType.touch)) with
  | none => s.lastTap.t = 0
  | some p =>
    if p.2 then s.lastTap.t = 0
    else s.lastTap = ⟨p.1.now, p.1.ev.clientX, p.1.ev.clientY⟩

end

end CircularMenu

/-! Theorems: spring integrator and pointer target (`icon-follow.js`). -/

namespace IconFollow

section
variable {α : Type} [LinearOrderedField α] [FloorRing α]

theorem stepSpring_tx (m : JsMath α) (c : Config α) (s : State α) (dt : α) :
    (stepSpring m c s dt).tx = s.tx ∧ (stepSpring m c s dt).ty = s.ty := ⟨rfl, rfl⟩

theorem stepSpring_x (m : JsMath α) (c : Config α) (s : State α) (dt : α) :
    ((stepSpring m c s dt).x, (stepSpring m c s dt).vx)
      = specAxisStep c.dampingRatio (omega m c) s.x s.vx s.tx dt := by
  simp only [stepSpring, specAxisStep, pow_two]

theorem stepSpring_y (m : JsMath α) (c : Config α) (s : State α) (dt : α) :
    ((stepSpring m c s dt).y, (stepSpring m c s dt).vy)
      = specAxisStep c.dampingRatio (omega m c) s.y s.vy s.ty dt := by
  simp only [stepSpring, specAxisStep, pow_two]

theorem runSpring_tx (m : JsMath α) (c : Config α) (dts : List α) (s : State α) :
    (runSpring m c s dts).tx = s.tx ∧ (runSpring m c s dts).ty = s.ty := by
  induction dts generalizing s with
  | nil => exact ⟨rfl, rfl⟩
  | cons d ds ih =>
    have h := ih (stepSpring m c s d)
    simpa [runSpring] using h

end

section
variable {α : Type} [LinearOrderedField α]

/-- One step of the recurrence with the target ahead (`pos ≤ target`, `0 ≤ v`): the gap
shrinks, does not change sign, and the velocity bound is kept. -/
theorem axis_step_ahead {zeta om pos v target dt : α}
    (hz : 1 ≤ zeta) (hom : 0 < om) (hdt : 0 ≤ dt) (hstab : 2 * zeta * om * dt ≤ 1)
    (hp : pos ≤ target) (hv0 : 0 ≤ v) (hv : v ≤ zeta * om * (target - pos)) :
    0 ≤ (specAxisStep zeta om pos v target dt).2 ∧
    (specAxisStep zeta om pos v target dt).2
      ≤ zeta * om * (target - (specAxisStep zeta om pos v target dt).1) ∧
    pos ≤ (specAxisStep zeta om pos v target dt).1 ∧
    (specAxisStep zeta om pos v target dt).1 ≤ target := by
  simp only [specAxisStep]
  set g := target - pos with hg
  have hg0 : 0 ≤ g := sub_nonneg.mpr hp
  set h := om * dt with hh
  have hh0 : 0 ≤ h := mul_nonneg hom.le hdt
  have hz0 : 0 < zeta := lt_of_lt_of_le one_pos hz
  have hstab' : 2 * zeta * h ≤ 1 := by rw [hh]; linarith [hstab, mul_assoc (2 * zeta) om dt]
  -- the new velocity
  set v1 := v + (-2 * zeta * om * v - om ^ 2 * (pos - target)) * dt with hv1
  have hv1eq : v1 = v * (1 - 2 * zeta * h) + om * h * g := by
    rw [hv1, hh, hg]; ring
  have hv1nn : 0 ≤ v1 := by
    rw [hv1eq]
    have h1 : 0 ≤ v * (1 - 2 * zeta * h) := mul_nonneg hv0 (by linarith)
    have h2 : 0 ≤ om * h * g := mul_nonneg (mul_nonneg hom.le hh0) hg0
    linarith
  -- the bound on the new velocity before the position update
  have hv1le : v1 ≤ om * g * (zeta - 2 * zeta ^ 2 * h + h) := by
    rw [hv1eq]
    have h1 : v * (1 - 2 * zeta * h) ≤ zeta * om * g * (1 - 2 * zeta * h) :=
      mul_le_mul_of_nonneg_right hv (by linarith)
    nlinarith [h1]
  have hog : 0 ≤ om * g := mul_nonneg hom.le hg0
  have hkey : (zeta - 2 * zeta ^ 2 * h + h) * (1 + zeta * h) ≤ zeta := by
    have e1 : (zeta - 2 * zeta ^ 2 * h + h) * (1 + zeta * h)
        = zeta - h * (zeta ^ 2 - 1) - h ^ 2 * zeta * (2 * zeta ^ 2 - 1) := by ring
    have h3 : 0 ≤ h * (zeta ^ 2 - 1) := mul_nonneg hh0 (by nlinarith)
    have h4 : 0 ≤ h ^ 2 * zeta * (2 * zeta ^ 2 - 1) :=
      mul_nonneg (mul_nonneg (sq_nonneg h) hz0.le) (by nlinarith)
    rw [e1]; linarith
  have hpos1 : 0 ≤ 1 + zeta * h := by positivity
  have hmain : v1 * (1 + zeta * h) ≤ zeta * om * g := by
    calc v1 * (1 + zeta * h)
        ≤ om * g * (zeta - 2 * zeta ^ 2 * h + h) * (1 + zeta * h) :=
          mul_le_mul_of_nonneg_right hv1le hpos1
      _ = om * g * ((zeta - 2 * zeta ^ 2 * h + h) * (1 + zeta * h)) := by ring
      _ ≤ om * g * zeta := mul_le_mul_of_nonneg_left hkey hog
      _ = zeta * om * g := by ring
  have hbound : v1 ≤ zeta * om * (target - (pos + v1 * dt)) := by
    have e2 : zeta * om * (target - (pos + v1 * dt)) = zeta * om * g - v1 * (zeta * h) := by
      rw [hg, hh]; ring
    rw [e2]; linarith [hmain]
  have hzo : 0 < zeta * om := mul_pos hz0 hom
  refine ⟨hv1nn, hbound, ?_, ?_⟩
  · have : 0 ≤ v1 * dt := mul_nonneg hv1nn hdt
    linarith
  · have h5 : 0 ≤ zeta * om * (target - (pos + v1 * dt)) := le_trans hv1nn hbound
    have h6 : 0 ≤ target - (pos + v1 * dt) := by
      by_contra hneg
      exact absurd h5 (not_le.mpr (mul_neg_of_pos_of_neg hzo (not_le.mp hneg)))
    exact sub_nonneg.mp h6

/-- The recurrence commutes with the reflection `(pos, v, target) ↦ (-pos, -v, -target)`. -/
theorem specAxisStep_neg (zeta om pos v target dt : α) :
    specAxisStep zeta om (-pos) (-v) (-target) dt
      = (-(specAxisStep zeta om pos v target dt).1, -(specAxisStep zeta om pos v target dt).2) := by
  simp only [specAxisStep, Prod.mk.injEq]
  constructor <;> ring

/-- One step of the recurrence from an approaching state: the state stays approaching and
the position error does not grow. -/
theorem axis_step_approaching {zeta om pos v target dt : α}
    (hz : 1 ≤ zeta) (hom : 0 < om) (hdt : 0 ≤ dt) (hstab : 2 * zeta * om * dt ≤ 1)
    (ha : Approaching zeta om pos v target) :
    Approaching zeta om (specAxisStep zeta om pos v target dt).1
        (specAxisStep zeta om pos v target dt).2 target ∧
    |(specAxisStep zeta om pos v target dt).1 - target| ≤ |pos - target| := by
  rcases ha with ⟨hp, hv0, hv⟩ | ⟨hp, hv0, hv⟩
  · obtain ⟨h1, h2, h3, h4⟩ := axis_step_ahead hz hom hdt hstab hp hv0 hv
    refine ⟨Or.inl ⟨h4, h1, h2⟩, ?_⟩
    rw [abs_of_nonpos (by linarith), abs_of_nonpos (by linarith)]
    linarith
  · have hv' : -v ≤ zeta * om * (-target - -pos) := by
      have : zeta * om * (-target - -pos) = zeta * om * (pos - target) := by ring
      rw [this]; exact hv
    obtain ⟨h1, h2, h3, h4⟩ := @axis_step_ahead α _ zeta om (-pos) (-v) (-target) dt
      hz hom hdt hstab (by linarith) (by linarith) hv'
    rw [specAxisStep_neg] at h1 h2 h3 h4
    simp only at h1 h2 h3 h4
    refine ⟨Or.inr ⟨by linarith, by linarith, ?_⟩, ?_⟩
    · have : zeta * om * (-target - -(specAxisStep zeta om pos v target dt).1)
          = zeta * om * ((specAxisStep zeta om pos v target dt).1 - target) := by ring
      rw [this] at h2; exact h2
    · rw [abs_of_nonneg (by linarith), abs_of_nonneg (by linarith)]
      linarith

theorem omega_eq (m : JsMath α) (c : Config α) : omega m c = 2 * m.PI * c.freqHz := by
  simp only [omega, TWO_PI]; ring

theorem omega_pos (m : JsMath α) (c : Config α) (hpi : 0 < m.PI) (hf : 0 < c.freqHz) :
    0 < omega m c := by
  rw [omega_eq]; positivity

end

section
variable {α : Type} [LinearOrderedField α] [FloorRing α]

/-- Both axes stay approaching along any run of admissible frame deltas. -/
theorem runSpring_approaching (m : JsMath α) (c : Config α) (dts : List α) (s : State α)
    (hom : 0 < omega m c) (hz : 1 ≤ c.dampingRatio)
    (hdts : ∀ d ∈ dts, 0 ≤ d ∧ 2 * c.dampingRatio * omega m c * d ≤ 1)
    (hx : Approaching c.dampingRatio (omega m c) s.x s.vx s.tx)
    (hy : Approaching c.dampingRatio (omega m c) s.y s.vy s.ty) :
    Approaching c.dampingRatio (omega m c) (runSpring m c s dts).x (runSpring m c s dts).vx s.tx ∧
    Approaching c.dampingRatio (omega m c) (runSpring m c s dts).y (runSpring m c s dts).vy s.ty := by
  induction dts generalizing s with
  | nil => exact ⟨hx, hy⟩
  | cons d ds ih =>
    have hd := hdts d (List.mem_cons_self d ds)
    have hx1 := (axis_step_approaching hz hom hd.1 hd.2 hx).1
    have hy1 := (axis_step_approaching hz hom hd.1 hd.2 hy).1
    have ex := stepSpring_x m c s d
    have ey := stepSpring_y m c s d
    rw [← ex] at hx1
    rw [← ey] at hy1
    have := ih (stepSpring m c s d) (fun e he => hdts e (List.mem_cons_of_mem d he)) hx1 hy1
    simpa [runSpring] using this

/-- C1 (amended). With damping ratio at least 1, positive frequency, and frame deltas
`d ≥ 0` with `2·ζ·ω·d ≤ 1`: from any state whose velocity on each axis points towards the
target and is at most `ζ·ω` times the remaining distance (the session-start state, at rest,
is one), with the target held fixed, every further `stepSpring` step leaves the position
error on each axis no larger than before. -/
theorem stepSpring_error_nonincreasing (m : JsMath α) (c : Config α) (s : State α)
    (dts : List α) (dt : α)
    (hpi : 0 < m.PI) (hf : 0 < c.freqHz) (hz : 1 ≤ c.dampingRatio)
    (hdts : ∀ d ∈ dt :: dts, 0 ≤ d ∧ 2 * c.dampingRatio * omega m c * d ≤ 1)
    (hx : Approaching c.dampingRatio (omega m c) s.x s.vx s.tx)
    (hy : Approaching c.dampingRatio (omega m c) s.y s.vy s.ty) :
    (stepSpring m c (runSpring m c s dts) dt).tx = s.tx ∧
    (stepSpring m c (runSpring m c s dts) dt).ty = s.ty ∧
    |(stepSpring m c (runSpring m c s dts) dt).x - s.tx| ≤ |(runSpring m c s dts).x - s.tx| ∧
    |(stepSpring m c (runSpring m c s dts) dt).y - s.ty| ≤ |(runSpring m c s dts).y - s.ty| := by
  have hom := omega_pos m c hpi hf
  have hd := hdts dt (List.mem_cons_self dt dts)
  obtain ⟨ax, ay⟩ := runSpring_approaching m c dts s hom hz
    (fun e he => hdts e (List.mem_cons_of_mem dt he)) hx hy
  have ht := runSpring_tx m c dts s
  have hx2 := (axis_step_approaching hz hom hd.1 hd.2 ax).2
  have hy2 := (axis_step_approaching hz hom hd.1 hd.2 ay).2
  have ex := stepSpring_x m c (runSpring m c s dts) dt
  have ey := stepSpring_y m c (runSpring m c s dts) dt
  rw [ht.1] at ex
  rw [ht.2] at ey
  rw [← ex] at hx2
  rw [← ey] at hy2
  exact ⟨ht.1, ht.2, hx2, hy2⟩

/-- C2. `stepSpring` computes on each axis `a = -2·ζ·ω·v - ω²·(pos - target)` with
`ω = 2·π·freqHz`, then `v' = v + a·dt`, then `pos' = pos + v'·dt` with the new velocity;
the x result is a function of `(x, vx, tx, dt)`, the y result of `(y, vy, ty, dt)`, and
`tx`, `ty` are unchanged. -/
theorem stepSpring_per_axis (m : JsMath α) (c : Config α) (s : State α) (dt : α) :
    ((stepSpring m c s dt).x, (stepSpring m c s dt).vx)
      = specAxisStep c.dampingRatio (2 * m.PI * c.freqHz) s.x s.vx s.tx dt ∧
    ((stepSpring m c s dt).y, (stepSpring m c s dt).vy)
      = specAxisStep c.dampingRatio (2 * m.PI * c.freqHz) s.y s.vy s.ty dt ∧
    (stepSpring m c s dt).x = s.x + (stepSpring m c s dt).vx * dt ∧
    (stepSpring m c s dt).y = s.y + (stepSpring m c s dt).vy * dt ∧
    (stepSpring m c s dt).tx = s.tx ∧ (stepSpring m c s dt).ty = s.ty := by
  refine ⟨?_, ?_, rfl, rfl, rfl, rfl⟩
  · rw [← omega_eq]; exact stepSpring_x m c s dt
  · rw [← omega_eq]; exact stepSpring_y m c s dt

end

section
variable {α : Type} [LinearOrderedField α]

/-- The clamp of lines 103-104 on one axis lands in `[0, hi]` when `0 ≤ hi`. -/
theorem clamp_axis_bounds (d hi : α) (h : 0 ≤ hi) :
    0 ≤ (if d < 0 then 0 else if d > hi then hi else d) ∧
    (if d < 0 then 0 else if d > hi then hi else d) ≤ hi := by
  split_ifs with h1 h2
  · exact ⟨le_refl 0, h⟩
  · exact ⟨h, le_refl hi⟩
  · exact ⟨not_lt.mp h1, not_lt.mp h2⟩

/-- C4. With viewport clamping on and an active element no wider or taller than the
viewport, after `setTargetFromClientXY` the targeted top-left corner
`(baseLeft + tx, baseTop + ty)` lies in `[0, innerWidth - width] × [0, innerHeight - height]`,
for every pointer position, mode and grab offset. -/
theorem setTarget_within_viewport (c : Config α) (lay : Layout α) (s : State α)
    (cx cy : α) (mode : Mode)
    (hclamp : c.CLAMP_TO_VIEWPORT = true) (hact : s.active.isSome = true)
    (hw : lay.offsetWidth ≤ lay.innerWidth) (hh : lay.offsetHeight ≤ lay.innerHeight) :
    0 ≤ s.baseLeft + (setTargetFromClientXY c lay s cx cy mode).tx ∧
    s.baseLeft + (setTargetFromClientXY c lay s cx cy mode).tx
      ≤ lay.innerWidth - lay.offsetWidth ∧
    0 ≤ s.baseTop + (setTargetFromClientXY c lay s cx cy mode).ty ∧
    s.baseTop + (setTargetFromClientXY c lay s cx cy mode).ty
      ≤ lay.innerHeight - lay.offsetHeight := by
  have hn : s.active.isNone = false := by
    cases h : s.active with
    | none => rw [h] at hact; exact absurd hact (by simp)
    | some a => rfl
  have h1 := clamp_axis_bounds (if mode = Mode.mouse then cx - s.halfW else cx - s.grab.x)
    (lay.innerWidth - lay.offsetWidth) (sub_nonneg.mpr hw)
  have h2 := clamp_axis_bounds (if mode = Mode.mouse then cy - s.halfH else cy - s.grab.y)
    (lay.innerHeight - lay.offsetHeight) (sub_nonneg.mpr hh)
  simp only [setTargetFromClientXY, hn, hclamp, if_true, Bool.false_eq_true, if_false,
    add_sub_cancel]
  exact ⟨h1.1, h1.2, h2.1, h2.2⟩

/-- When the clamp keeps the desired corner, the target is that corner relative to the
base. -/
theorem setTarget_unclamped (c : Config α) (lay : Layout α) (s : State α)
    (cx cy : α) (mode : Mode) (hact : s.active.isSome = true)
    (hk : ClampKeeps c lay (desiredCorner s cx cy mode)) :
    (setTargetFromClientXY c lay s cx cy mode).tx = (desiredCorner s cx cy mode).1 - s.baseLeft ∧
    (setTargetFromClientXY c lay s cx cy mode).ty = (desiredCorner s cx cy mode).2 - s.baseTop := by
  have hn : s.active.isNone = false := by
    cases h : s.active with
    | none => rw [h] at hact; exact absurd hact (by simp)
    | some a => rfl
  rcases hk with hoff | ⟨a1, a2, a3, a4⟩
  · simp [setTargetFromClientXY, hn, hoff, desiredCorner]
  · simp only [desiredCorner] at a1 a2 a3 a4
    simp only [setTargetFromClientXY, hn, desiredCorner, Bool.false_eq_true, if_false]
    rw [if_neg (not_lt.mpr a1), if_neg (not_lt.mpr a2), if_neg (not_lt.mpr a3),
      if_neg (not_lt.mpr a4)]
    simp

end

/-- C1 fails as stated. (a) Damping ratio 1, frequency 100 Hz, frame delta 0.033: from the
session-start state with the target held at `tx = 1`, the first step already takes the error
from 1 to more than 1. (b) The configured constants (2.2 Hz, 1.05): after one step towards
`tx = 1` the pointer target is moved onto the current position and held there; the stored
velocity carries the icon past it, so the error grows from 0. -/
theorem stepSpring_error_can_grow :
    |(restState (1 : ℝ) 0).x - 1|
      < |(stepSpring (JsMath.mk Real.pi Real.cos Real.sin) (Config.mk 100 1 true)
            (restState (1 : ℝ) 0) (33 / 1000)).x - 1| ∧
    |(stepSpring (JsMath.mk Real.pi Real.cos Real.sin) (Config.mk (22 / 10) (105 / 100) true)
          (restState (1 : ℝ) 0) (33 / 1000)).x
        - (stepSpring (JsMath.mk Real.pi Real.cos Real.sin) (Config.mk (22 / 10) (105 / 100) true)
          (restState (1 : ℝ) 0) (33 / 1000)).x|
      < |(stepSpring (JsMath.mk Real.pi Real.cos Real.sin) (Config.mk (22 / 10) (105 / 100) true)
            { stepSpring (JsMath.mk Real.pi Real.cos Real.sin)
                (Config.mk (22 / 10) (105 / 100) true) (restState (1 : ℝ) 0) (33 / 1000) with
              tx := (stepSpring (JsMath.mk Real.pi Real.cos Real.sin)
                (Config.mk (22 / 10) (105 / 100) true) (restState (1 : ℝ) 0) (33 / 1000)).x }
            (33 / 1000)).x
        - (stepSpring (JsMath.mk Real.pi Real.cos Real.sin) (Config.mk (22 / 10) (105 / 100) true)
          (restState (1 : ℝ) 0) (33 / 1000)).x| := by
  have h3 := Real.pi_gt_three
  have h315 := Real.pi_lt_d2
  constructor
  · simp only [stepSpring, restState, initState, omega, TWO_PI]
    have e : (0 : ℝ) + (0 + (-2 * 1 * (Real.pi * 2 * 100) * 0
        - Real.pi * 2 * 100 * (Real.pi * 2 * 100) * (0 - 1)) * (33 / 1000)) * (33 / 1000) - 1
        = (4356 / 100) * Real.pi ^ 2 - 1 := by ring
    rw [e]
    have hp : (9 : ℝ) < Real.pi ^ 2 := by nlinarith
    rw [abs_of_nonpos (by norm_num), abs_of_nonneg (by linarith)]
    linarith
  · simp only [stepSpring, restState, initState, omega, TWO_PI, sub_self, abs_zero]
    apply abs_pos.mpr
    have h1 : 0 < 1 - 0.30492 * Real.pi := by linarith
    have h2 : 0 < Real.pi ^ 2 * (4.4 * 0.033) ^ 2 := by positivity
    refine ne_of_gt ?_
    linarith [mul_pos h2 h1]

/-- Witness for C1 (amended): the configured constants, `π`, the rest state with target
`(120, -40)`, and the frame deltas 0.016, 0.033 then 0.033. -/
theorem stepSpring_error_nonincreasing_witness :
    |(stepSpring (JsMath.mk Real.pi Real.cos Real.sin) (Config.mk (22 / 10) (105 / 100) true)
        (runSpring (JsMath.mk Real.pi Real.cos Real.sin) (Config.mk (22 / 10) (105 / 100) true)
          (restState (120 : ℝ) (-40)) [16 / 1000, 33 / 1000]) (33 / 1000)).x - 120|
      ≤ |(runSpring (JsMath.mk Real.pi Real.cos Real.sin) (Config.mk (22 / 10) (105 / 100) true)
          (restState (120 : ℝ) (-40)) [16 / 1000, 33 / 1000]).x - 120| := by
  have h315 := Real.pi_lt_d2
  have hpos := Real.pi_pos
  refine (stepSpring_error_nonincreasing (JsMath.mk Real.pi Real.cos Real.sin)
    (Config.mk (22 / 10) (105 / 100) true) (restState (120 : ℝ) (-40))
    [16 / 1000, 33 / 1000] (33 / 1000) hpos (by norm_num) (by norm_num) ?_ ?_ ?_).2.2.1
  · intro d hd
    simp only [List.mem_cons, List.mem_singleton, List.not_mem_nil, or_false] at hd
    simp only [omega, TWO_PI]
    rcases hd with rfl | rfl | rfl
    · constructor
      · norm_num
      · nlinarith
    · constructor
      · norm_num
      · nlinarith
    · constructor
      · norm_num
      · nlinarith
  · left
    simp only [restState, initState, omega, TWO_PI]
    refine ⟨by norm_num, le_refl 0, ?_⟩
    positivity
  · right
    simp only [restState, initState, omega, TWO_PI]
    refine ⟨by norm_num, le_refl 0, ?_⟩
    norm_num
    positivity

/-- Witness for C4: a 64 by 64 element in a 1280 by 720 viewport, pointer far outside. -/
theorem setTarget_within_viewport_witness :
    0 ≤ (restState (0 : ℚ) 0).baseLeft
        + (setTargetFromClientXY (Config.mk (22 / 10) (105 / 100) true)
            (Layout.mk 1280 720 64 64) (restState (0 : ℚ) 0) 5000 (-30) Mode.mouse).tx ∧
    (restState (0 : ℚ) 0).baseLeft
        + (setTargetFromClientXY (Config.mk (22 / 10) (105 / 100) true)
            (Layout.mk 1280 720 64 64) (restState (0 : ℚ) 0) 5000 (-30) Mode.mouse).tx
      ≤ 1280 - 64 := by
  have h := setTarget_within_viewport (Config.mk (22 / 10) (105 / 100) true)
    (Layout.mk (1280 : ℚ) 720 64 64) (restState (0 : ℚ) 0) 5000 (-30) Mode.mouse rfl rfl
    (by norm_num) (by norm_num)
  exact ⟨h.1, h.2.1⟩

end IconFollow

/-! Theorems: circular menu (`circular-menu.js`). -/

namespace CircularMenu

section
variable {α : Type} [LinearOrderedField α]

theorem polarPlace_length (m : JsMath α) (root : Node) (cx cy radius : α)
    (items : List (ItemNode α)) (gapDeg : α) :
    (polarPlace m root cx cy radius items gapDeg).length = items.length := by
  simp only [polarPlace]
  split_ifs <;> simp

theorem polarPlace_node (m : JsMath α) (root : Node) (cx cy radius : α)
    (items : List (ItemNode α)) (gapDeg : α) :
    (polarPlace m root cx cy radius items gapDeg).map (fun b => b.node)
      = items.map (fun b => b.node) := by
  simp only [polarPlace]
  split_ifs
  · rfl
  · apply List.ext_getElem?
    intro i
    simp only [List.getElem?_map, List.getElem?_mapIdx, Option.map_map]
    cases items[i]? <;> rfl

theorem polarPlace_item (m : JsMath α) (root : Node) (cx cy radius : α)
    (items : List (ItemNode α)) (gapDeg : α) :
    (polarPlace m root cx cy radius items gapDeg).map (fun b => b.item)
      = items.map (fun b => b.item) := by
  simp only [polarPlace]
  split_ifs
  · rfl
  · apply List.ext_getElem?
    intro i
    simp only [List.getElem?_map, List.getElem?_mapIdx, Option.map_map]
    cases items[i]? <;> rfl

theorem polarPlace_getElem (m : JsMath α) (root : Node) (cx cy radius : α)
    (items : List (ItemNode α)) (gapDeg : α) (i : Nat) (hi : i < items.length) :
    (polarPlace m root cx cy radius items gapDeg)[i]? =
      some { items[i] with
        left := some (cx + radius * m.cos
          (-m.PI / 2 - (2 * m.PI - gapDeg * m.PI / 180) / 2
            + ((i : α) + 1 / 2) * (2 * m.PI - gapDeg * m.PI / 180) / (items.length : α))),
        top := some (cy + radius * m.sin
          (-m.PI / 2 - (2 * m.PI - gapDeg * m.PI / 180) / 2
            + ((i : α) + 1 / 2) * (2 * m.PI - gapDeg * m.PI / 180) / (items.length : α))) } := by
  have hn : items.length ≠ 0 := by omega
  have ea : -m.PI / 2 - (m.PI * 2 - gapDeg * m.PI / 180) / 2
        + ((i : α) + 1 / 2) * ((m.PI * 2 - gapDeg * m.PI / 180) / (items.length : α))
      = -m.PI / 2 - (2 * m.PI - gapDeg * m.PI / 180) / 2
        + ((i : α) + 1 / 2) * (2 * m.PI - gapDeg * m.PI / 180) / (items.length : α) := by
    ring
  simp only [polarPlace, if_neg hn, List.getElem?_mapIdx, List.getElem?_eq_getElem hi,
    Option.map_some', ea]

end

/-- C3. For `n ≥ 1` items `polarPlace` writes to item `i` the point
`(cx + radius·cos θ, cy + radius·sin θ)` with `θ = -π/2 - span/2 + (i + 0.5)·span/n` and
`span = 2π - gapDeg·π/180`, changing nothing else; for no items it changes nothing. With
four items, radius 100, no gap and anchor `(0, 0)` the points are
`(-100/√2, 100/√2)`, `(-100/√2, -100/√2)`, `(100/√2, -100/√2)`, `(100/√2, 100/√2)`. -/
theorem polarPlace_spec :
    (∀ (α : Type) [LinearOrderedField α] (m : JsMath α) (root : Node) (cx cy radius : α)
        (items : List (ItemNode α)) (gapDeg : α) (i : Nat) (hi : i < items.length),
      (polarPlace m root cx cy radius items gapDeg).length = items.length ∧
      (polarPlace m root cx cy radius items gapDeg)[i]? =
        some { items[i] with
          left := some (cx + radius * m.cos
            (-m.PI / 2 - (2 * m.PI - gapDeg * m.PI / 180) / 2
              + ((i : α) + 1 / 2) * (2 * m.PI - gapDeg * m.PI / 180) / (items.length : α))),
          top := some (cy + radius * m.sin
            (-m.PI / 2 - (2 * m.PI - gapDeg * m.PI / 180) / 2
              + ((i : α) + 1 / 2) * (2 * m.PI - gapDeg * m.PI / 180)
                / (items.length : α))) }) ∧
    (∀ (α : Type) [LinearOrderedField α] (m : JsMath α) (root : Node) (cx cy radius gapDeg : α),
      polarPlace m root cx cy radius [] gapDeg = []) ∧
    (∀ (root : Node) (a b c d : ItemNode ℝ),
      (polarPlace (JsMath.mk Real.pi Real.cos Real.sin) root 0 0 100 [a, b, c, d] 0).map
          (fun it => (it.left, it.top))
        = [(some (-(100 / Real.sqrt 2)), some (100 / Real.sqrt 2)),
           (some (-(100 / Real.sqrt 2)), some (-(100 / Real.sqrt 2))),
           (some (100 / Real.sqrt 2), some (-(100 / Real.sqrt 2))),
           (some (100 / Real.sqrt 2), some (100 / Real.sqrt 2))]) := by
  refine ⟨?_, ?_, ?_⟩
  · intro α _ m root cx cy radius items gapDeg i hi
    exact ⟨polarPlace_length m root cx cy radius items gapDeg,
      polarPlace_getElem m root cx cy radius items gapDeg i hi⟩
  · intro α _ m root cx cy radius gapDeg
    rfl
  · intro root a b c d
    have hs : (100 : ℝ) * (Real.sqrt 2 / 2) = 100 / Real.sqrt 2 := by
      have h2 : Real.sqrt 2 / 2 = 1 / Real.sqrt 2 := Real.sqrt_div_self'
      rw [h2]; ring
    have e0 : -Real.pi / 2 - (Real.pi * 2 - 0 * Real.pi / 180) / 2
        + (((0 : ℕ) : ℝ) + 1 / 2) * ((Real.pi * 2 - 0 * Real.pi / 180) / ((4 : ℕ) : ℝ))
        = -(Real.pi / 4 + Real.pi) := by push_cast; ring
    have e1 : -Real.pi / 2 - (Real.pi * 2 - 0 * Real.pi / 180) / 2
        + (((1 : ℕ) : ℝ) + 1 / 2) * ((Real.pi * 2 - 0 * Real.pi / 180) / ((4 : ℕ) : ℝ))
        = Real.pi / 4 - Real.pi := by push_cast; ring
    have e2 : -Real.pi / 2 - (Real.pi * 2 - 0 * Real.pi / 180) / 2
        + (((2 : ℕ) : ℝ) + 1 / 2) * ((Real.pi * 2 - 0 * Real.pi / 180) / ((4 : ℕ) : ℝ))
        = -(Real.pi / 4) := by push_cast; ring
    have e3 : -Real.pi / 2 - (Real.pi * 2 - 0 * Real.pi / 180) / 2
        + (((3 : ℕ) : ℝ) + 1 / 2) * ((Real.pi * 2 - 0 * Real.pi / 180) / ((4 : ℕ) : ℝ))
        = Real.pi / 4 := by push_cast; ring
    simp only [polarPlace, List.length_cons, List.length_nil, List.mapIdx_cons, List.mapIdx_nil,
      List.map_cons, List.map_nil]
    simp only [Nat.reduceAdd, OfNat.ofNat_ne_zero, if_false, e0, e1, e2, e3, zero_add,
      Real.cos_neg, Real.sin_neg, Real.cos_add_pi, Real.sin_add_pi, Real.cos_sub_pi,
      Real.sin_sub_pi, Real.cos_pi_div_four, Real.sin_pi_div_four, mul_neg, neg_neg, hs]
    rfl

section
variable {α : Type}

/-- A node found in the document after `detach k` was there before and is not `k`. -/
theorem Dom.contains_detach (d : Dom) (k n : Node) (h : (d.detach k).contains n = true) :
    d.contains n = true ∧ n ≠ k := by
  simp only [Dom.contains, Dom.detach, List.any_eq_true, List.mem_map, List.mem_filter,
    Bool.or_eq_true, decide_eq_true_eq] at h ⊢
  obtain ⟨c, ⟨c0, ⟨hc0, hne⟩, rfl⟩, hc⟩ := h
  rcases hc with hc | hc
  · simp only at hc
    exact ⟨⟨c0, hc0, Or.inl hc⟩, by rw [← hc]; exact hne⟩
  · simp only [List.mem_filter, decide_eq_true_eq] at hc
    exact ⟨⟨c0, hc0, Or.inr hc.1⟩, hc.2⟩

theorem Dom.contains_detach_self (d : Dom) (k : Node) : (d.detach k).contains k = false := by
  cases h : (d.detach k).contains k with
  | false => rfl
  | true => exact absurd rfl (Dom.contains_detach d k k h).2

theorem Dom.not_contains_detach (d : Dom) (k n : Node) (h : d.contains n = false) :
    (d.detach k).contains n = false := by
  cases h1 : (d.detach k).contains n with
  | false => rfl
  | true => rw [(Dom.contains_detach d k n h1).1] at h; exact absurd h (by simp)

theorem Dom.detach_hidden (d : Dom) (k : Node) : (d.detach k).hidden = d.hidden := rfl

theorem Dom.detach_next (d : Dom) (k : Node) : (d.detach k).next = d.next := rfl

theorem closeMenu_frozen (s : State α) : (closeMenu s).frozen = s.frozen := by
  unfold closeMenu; cases s.menu <;> rfl

theorem closeMenu_detached (s : State α) : (closeMenu s).detached = s.detached := by
  unfold closeMenu; cases s.menu <;> rfl

theorem closeMenu_menu (s : State α) : (closeMenu s).menu = none := by
  unfold closeMenu; cases h : s.menu <;> simp [h]

theorem closeMenu_opts (s : State α) : (closeMenu s).opts = s.opts := by
  unfold closeMenu; cases s.menu <;> rfl

theorem closeMenu_lastTap (s : State α) : (closeMenu s).lastTap = s.lastTap := by
  unfold closeMenu; cases s.menu <;> rfl

theorem closeMenu_hidden (s : State α) : (closeMenu s).dom.hidden = s.dom.hidden := by
  unfold closeMenu; cases s.menu <;> rfl

theorem closeMenu_next (s : State α) : (closeMenu s).dom.next = s.dom.next := by
  unfold closeMenu; cases s.menu <;> rfl

/-- Closing the menu never brings a node into the document. -/
theorem closeMenu_not_contains (s : State α) (n : Node) (h : s.dom.contains n = false) :
    (closeMenu s).dom.contains n = false := by
  unfold closeMenu
  cases hm : s.menu with
  | none => simpa using h
  | some mn =>
    exact Dom.not_contains_detach _ _ _ (Dom.not_contains_detach _ _ _ h)

/-- After `closeMenu` the root and the backdrop of the menu that was open are out of the
document. -/
theorem closeMenu_removes (s : State α) (mn : Menu α) (hm : s.menu = some mn) :
    (closeMenu s).dom.contains mn.root = false ∧
    (closeMenu s).dom.contains mn.backdrop = false := by
  unfold closeMenu
  simp only [hm]
  exact ⟨Dom.not_contains_detach _ _ _ (Dom.contains_detach_self _ _),
    Dom.contains_detach_self _ _⟩

/-- C6. In a state with a frozen pair, `reattach` ends Attached: `detached = false`,
`frozen = null`, the inline visibility of the source cleared, the clone out of the
document, and no menu (`menu = null`, former root and backdrop out of the document). With
nothing frozen it changes nothing. -/
theorem reattach_spec (s : State α) :
    (∀ f : Frozen, s.frozen = some f →
      (reattach s).detached = false ∧
      (reattach s).frozen = none ∧
      f.origEl ∉ (reattach s).dom.hidden ∧
      (reattach s).dom.contains f.cloneEl = false ∧
      (reattach s).menu = none ∧
      (∀ mn : Menu α, s.menu = some mn →
        (reattach s).dom.contains mn.root = false ∧
        (reattach s).dom.contains mn.backdrop = false)) ∧
    (s.frozen = none → reattach s = s) := by
  constructor
  · intro f hf
    simp only [reattach, hf]
    refine ⟨?_, ?_, ?_, ?_, ?_, ?_⟩
    · rw [closeMenu_detached]
    · rw [closeMenu_frozen]
    · rw [closeMenu_hidden]
      simp [Dom.detach]
    · apply closeMenu_not_contains
      exact Dom.contains_detach_self _ _
    · exact closeMenu_menu _
    · intro mn hm
      exact closeMenu_removes _ mn hm
  · intro hf
    simp only [reattach, hf]

end

section
variable {α : Type} [LinearOrderedField α]

/-- Witness for C6: detach the icon `page 3`, open the menu on one item, then reattach. -/
theorem reattach_spec_witness :
    (reattach (openMenu (JsMath.mk Real.pi Real.cos Real.sin)
        (Browser.mk [] (Rect.mk 0 0 64 64))
        (freezeIcon (initState : State ℝ) (some (Node.page 3))))).frozen = none ∧
    (reattach (openMenu (JsMath.mk Real.pi Real.cos Real.sin)
        (Browser.mk [] (Rect.mk 0 0 64 64))
        (freezeIcon (initState : State ℝ) (some (Node.page 3))))).dom.contains
          (Node.made Cls.clone 0) = false := by
  have h := (reattach_spec (openMenu (JsMath.mk Real.pi Real.cos Real.sin)
        (Browser.mk [] (Rect.mk 0 0 64 64))
        (freezeIcon (initState : State ℝ) (some (Node.page 3))))).1
      ⟨Node.page 3, Node.made Cls.clone 0⟩
      (by simp [openMenu, freezeIcon, initState, buildMenu, closeMenu])
  exact ⟨h.2.1, h.2.2.2.1⟩

/-- C7. With no icon detached (`detached = false` or `frozen = null`), `open()` leaves the
whole state as it is: no node is created and `isOpen()` is unchanged. -/
theorem open_noop_when_attached (m : JsMath α) (b : Browser α) (s : State α)
    (h : s.detached = false ∨ s.frozen = none) :
    API.open m b s = s ∧
    (API.open m b s).dom = s.dom ∧
    API.isOpen (API.open m b s) = API.isOpen s := by
  have e : API.open m b s = s := by
    rcases h with h | h
    · simp [API.open, openMenu, h]
    · simp [API.open, openMenu, h]
  rw [e]
  exact ⟨rfl, rfl, rfl⟩

/-- Witness for C7: `open()` in the initial state. -/
theorem open_noop_when_attached_witness :
    API.open (JsMath.mk Real.pi Real.cos Real.sin) (Browser.mk [] (Rect.mk 0 0 64 64))
      (initState : State ℝ) = initState :=
  (open_noop_when_attached (JsMath.mk Real.pi Real.cos Real.sin)
    (Browser.mk [] (Rect.mk 0 0 64 64)) (initState : State ℝ) (Or.inl rfl)).1

end

section
variable {α : Type}

/-- Changing only `lastTap` and `opts` keeps consistency. -/
theorem Consistent.congr {s t : State α} (h : Consistent s)
    (h1 : t.detached = s.detached) (h2 : t.frozen = s.frozen) (h3 : t.menu = s.menu)
    (h4 : t.dom = s.dom) : Consistent t := by
  refine ⟨?_, ?_, ?_, ?_, ?_, ?_, ?_⟩
  · rw [h1, h2]; exact h.flag
  · rw [h2, h3]; exact h.anchored
  · rw [h4, h.body]; simp only [expectedBody, h2, h3]
  · rw [h2, h4]; exact h.clone
  · rw [h3, h4]; exact h.backdrop
  · rw [h3, h4]; exact h.root
  · rw [h3, h4]; exact h.items

/-- Buttons are never removed from their root by detaching a node of another class. -/
theorem filter_items_ne (kids : List Node) (n : Node) (c : Cls) (k : Nat)
    (hn : n = Node.made c k) (hc : c ≠ Cls.item)
    (hk : ∀ x ∈ kids, ∃ j, x = Node.made Cls.item j) :
    kids.filter (fun x => decide (x ≠ n)) = kids := by
  rw [List.filter_eq_self]
  intro x hx
  obtain ⟨j, rfl⟩ := hk x hx
  subst hn
  simp only [ne_eq, Node.made.injEq, not_and, decide_eq_true_eq]
  intro e
  exact absurd e.symm hc

theorem items_kids {mn : Menu α} {next : Nat}
    (h : ∀ it ∈ mn.items, it.node.madeBefore Cls.item next) :
    ∀ x ∈ mn.items.map (fun b => b.node), ∃ j, x = Node.made Cls.item j := by
  intro x hx
  obtain ⟨it, hit, rfl⟩ := List.mem_map.mp hx
  obtain ⟨k, _, hk⟩ := h it hit
  exact ⟨k, hk⟩

theorem closeMenu_consistent {s : State α} (h : Consistent s) : Consistent (closeMenu s) := by
  cases hm : s.menu with
  | none =>
    have e : closeMenu s = s := by simp [closeMenu, hm]
    rw [e]; exact h
  | some mn =>
    have hfz : s.frozen.isSome = true := h.anchored (by simp [hm])
    obtain ⟨f, hf⟩ := Option.isSome_iff_exists.mp hfz
    obtain ⟨kc, _, hkc⟩ := h.clone f hf
    obtain ⟨kb, _, hkb⟩ := h.backdrop mn hm
    obtain ⟨kr, _, hkr⟩ := h.root mn hm
    have hkids := items_kids (h.items mn hm)
    have hbody := h.body
    simp only [expectedBody, hf, hm] at hbody
    have e1 : (mn.items.map (fun b => b.node)).filter (fun x => decide (x ≠ mn.backdrop))
        = mn.items.map (fun b => b.node) :=
      filter_items_ne _ _ Cls.backdrop kb hkb (by decide) hkids
    refine ⟨?_, ?_, ?_, ?_, ?_, ?_, ?_⟩
    · rw [closeMenu_detached, closeMenu_frozen]; exact h.flag
    · intro hx; rw [closeMenu_menu] at hx; simp at hx
    · simp only [closeMenu, hm, expectedBody, hf, Dom.detach, hbody]
      simp [hkc, hkb, hkr]
    · intro f1 hf1; rw [closeMenu_frozen] at hf1; rw [closeMenu_next]; exact h.clone f1 hf1
    · intro m1 hm1; rw [closeMenu_menu] at hm1; simp at hm1
    · intro m1 hm1; rw [closeMenu_menu] at hm1; simp at hm1
    · intro m1 hm1; rw [closeMenu_menu] at hm1; simp at hm1

theorem reattach_consistent {s : State α} (h : Consistent s) : Consistent (reattach s) := by
  cases hf : s.frozen with
  | none =>
    have e : reattach s = s := by simp [reattach, hf]
    rw [e]; exact h
  | some f =>
    obtain ⟨kc, _, hkc⟩ := h.clone f hf
    have hbody := h.body
    refine ⟨?_, ?_, ?_, ?_, ?_, ?_, ?_⟩
    · simp [reattach, hf, closeMenu_detached, closeMenu_frozen]
    · intro hx; simp [reattach, hf, closeMenu_menu] at hx
    · cases hm : s.menu with
      | none =>
        simp only [expectedBody, hf, hm] at hbody
        simp [reattach, hf, closeMenu, hm, expectedBody, Dom.detach, hbody]
      | some mn =>
        obtain ⟨kb, _, hkb⟩ := h.backdrop mn hm
        obtain ⟨kr, _, hkr⟩ := h.root mn hm
        simp only [expectedBody, hf, hm] at hbody
        simp only [reattach, hf, closeMenu, hm, expectedBody, Dom.detach, hbody]
        simp [hkc, hkb, hkr]
    · intro f1 hf1; simp [reattach, hf, closeMenu_frozen] at hf1
    · intro m1 hm1; simp [reattach, hf, closeMenu_menu] at hm1
    · intro m1 hm1; simp [reattach, hf, closeMenu_menu] at hm1
    · intro m1 hm1; simp [reattach, hf, closeMenu_menu] at hm1

theorem freezeIcon_consistent {s : State α} (h : Consistent s) (hd : s.detached = false)
    (el : Node) : Consistent (freezeIcon s (some el)) := by
  have hfz : s.frozen = none := by
    have := h.flag
    rw [hd] at this
    cases hf : s.frozen with
    | none => rfl
    | some f => rw [hf] at this; simp at this
  have hm : s.menu = none := by
    cases hm : s.menu with
    | none => rfl
    | some mn =>
      have := h.anchored (by simp [hm])
      rw [hfz] at this; simp at this
  have hbody := h.body
  simp only [expectedBody, hfz, hm] at hbody
  refine ⟨?_, ?_, ?_, ?_, ?_, ?_, ?_⟩
  · simp [freezeIcon]
  · intro _; simp [freezeIcon]
  · simp [freezeIcon, expectedBody, hm, hbody]
  · intro f hf
    simp only [freezeIcon, Option.some.injEq] at hf
    subst hf
    exact ⟨s.dom.next, by simp [freezeIcon], rfl⟩
  · intro mn h1; simp [freezeIcon, hm] at h1
  · intro mn h1; simp [freezeIcon, hm] at h1
  · intro mn h1; simp [freezeIcon, hm] at h1

theorem runOnSelect_consistent (cs : List CtxCall) {s : State α} (h : Consistent s) :
    Consistent (runOnSelect s cs) := by
  induction cs generalizing s with
  | nil => exact h
  | cons c cs ih =>
    cases c with
    | closeMenu => exact ih (closeMenu_consistent h)
    | reattach => exact ih (reattach_consistent h)

theorem onItemPointerDown_consistent {s : State α} (h : Consistent s) (i : Nat) :
    Consistent (onItemPointerDown s i) := by
  unfold onItemPointerDown
  cases s.menu with
  | none => exact h
  | some mn =>
    simp only
    cases mn.items.get? i with
    | none => exact h
    | some it => exact runOnSelect_consistent _ h

/-- Among the buttons of a root only the class `item` is found. -/
theorem filter_hasClass_kids (kids : List Node) (c : Cls)
    (hk : ∀ x ∈ kids, ∃ j, x = Node.made Cls.item j) :
    kids.filter (Node.hasClass c) = if c = Cls.item then kids else [] := by
  split_ifs with hc
  · rw [List.filter_eq_self]
    intro x hx
    obtain ⟨j, rfl⟩ := hk x hx
    simp [Node.hasClass, hc]
  · rw [List.filter_eq_nil_iff]
    intro x hx
    obtain ⟨j, rfl⟩ := hk x hx
    simp only [Node.hasClass, decide_eq_true_eq]
    exact fun e => hc e.symm

/-- In a consistent state the document holds one clone exactly when an icon is frozen, one
root and one backdrop exactly when a menu is open, and the buttons of that menu. -/
theorem Consistent.counts {s : State α} (h : Consistent s) :
    s.dom.count Cls.clone = (if s.frozen.isSome then 1 else 0) ∧
    s.dom.count Cls.root = (if s.menu.isSome then 1 else 0) ∧
    s.dom.count Cls.backdrop = (if s.menu.isSome then 1 else 0) ∧
    s.dom.count Cls.item = (match s.menu with
      | none => 0
      | some mn => mn.items.length) := by
  have hbody := h.body
  cases hm : s.menu with
  | none =>
    cases hf : s.frozen with
    | none =>
      simp only [expectedBody, hf, hm] at hbody
      simp [Dom.count, hbody]
    | some f =>
      obtain ⟨kc, _, hkc⟩ := h.clone f hf
      simp only [expectedBody, hf, hm] at hbody
      simp [Dom.count, hbody, hkc, Node.hasClass, hf]
  | some mn =>
    have hfz : s.frozen.isSome = true := h.anchored (by simp [hm])
    obtain ⟨f, hf⟩ := Option.isSome_iff_exists.mp hfz
    obtain ⟨kc, _, hkc⟩ := h.clone f hf
    obtain ⟨kb, _, hkb⟩ := h.backdrop mn hm
    obtain ⟨kr, _, hkr⟩ := h.root mn hm
    have hkids := items_kids (h.items mn hm)
    simp only [expectedBody, hf, hm] at hbody
    have e := fun c => filter_hasClass_kids (mn.items.map (fun b => b.node)) c hkids
    simp [Dom.count, hbody, hkc, hkb, hkr, Node.hasClass, List.filter_cons, e, hf]

/-- In a consistent state every node in the document is the frozen clone, the backdrop or
root of the open menu, or one of its buttons. -/
theorem Consistent.contains_cases {s : State α} (h : Consistent s) (n : Node)
    (hn : s.dom.contains n = true) :
    (∃ f, s.frozen = some f ∧ n = f.cloneEl) ∨
    (∃ mn, s.menu = some mn ∧
      (n = mn.backdrop ∨ n = mn.root ∨ n ∈ mn.items.map (fun b => b.node))) := by
  have hbody := h.body
  simp only [Dom.contains, hbody, expectedBody, List.any_eq_true, List.mem_append,
    Bool.or_eq_true, decide_eq_true_eq] at hn
  obtain ⟨c, hc, hcn⟩ := hn
  rcases hc with hc | hc
  · cases hf : s.frozen with
    | none => rw [hf] at hc; simp at hc
    | some f =>
      rw [hf] at hc
      simp only [List.mem_singleton] at hc
      subst hc
      simp only [List.not_mem_nil, or_false] at hcn
      exact Or.inl ⟨f, rfl, hcn.symm⟩
  · cases hm : s.menu with
    | none => rw [hm] at hc; simp at hc
    | some mn =>
      rw [hm] at hc
      simp only [List.mem_cons, List.mem_singleton, List.not_mem_nil, or_false] at hc
      right
      refine ⟨mn, rfl, ?_⟩
      rcases hc with rfl | rfl
      · simp only [List.not_mem_nil, or_false] at hcn
        exact Or.inl hcn.symm
      · rcases hcn with hcn | hcn
        · exact Or.inr (Or.inl hcn.symm)
        · exact Or.inr (Or.inr hcn)

/-- The structural invariant gives the invariant of the claim. -/
theorem Consistent.menuInvariant {s : State α} (h : Consistent s) : MenuInvariant s := by
  obtain ⟨c1, c2, c3, _⟩ := h.counts
  refine ⟨?_, ?_, ?_, ?_, ?_⟩
  · rw [h.flag]
  · intro hm; rw [h.flag]; exact h.anchored hm
  · rw [c1]; split_ifs <;> omega
  · rw [c2]; split_ifs <;> omega
  · rw [c3]; split_ifs <;> omega

end

section
variable {α : Type} [LinearOrderedField α]

theorem initState_consistent : Consistent (initState : State α) := by
  refine ⟨rfl, ?_, rfl, ?_, ?_, ?_, ?_⟩
  · intro h; simp [initState] at h
  · intro f h; simp [initState] at h
  · intro mn h; simp [initState] at h
  · intro mn h; simp [initState] at h
  · intro mn h; simp [initState] at h

/-- Witness for C3: one item, radius 100, no gap, anchor `(0, 0)`, real `Math`. -/
theorem polarPlace_spec_witness :
    (polarPlace (JsMath.mk Real.pi Real.cos Real.sin) (Node.made Cls.root 1) 0 0 100
        [ItemNode.mk (Node.made Cls.item 2) (MenuItemSpec.mk "note" none none []) none none]
        0).length = 1 :=
  (polarPlace_spec.1 ℝ (JsMath.mk Real.pi Real.cos Real.sin) (Node.made Cls.root 1) 0 0 100
    [ItemNode.mk (Node.made Cls.item 2) (MenuItemSpec.mk "note" none none []) none none]
    0 0 (by simp)).1

theorem buildMenu_frozen (m : JsMath α) (s : State α) (items : List MenuItemSpec) (cx cy : α) :
    (buildMenu m s items cx cy).frozen = s.frozen ∧
    (buildMenu m s items cx cy).detached = s.detached ∧
    (buildMenu m s items cx cy).opts = s.opts ∧
    (buildMenu m s items cx cy).lastTap = s.lastTap ∧
    (buildMenu m s items cx cy).dom.hidden = s.dom.hidden := ⟨rfl, rfl, rfl, rfl, rfl⟩

/-- The menu built by `buildMenu`: fresh backdrop and root, one button per item in order. -/
theorem buildMenu_menu (m : JsMath α) (s : State α) (items : List MenuItemSpec) (cx cy : α) :
    ∃ mn : Menu α, (buildMenu m s items cx cy).menu = some mn ∧
      mn.backdrop = Node.made Cls.backdrop s.dom.next ∧
      mn.root = Node.made Cls.root (s.dom.next + 1) ∧
      mn.items.map (fun b => b.item) = items ∧
      mn.items.map (fun b => b.node)
        = items.mapIdx (fun i _ => Node.made Cls.item (s.dom.next + 2 + i)) ∧
      (buildMenu m s items cx cy).dom.body = s.dom.body ++
        [⟨mn.backdrop, []⟩, ⟨mn.root, mn.items.map (fun b => b.node)⟩] ∧
      (buildMenu m s items cx cy).dom.next = s.dom.next + 2 + items.length := by
  refine ⟨_, rfl, rfl, rfl, ?_, ?_, ?_, rfl⟩
  · simp only [polarPlace_item]
    apply List.ext_getElem?
    intro i
    simp only [List.getElem?_map, List.getElem?_mapIdx, Option.map_map]
    cases items[i]? <;> rfl
  · simp only [polarPlace_node]
    apply List.ext_getElem?
    intro i
    simp only [List.getElem?_map, List.getElem?_mapIdx, Option.map_map]
    cases items[i]? <;> rfl
  · simp only [buildMenu, polarPlace_node]

theorem buildMenu_consistent (m : JsMath α) {s : State α} (h : Consistent s)
    (hm : s.menu = none) (hf : s.frozen.isSome = true)
    (items : List MenuItemSpec) (cx cy : α) : Consistent (buildMenu m s items cx cy) := by
  obtain ⟨mn, e1, e2, e3, e4, e5, e6, e7⟩ := buildMenu_menu m s items cx cy
  obtain ⟨f, hf1⟩ := Option.isSome_iff_exists.mp hf
  have hbody := h.body
  simp only [expectedBody, hf1, hm, List.append_nil] at hbody
  refine ⟨?_, ?_, ?_, ?_, ?_, ?_, ?_⟩
  · exact h.flag
  · intro _; exact hf
  · rw [e6, hbody]
    simp only [expectedBody, e1]
    rw [(buildMenu_frozen m s items cx cy).1, hf1]
  · intro f1 h1
    rw [(buildMenu_frozen m s items cx cy).1] at h1
    obtain ⟨k, hk, hn⟩ := h.clone f1 h1
    exact ⟨k, by rw [e7]; omega, hn⟩
  · intro m1 h1
    rw [e1] at h1
    obtain rfl := Option.some.inj h1
    exact ⟨s.dom.next, by rw [e7]; omega, e2⟩
  · intro m1 h1
    rw [e1] at h1
    obtain rfl := Option.some.inj h1
    exact ⟨s.dom.next + 1, by rw [e7]; omega, e3⟩
  · intro m1 h1 it hit
    rw [e1] at h1
    obtain rfl := Option.some.inj h1
    have hmem : it.node ∈ mn.items.map (fun b => b.node) := List.mem_map_of_mem _ hit
    rw [e5] at hmem
    obtain ⟨i, hi, hx⟩ := List.getElem_of_mem hmem
    simp only [List.getElem_mapIdx] at hx
    simp only [List.length_mapIdx] at hi
    exact ⟨s.dom.next + 2 + i, by rw [e7]; omega, hx.symm⟩

theorem openMenu_consistent (m : JsMath α) (b : Browser α) {s : State α} (h : Consistent s) :
    Consistent (openMenu m b s) := by
  unfold openMenu
  split_ifs with hg
  · exact h
  · push_neg at hg
    have hf : s.frozen.isSome = true := by
      cases hx : s.frozen with
      | none => exact absurd (by simp [hx]) hg.2
      | some f => rfl
    exact buildMenu_consistent m (closeMenu_consistent h) (closeMenu_menu s)
      (by rw [closeMenu_frozen]; exact hf) _ _ _

theorem onBodyDblClick_consistent (m : JsMath α) (b : Browser α) {s : State α}
    (h : Consistent s) : Consistent (onBodyDblClick m b s) := by
  simp only [onBodyDblClick]
  split_ifs with hd ha
  · exact h
  · cases hx : getActiveIcon b.scan with
    | none => rw [hx] at ha; simp at ha
    | some el => exact openMenu_consistent m b (freezeIcon_consistent h hd el)
  · exact openMenu_consistent m b h

theorem onBodyPointerDown_consistent (m : JsMath α) (b : Browser α) {s : State α}
    (h : Consistent s) (ev : PointerEvent α) (now : α) :
    Consistent (onBodyPointerDown m b s ev now) := by
  unfold onBodyPointerDown
  split_ifs
  · exact h
  · exact (onBodyDblClick_consistent m b h).congr rfl rfl rfl rfl
  · exact h.congr rfl rfl rfl rfl

theorem updateItems_consistent (m : JsMath α) (b : Browser α) {s : State α}
    (h : Consistent s) (items : List MenuItemSpec) :
    Consistent (API.updateItems m b s items) := by
  have h1 : Consistent ({ s with opts := { s.opts with items := items } } : State α) :=
    h.congr rfl rfl rfl rfl
  unfold API.updateItems
  simp only
  split_ifs
  · exact openMenu_consistent m b h1
  · exact h1

theorem step_consistent (m : JsMath α) {s : State α} (h : Consistent s) (e : Event α) :
    Consistent (step m s e) := by
  cases e with
  | dblclick b inMenu =>
    simp only [step]
    split_ifs
    · exact h
    · exact onBodyDblClick_consistent m b h
  | bodyPointerDown b ev now => exact onBodyPointerDown_consistent m b h ev now
  | cloneDown => exact reattach_consistent h
  | backdropDown => exact closeMenu_consistent h
  | itemDown i => exact onItemPointerDown_consistent h i
  | apiOpen b => exact openMenu_consistent m b h
  | apiClose => exact closeMenu_consistent h
  | apiUpdateItems b items => exact updateItems_consistent m b h items
  | apiInit o => exact h.congr rfl rfl rfl rfl

theorem reachable_consistent (m : JsMath α) {s : State α} (h : Reachable m s) :
    Consistent s := by
  induction h with
  | init => exact initState_consistent
  | step s e _ ih => exact step_consistent m ih e

/-- With an icon detached, `openMenu` keeps the frozen pair and the options and leaves one
freshly created menu built from the configured items. -/
theorem openMenu_rebuild (m : JsMath α) (b : Browser α) {s : State α} (h : Consistent s)
    (hd : s.detached = true) :
    (openMenu m b s).frozen = s.frozen ∧
    (openMenu m b s).opts = s.opts ∧
    ∃ mn : Menu α, (openMenu m b s).menu = some mn ∧
      mn.items.map (fun x => x.item) = s.opts.items ∧
      mn.backdrop = Node.made Cls.backdrop s.dom.next ∧
      mn.root = Node.made Cls.root (s.dom.next + 1) ∧
      mn.items.map (fun x => x.node)
        = s.opts.items.mapIdx (fun i _ => Node.made Cls.item (s.dom.next + 2 + i)) := by
  have hf : s.frozen.isSome = true := by rw [← h.flag]; exact hd
  have hg : ¬ (s.detached = false ∨ s.frozen.isNone = true) := by
    rw [hd]
    cases hx : s.frozen with
    | none => rw [hx] at hf; simp at hf
    | some f => simp
  simp only [openMenu, if_neg hg]
  obtain ⟨mn, e1, e2, e3, e4, e5, _, _⟩ := buildMenu_menu m (closeMenu s)
    (closeMenu s).opts.items ((closeMenu s).opts.anchor b.cloneRect).x
    ((closeMenu s).opts.anchor b.cloneRect).y
  refine ⟨?_, ?_, mn, e1, ?_, ?_, ?_, ?_⟩
  · rw [(buildMenu_frozen _ _ _ _ _).1, closeMenu_frozen]
  · rw [(buildMenu_frozen _ _ _ _ _).2.2.1, closeMenu_opts]
  · rw [e4, closeMenu_opts]
  · rw [e2, closeMenu_next]
  · rw [e3, closeMenu_next]
  · rw [e5, closeMenu_opts, closeMenu_next]

/-- After `openMenu` with an icon detached, no menu node created earlier is in the
document. -/
theorem openMenu_stale (m : JsMath α) (b : Browser α) {s : State α} (h : Consistent s)
    (hd : s.detached = true) (n : Node) (c : Cls) (hc : c ≠ Cls.clone)
    (hn : n.madeBefore c s.dom.next) : (openMenu m b s).dom.contains n = false := by
  obtain ⟨k, hk, rfl⟩ := hn
  obtain ⟨e1, _, mn, e2, _, e3, e4, e5⟩ := openMenu_rebuild m b h hd
  have ht := openMenu_consistent m b h
  cases hx : (openMenu m b s).dom.contains (Node.made c k) with
  | false => rfl
  | true =>
    exfalso
    rcases ht.contains_cases _ hx with ⟨f, hf, hnf⟩ | ⟨mn1, hm1, hcase⟩
    · obtain ⟨kc, _, hkc⟩ := ht.clone f hf
      rw [hkc] at hnf
      simp only [Node.made.injEq] at hnf
      exact hc hnf.1
    · rw [e2] at hm1
      obtain rfl := Option.some.inj hm1
      rcases hcase with h1 | h1 | h1
      · rw [e3] at h1
        simp only [Node.made.injEq] at h1
        omega
      · rw [e4] at h1
        simp only [Node.made.injEq] at h1
        omega
      · rw [e5] at h1
        obtain ⟨i, hi, hxi⟩ := List.getElem_of_mem h1
        simp only [List.getElem_mapIdx, Node.made.injEq] at hxi
        omega

/-- C8. In every state reachable from the initial one by double-click or double-tap
triggers, clone interaction, backdrop and item pointer-downs (callbacks calling `closeMenu`
or `reattach`), `open()`, `close()`, `updateItems` and `init`: `detached` holds exactly
when `frozen` is set, an open menu implies Detached, and the document holds at most one
clone, one root and one backdrop. A trigger while Detached keeps the frozen pair, leaves
exactly one clone, and replaces any earlier menu by exactly one. -/
theorem menu_invariant (m : JsMath α) (s : State α) (h : Reachable m s) :
    MenuInvariant s ∧
    (s.detached = true → ∀ b : Browser α,
      (onBodyDblClick m b s).frozen = s.frozen ∧
      (onBodyDblClick m b s).dom.count Cls.clone = 1 ∧
      (onBodyDblClick m b s).menu.isSome = true ∧
      (onBodyDblClick m b s).dom.count Cls.root = 1 ∧
      (onBodyDblClick m b s).dom.count Cls.backdrop = 1 ∧
      (∀ mn : Menu α, s.menu = some mn →
        (onBodyDblClick m b s).dom.contains mn.root = false ∧
        (onBodyDblClick m b s).dom.contains mn.backdrop = false)) := by
  have hc := reachable_consistent m h
  refine ⟨hc.menuInvariant, ?_⟩
  intro hd b
  have e : onBodyDblClick m b s = openMenu m b s := by
    simp [onBodyDblClick, hd]
  rw [e]
  obtain ⟨e1, _, mn1, e2, _⟩ := openMenu_rebuild m b hc hd
  have ht := openMenu_consistent m b hc
  obtain ⟨c1, c2, c3, _⟩ := ht.counts
  have hf : s.frozen.isSome = true := by rw [← hc.flag]; exact hd
  refine ⟨e1, ?_, ?_, ?_, ?_, ?_⟩
  · rw [c1, e1, if_pos hf]
  · rw [e2]; rfl
  · rw [c2, e2]; rfl
  · rw [c3, e2]; rfl
  · intro mn hm
    exact ⟨openMenu_stale m b hc hd _ Cls.root (by decide) (hc.root mn hm),
      openMenu_stale m b hc hd _ Cls.backdrop (by decide) (hc.backdrop mn hm)⟩

/-- Witness for C8: the state after a double-click that finds the icon `page 3`. -/
theorem menu_invariant_witness :
    MenuInvariant (step (JsMath.mk Real.pi Real.cos Real.sin) (initState : State ℝ)
      (Event.dblclick
        (Browser.mk [ScanEl.mk (Node.page 3) "fixed" "block" "visible" 1 (some 999999)]
          (Rect.mk 100 200 64 64)) false)) :=
  (menu_invariant (JsMath.mk Real.pi Real.cos Real.sin) _
    (Reachable.step _ _ Reachable.init)).1

/-- C10. In every reachable state `updateItems(newItems)` sets the configured items to
`newItems`. If a menu was open, the menu afterwards has one button per new item, in order,
these are the only buttons in the document, and the former root, backdrop and buttons are
out of the document. If no menu was open, none is opened and the document is untouched. -/
theorem updateItems_spec (m : JsMath α) (b : Browser α) (s : State α)
    (items : List MenuItemSpec) (h : Reachable m s) :
    (API.updateItems m b s items).opts.items = items ∧
    (∀ old : Menu α, s.menu = some old →
      (∃ mn : Menu α, (API.updateItems m b s items).menu = some mn ∧
        mn.items.map (fun x => x.item) = items ∧
        mn.items.length = items.length) ∧
      (API.updateItems m b s items).dom.count Cls.item = items.length ∧
      (API.updateItems m b s items).dom.count Cls.root = 1 ∧
      (API.updateItems m b s items).dom.count Cls.backdrop = 1 ∧
      (API.updateItems m b s items).dom.contains old.root = false ∧
      (API.updateItems m b s items).dom.contains old.backdrop = false ∧
      (∀ it ∈ old.items, (API.updateItems m b s items).dom.contains it.node = false)) ∧
    (s.menu = none →
      (API.updateItems m b s items).menu = none ∧
      (API.updateItems m b s items).dom = s.dom) := by
  have hc := reachable_consistent m h
  have h1 : Consistent ({ s with opts := { s.opts with items := items } } : State α) :=
    hc.congr rfl rfl rfl rfl
  refine ⟨?_, ?_, ?_⟩
  · simp only [API.updateItems]
    split_ifs with hm
    · simp only [openMenu]
      split_ifs
      · rfl
      · rw [(buildMenu_frozen _ _ _ _ _).2.2.1, closeMenu_opts]
    · rfl
  · intro old hm
    have hd : s.detached = true := by
      rw [hc.flag]; exact hc.anchored (by simp [hm])
    have e : API.updateItems m b s items
        = openMenu m b ({ s with opts := { s.opts with items := items } } : State α) := by
      simp [API.updateItems, hm]
    rw [e]
    obtain ⟨_, _, mn, e2, e3, _⟩ := openMenu_rebuild m b h1 hd
    have ht := openMenu_consistent m b h1
    obtain ⟨_, c2, c3, c4⟩ := ht.counts
    have hlen : mn.items.length = items.length := by
      have := congrArg List.length e3
      simpa using this
    refine ⟨⟨mn, e2, e3, hlen⟩, ?_, ?_, ?_, ?_, ?_, ?_⟩
    · rw [c4, e2]; exact hlen
    · rw [c2, e2]; rfl
    · rw [c3, e2]; rfl
    · exact openMenu_stale m b h1 hd _ Cls.root (by decide) (hc.root old hm)
    · exact openMenu_stale m b h1 hd _ Cls.backdrop (by decide) (hc.backdrop old hm)
    · intro it hit
      exact openMenu_stale m b h1 hd _ Cls.item (by decide) (hc.items old hm it hit)
  · intro hm
    simp [API.updateItems, hm]

/-- Witness for C10: `updateItems` with two items on the state after a double-click that
finds the icon `page 3`. -/
theorem updateItems_spec_witness :
    (API.updateItems (JsMath.mk Real.pi Real.cos Real.sin)
      (Browser.mk [] (Rect.mk 100 200 64 64))
      (step (JsMath.mk Real.pi Real.cos Real.sin) (initState : State ℝ)
        (Event.dblclick
          (Browser.mk [ScanEl.mk (Node.page 3) "fixed" "block" "visible" 1 (some 999999)]
            (Rect.mk 100 200 64 64)) false))
      [MenuItemSpec.mk "note" (some "Ajouter note") none [CtxCall.closeMenu],
       MenuItemSpec.mk "tag" (some "Tagger") none []]).opts.items
    = [MenuItemSpec.mk "note" (some "Ajouter note") none [CtxCall.closeMenu],
       MenuItemSpec.mk "tag" (some "Tagger") none []] :=
  (updateItems_spec (JsMath.mk Real.pi Real.cos Real.sin)
    (Browser.mk [] (Rect.mk 100 200 64 64)) _ _ (Reachable.step _ _ Reachable.init)).1

theorem openMenu_opts (m : JsMath α) (b : Browser α) (s : State α) :
    (openMenu m b s).opts = s.opts ∧ (openMenu m b s).lastTap = s.lastTap := by
  simp only [openMenu]
  split_ifs
  · exact ⟨rfl, rfl⟩
  · exact ⟨by rw [(buildMenu_frozen _ _ _ _ _).2.2.1, closeMenu_opts],
      by rw [(buildMenu_frozen _ _ _ _ _).2.2.2.1, closeMenu_lastTap]⟩

theorem onBodyDblClick_opts (m : JsMath α) (b : Browser α) (s : State α) :
    (onBodyDblClick m b s).opts = s.opts ∧ (onBodyDblClick m b s).lastTap = s.lastTap := by
  simp only [onBodyDblClick]
  split_ifs with hd ha
  · exact ⟨rfl, rfl⟩
  · cases hx : getActiveIcon b.scan with
    | none => rw [hx] at ha; simp at ha
    | some el => exact openMenu_opts m b _
  · exact openMenu_opts m b s

theorem onBodyPointerDown_opts (m : JsMath α) (b : Browser α) (s : State α)
    (ev : PointerEvent α) (now : α) : (onBodyPointerDown m b s ev now).opts = s.opts := by
  simp only [onBodyPointerDown]
  split_ifs
  · rfl
  · exact (onBodyDblClick_opts m b s).1
  · rfl

/-- Pointer-downs that are not touch neither trigger nor change anything. -/
theorem onBodyPointerDown_other (m : JsMath α) (b : Browser α) (s : State α)
    (ev : PointerEvent α) (now : α) (h : ev.pointerType ≠ PointerType.touch) :
    triggers s ev now = false ∧ onBodyPointerDown m b s ev now = s := by
  simp [triggers, onBodyPointerDown, h]

/-- With the sentinel `t = 0` recorded, a pointer-down later than `doubleTapMs` is no hit. -/
theorem doubleTapHit_sentinel (s : State α) (ev : PointerEvent α) (now : α)
    (h0 : s.lastTap.t = 0) (hl : s.opts.doubleTapMs < now) : doubleTapHit s ev now = false := by
  simp only [doubleTapHit, h0, sub_zero, Bool.and_eq_false_imp, Bool.and_eq_true,
    decide_eq_true_eq, decide_eq_false_iff_not]
  intro h
  exact absurd h.1 (not_le.mpr hl)

theorem tapTrace_eq_recent (m : JsMath α) (es : List (BodyDown α)) :
    ∀ (s : State α) (past : List (BodyDown α × Bool)), TapRecorded s past →
      (∀ e ∈ es, s.opts.doubleTapMs < e.now) →
      tapTrace m s es = recentTrace s.opts.doubleTapMs s.opts.doubleTapTolPx past es := by
  induction es with
  | nil => intro s past _ _; rfl
  | cons e es ih =>
    intro s past hr hl
    have hle := hl e (List.mem_cons_self e es)
    have hl' : ∀ x ∈ es, (onBodyPointerDown m e.b s e.ev e.now).opts.doubleTapMs < x.now := by
      intro x hx
      rw [onBodyPointerDown_opts]
      exact hl x (List.mem_cons_of_mem e hx)
    have key : triggers s e.ev e.now
          = recentTrigger s.opts.doubleTapMs s.opts.doubleTapTolPx past e ∧
        TapRecorded (onBodyPointerDown m e.b s e.ev e.now)
          ((e, recentTrigger s.opts.doubleTapMs s.opts.doubleTapTolPx past e) :: past) := by
      by_cases ht : e.ev.pointerType = PointerType.touch
      · unfold TapRecorded at hr
        cases hfind : past.find? (fun p => decide (p.1.ev.pointerType = PointerType.touch)) with
        | none =>
          rw [hfind] at hr
          have hh := doubleTapHit_sentinel s e.ev e.now hr hle
          refine ⟨by simp [triggers, recentTrigger, hfind, hh], ?_⟩
          simp [TapRecorded, recentTrigger, hfind, ht, onBodyPointerDown, hh]
        | some p =>
          rw [hfind] at hr
          cases hp2 : p.2 with
          | true =>
            simp only [hp2, if_true] at hr
            have hh := doubleTapHit_sentinel s e.ev e.now hr hle
            refine ⟨by simp [triggers, recentTrigger, hfind, hh, hp2], ?_⟩
            simp [TapRecorded, recentTrigger, hfind, ht, onBodyPointerDown, hh, hp2]
          | false =>
            simp only [hp2, Bool.false_eq_true, if_false] at hr
            have hh : doubleTapHit s e.ev e.now
                = closeTo s.opts.doubleTapMs s.opts.doubleTapTolPx p.1 e := by
              simp only [doubleTapHit, closeTo, hr]
            refine ⟨by simp [triggers, recentTrigger, hfind, hh, hp2, ht], ?_⟩
            cases hc : closeTo s.opts.doubleTapMs s.opts.doubleTapTolPx p.1 e with
            | true =>
              rw [hc] at hh
              simp [TapRecorded, recentTrigger, hfind, ht, onBodyPointerDown, hh, hp2, hc]
            | false =>
              rw [hc] at hh
              simp [TapRecorded, recentTrigger, hfind, ht, onBodyPointerDown, hh, hp2, hc]
      · obtain ⟨h1, h2⟩ := onBodyPointerDown_other m e.b s e.ev e.now ht
        refine ⟨by simp [h1, recentTrigger, ht], ?_⟩
        rw [h2]
        simpa [TapRecorded, ht] using hr
    have := ih (onBodyPointerDown m e.b s e.ev e.now) _ key.2 hl'
    simp only [tapTrace, recentTrace, key.1, this, onBodyPointerDown_opts]

/-- What `onBodyPointerDown` does is decided by `triggers`: when it holds the handler
returns the state left by `onBodyDblClick` with `lastTap.t` reset to 0 (lines 265-266);
when it does not, `onBodyDblClick` is not run and only `lastTap` can change. -/
theorem onBodyPointerDown_triggers (m : JsMath α) (b : Browser α) (t : State α)
    (ev : PointerEvent α) (now : α) :
    (triggers t ev now = true →
      onBodyPointerDown m b t ev now
        = { onBodyDblClick m b t with
            lastTap := { (onBodyDblClick m b t).lastTap with t := 0 } }) ∧
    (triggers t ev now = false →
      (onBodyPointerDown m b t ev now).opts = t.opts ∧
      (onBodyPointerDown m b t ev now).detached = t.detached ∧
      (onBodyPointerDown m b t ev now).frozen = t.frozen ∧
      (onBodyPointerDown m b t ev now).menu = t.menu ∧
      (onBodyPointerDown m b t ev now).dom = t.dom) := by
  constructor
  · intro h
    simp only [triggers, Bool.and_eq_true, decide_eq_true_eq] at h
    simp only [onBodyPointerDown, h.1, ne_eq, not_true_eq_false, if_false, h.2, if_true]
  · intro h
    by_cases ht : ev.pointerType = PointerType.touch
    · have hh : doubleTapHit t ev now = false := by
        simpa [triggers, ht] using h
      simp only [onBodyPointerDown, ht, ne_eq, not_true_eq_false, if_false, hh,
        Bool.false_eq_true, and_self]
    · rw [(onBodyPointerDown_other m b t ev now ht).2]
      exact ⟨rfl, rfl, rfl, rfl, rfl⟩

/-- C9 (amended). Starting with `lastTap.t = 0` (as at load) and for pointer-downs that
all come more than `doubleTapMs` after the origin of `performance.now()`:
`onBodyPointerDown` runs `onBodyDblClick` on an event exactly when it is a touch
pointer-down and the most recent earlier touch pointer-down exists, was not itself consumed
by a trigger, and is at most `doubleTapMs` earlier and within `doubleTapTolPx` of it on each
axis. On such an event the handler returns what `onBodyDblClick` leaves, with `lastTap.t`
reset; on every other event `onBodyDblClick` is not run. Pointer-downs of any other type
never trigger and change nothing. -/
theorem doubleTap_most_recent (m : JsMath α) (s : State α) (es : List (BodyDown α))
    (h0 : s.lastTap.t = 0) (hl : ∀ e ∈ es, s.opts.doubleTapMs < e.now) :
    tapTrace m s es = recentTrace s.opts.doubleTapMs s.opts.doubleTapTolPx [] es ∧
    (∀ (t : State α) (b : Browser α) (ev : PointerEvent α) (now : α),
      triggers t ev now = true →
      onBodyPointerDown m b t ev now
        = { onBodyDblClick m b t with
            lastTap := { (onBodyDblClick m b t).lastTap with t := 0 } }) ∧
    (∀ (t : State α) (b : Browser α) (ev : PointerEvent α) (now : α),
      triggers t ev now = false →
      (onBodyPointerDown m b t ev now).opts = t.opts ∧
      (onBodyPointerDown m b t ev now).detached = t.detached ∧
      (onBodyPointerDown m b t ev now).frozen = t.frozen ∧
      (onBodyPointerDown m b t ev now).menu = t.menu ∧
      (onBodyPointerDown m b t ev now).dom = t.dom) ∧
    (∀ (t : State α) (b : Browser α) (ev : PointerEvent α) (now : α),
      ev.pointerType ≠ PointerType.touch →
      triggers t ev now = false ∧ onBodyPointerDown m b t ev now = t) := by
  refine ⟨tapTrace_eq_recent m es s [] ?_ hl, ?_, ?_, ?_⟩
  · simpa [TapRecorded] using h0
  · intro t b ev now h
    exact (onBodyPointerDown_triggers m b t ev now).1 h
  · intro t b ev now h
    exact (onBodyPointerDown_triggers m b t ev now).2 h
  · intro t b ev now h
    exact onBodyPointerDown_other m b t ev now h

/-- Witness for C9 (amended): taps at 1000 ms, 1100 ms and 1200 ms from the initial
state. -/
theorem doubleTap_most_recent_witness :
    tapTrace (JsMath.mk Real.pi Real.cos Real.sin) (initState : State ℝ)
        [touchNearIcon 0 0 1000, touchNearIcon 100 100 1100, touchNearIcon 0 0 1200]
      = recentTrace (initState : State ℝ).opts.doubleTapMs
          (initState : State ℝ).opts.doubleTapTolPx []
          [touchNearIcon 0 0 1000, touchNearIcon 100 100 1100, touchNearIcon 0 0 1200] :=
  (doubleTap_most_recent (JsMath.mk Real.pi Real.cos Real.sin) (initState : State ℝ)
    [touchNearIcon 0 0 1000, touchNearIcon 100 100 1100, touchNearIcon 0 0 1200] rfl
    (by
      intro e he
      simp only [List.mem_cons, List.mem_singleton, List.not_mem_nil, or_false] at he
      rcases he with rfl | rfl | rfl <;> simp [initState, DEFAULTS, touchNearIcon] <;>
        norm_num)).1

/-- C9 fails as stated; in both runs the selector scan finds a followed icon, so a call of
`onBodyDblClick` shows in the state. (a) Taps at `(0, 0)`, `(100, 100)`, `(0, 0)` at 1000,
1100 and 1200 ms: the third is 200 ms after and at the same place as the first, which no
trigger consumed, so the stated rule triggers on it; the handler compares it with the second
only, never calls `onBodyDblClick`, and the icon is still attached at the end. (b) A single
tap at `(10, 10)` 100 ms after the time origin: the stated rule does not trigger, there being
no earlier tap; the handler calls `onBodyDblClick`, because the initial `lastTap` is
`(0, 0, 0)`, and the icon ends detached with a menu open. -/
theorem doubleTap_not_any_earlier :
    (statedTrace (300 : ℝ) 40 []
        [touchNearIcon 0 0 1000, touchNearIcon 100 100 1100, touchNearIcon 0 0 1200]
        = [false, false, true] ∧
     tapTrace (JsMath.mk Real.pi Real.cos Real.sin) (initState : State ℝ)
        [touchNearIcon 0 0 1000, touchNearIcon 100 100 1100, touchNearIcon 0 0 1200]
        = [false, false, false] ∧
     (tapRun (JsMath.mk Real.pi Real.cos Real.sin) (initState : State ℝ)
        [touchNearIcon 0 0 1000, touchNearIcon 100 100 1100, touchNearIcon 0 0 1200]).detached
        = false ∧
     (tapRun (JsMath.mk Real.pi Real.cos Real.sin) (initState : State ℝ)
        [touchNearIcon 0 0 1000, touchNearIcon 100 100 1100, touchNearIcon 0 0 1200]).dom
        = (initState : State ℝ).dom) ∧
    (statedTrace (300 : ℝ) 40 [] [touchNearIcon 10 10 100] = [false] ∧
     tapTrace (JsMath.mk Real.pi Real.cos Real.sin) (initState : State ℝ)
        [touchNearIcon 10 10 100] = [true] ∧
     (tapRun (JsMath.mk Real.pi Real.cos Real.sin) (initState : State ℝ)
        [touchNearIcon 10 10 100]).detached = true ∧
     (tapRun (JsMath.mk Real.pi Real.cos Real.sin) (initState : State ℝ)
        [touchNearIcon 10 10 100]).frozen
        = some ⟨Node.page 3, Node.made Cls.clone 0⟩ ∧
     (tapRun (JsMath.mk Real.pi Real.cos Real.sin) (initState : State ℝ)
        [touchNearIcon 10 10 100]).dom.count Cls.root = 1) := by
  have hA : onBodyPointerDown (JsMath.mk Real.pi Real.cos Real.sin)
      (touchNearIcon (0 : ℝ) 0 1000).b (initState : State ℝ) (touchNearIcon (0 : ℝ) 0 1000).ev
      (touchNearIcon (0 : ℝ) 0 1000).now
      = { (initState : State ℝ) with lastTap := ⟨1000, 0, 0⟩ } := by
    simp [onBodyPointerDown, doubleTapHit, initState, DEFAULTS, touchNearIcon]
    norm_num
  have hB : onBodyPointerDown (JsMath.mk Real.pi Real.cos Real.sin)
      (touchNearIcon (100 : ℝ) 100 1100).b
      ({ (initState : State ℝ) with lastTap := ⟨1000, 0, 0⟩ })
      (touchNearIcon (100 : ℝ) 100 1100).ev (touchNearIcon (100 : ℝ) 100 1100).now
      = { (initState : State ℝ) with lastTap := ⟨1100, 100, 100⟩ } := by
    simp [onBodyPointerDown, doubleTapHit, initState, DEFAULTS, touchNearIcon]
    norm_num
  have hC : onBodyPointerDown (JsMath.mk Real.pi Real.cos Real.sin)
      (touchNearIcon (0 : ℝ) 0 1200).b
      ({ (initState : State ℝ) with lastTap := ⟨1100, 100, 100⟩ })
      (touchNearIcon (0 : ℝ) 0 1200).ev (touchNearIcon (0 : ℝ) 0 1200).now
      = { (initState : State ℝ) with lastTap := ⟨1200, 0, 0⟩ } := by
    simp [onBodyPointerDown, doubleTapHit, initState, DEFAULTS, touchNearIcon]
    norm_num
  have hE : triggers (initState : State ℝ) (touchNearIcon (10 : ℝ) 10 100).ev
      (touchNearIcon (10 : ℝ) 10 100).now = true := by
    simp [triggers, doubleTapHit, initState, DEFAULTS, touchNearIcon]
    norm_num
  have hscan : getActiveIcon (touchNearIcon (10 : ℝ) 10 100).b.scan = some (Node.page 3) := by
    simp [getActiveIcon, touchNearIcon]
  have hD : onBodyDblClick (JsMath.mk Real.pi Real.cos Real.sin)
      (touchNearIcon (10 : ℝ) 10 100).b (initState : State ℝ)
      = openMenu (JsMath.mk Real.pi Real.cos Real.sin) (touchNearIcon (10 : ℝ) 10 100).b
          (freezeIcon (initState : State ℝ) (some (Node.page 3))) := by
    simp only [onBodyDblClick, hscan]
    simp [initState]
  have hcons : Consistent (openMenu (JsMath.mk Real.pi Real.cos Real.sin)
      (touchNearIcon (10 : ℝ) 10 100).b
      (freezeIcon (initState : State ℝ) (some (Node.page 3)))) :=
    openMenu_consistent _ _ (freezeIcon_consistent initState_consistent rfl _)
  obtain ⟨r1, _, mn, r2, _⟩ := openMenu_rebuild (JsMath.mk Real.pi Real.cos Real.sin)
    (touchNearIcon (10 : ℝ) 10 100).b
    (freezeIcon_consistent (initState_consistent : Consistent (initState : State ℝ)) rfl
      (Node.page 3)) rfl
  refine ⟨⟨?_, ?_, ?_, ?_⟩, ?_, ?_, ?_, ?_, ?_⟩
  · simp [statedTrace, statedTrigger, closeTo, touchNearIcon]
    norm_num
  · simp only [tapTrace, hA, hB]
    simp [triggers, doubleTapHit, initState, DEFAULTS, touchNearIcon]
    norm_num
  · simp only [tapRun, List.foldl_cons, List.foldl_nil, hA, hB, hC]
    rfl
  · simp only [tapRun, List.foldl_cons, List.foldl_nil, hA, hB, hC]
  · simp [statedTrace, statedTrigger, touchNearIcon]
  · simp only [tapTrace, hE]
  · simp only [tapRun, List.foldl_cons, List.foldl_nil]
    rw [(onBodyPointerDown_triggers _ _ _ _ _).1 hE, hD]
    exact hcons.flag.trans (by rw [r1]; rfl)
  · simp only [tapRun, List.foldl_cons, List.foldl_nil]
    rw [(onBodyPointerDown_triggers _ _ _ _ _).1 hE, hD]
    simp only [r1]
    rfl
  · simp only [tapRun, List.foldl_cons, List.foldl_nil]
    rw [(onBodyPointerDown_triggers _ _ _ _ _).1 hE, hD]
    have hc := hcons.counts.2.1
    rw [r2] at hc
    exact hc

end

end CircularMenu

/-! Theorems: the configured spring (`icon-follow.js`, lines 11-14 and 79). -/

namespace IconFollow

section
variable {α : Type} [LinearOrderedField α]

/-- One step of the recurrence with the target behind (`target ≤ pos`, `v ≤ 0`): the mirror
image of `axis_step_ahead`. -/
theorem axis_step_behind {zeta om pos v target dt : α}
    (hz : 1 ≤ zeta) (hom : 0 < om) (hdt : 0 ≤ dt) (hstab : 2 * zeta * om * dt ≤ 1)
    (hp : target ≤ pos) (hv0 : v ≤ 0) (hv : -v ≤ zeta * om * (pos - target)) :
    (specAxisStep zeta om pos v target dt).2 ≤ 0 ∧
    -(specAxisStep zeta om pos v target dt).2
      ≤ zeta * om * ((specAxisStep zeta om pos v target dt).1 - target) ∧
    (specAxisStep zeta om pos v target dt).1 ≤ pos ∧
    target ≤ (specAxisStep zeta om pos v target dt).1 := by
  have hv1 : -v ≤ zeta * om * (-target - -pos) := by
    have e : zeta * om * (-target - -pos) = zeta * om * (pos - target) := by ring
    rw [e]; exact hv
  obtain ⟨h1, h2, h3, h4⟩ := @axis_step_ahead α _ zeta om (-pos) (-v) (-target) dt
    hz hom hdt hstab (by linarith) (by linarith) hv1
  rw [specAxisStep_neg] at h1 h2 h3 h4
  simp only at h1 h2 h3 h4
  refine ⟨by linarith, ?_, by linarith, by linarith⟩
  have e : zeta * om * (-target - -(specAxisStep zeta om pos v target dt).1)
      = zeta * om * ((specAxisStep zeta om pos v target dt).1 - target) := by ring
  rw [e] at h2; exact h2

end

section
variable {α : Type} [LinearOrderedField α] [FloorRing α]

theorem stepSpring_x_fst (m : JsMath α) (c : Config α) (s : State α) (dt : α) :
    (stepSpring m c s dt).x = (specAxisStep c.dampingRatio (omega m c) s.x s.vx s.tx dt).1 ∧
    (stepSpring m c s dt).vx = (specAxisStep c.dampingRatio (omega m c) s.x s.vx s.tx dt).2 :=
  ⟨congrArg Prod.fst (stepSpring_x m c s dt), congrArg Prod.snd (stepSpring_x m c s dt)⟩

theorem stepSpring_y_fst (m : JsMath α) (c : Config α) (s : State α) (dt : α) :
    (stepSpring m c s dt).y = (specAxisStep c.dampingRatio (omega m c) s.y s.vy s.ty dt).1 ∧
    (stepSpring m c s dt).vy = (specAxisStep c.dampingRatio (omega m c) s.y s.vy s.ty dt).2 :=
  ⟨congrArg Prod.fst (stepSpring_y m c s dt), congrArg Prod.snd (stepSpring_y m c s dt)⟩

/-- Along a run of admissible frame deltas an axis that starts short of its target, moving
towards it within the velocity bound, stays so. -/
theorem runSpring_ahead (m : JsMath α) (c : Config α) (dts : List α) (s : State α)
    (hom : 0 < omega m c) (hz : 1 ≤ c.dampingRatio)
    (hdts : ∀ d ∈ dts, 0 ≤ d ∧ 2 * c.dampingRatio * omega m c * d ≤ 1) :
    (s.x ≤ s.tx ∧ 0 ≤ s.vx ∧ s.vx ≤ c.dampingRatio * omega m c * (s.tx - s.x) →
      (runSpring m c s dts).x ≤ s.tx ∧ 0 ≤ (runSpring m c s dts).vx ∧
      (runSpring m c s dts).vx
        ≤ c.dampingRatio * omega m c * (s.tx - (runSpring m c s dts).x)) ∧
    (s.y ≤ s.ty ∧ 0 ≤ s.vy ∧ s.vy ≤ c.dampingRatio * omega m c * (s.ty - s.y) →
      (runSpring m c s dts).y ≤ s.ty ∧ 0 ≤ (runSpring m c s dts).vy ∧
      (runSpring m c s dts).vy
        ≤ c.dampingRatio * omega m c * (s.ty - (runSpring m c s dts).y)) := by
  induction dts generalizing s with
  | nil => exact ⟨fun h => h, fun h => h⟩
  | cons d ds ih =>
    have hd := hdts d (List.mem_cons_self d ds)
    have ih1 := ih (stepSpring m c s d) (fun e he => hdts e (List.mem_cons_of_mem d he))
    obtain ⟨ex, evx⟩ := stepSpring_x_fst m c s d
    obtain ⟨ey, evy⟩ := stepSpring_y_fst m c s d
    constructor
    · rintro ⟨h1, h2, h3⟩
      obtain ⟨a1, a2, _, a4⟩ := axis_step_ahead hz hom hd.1 hd.2 h1 h2 h3
      rw [← evx] at a1
      rw [← ex, ← evx] at a2
      rw [← ex] at a4
      exact ih1.1 ⟨a4, a1, a2⟩
    · rintro ⟨h1, h2, h3⟩
      obtain ⟨a1, a2, _, a4⟩ := axis_step_ahead hz hom hd.1 hd.2 h1 h2 h3
      rw [← evy] at a1
      rw [← ey, ← evy] at a2
      rw [← ey] at a4
      exact ih1.2 ⟨a4, a1, a2⟩

/-- Along a run of admissible frame deltas an axis that starts beyond its target, moving
back towards it within the velocity bound, stays so. -/
theorem runSpring_behind (m : JsMath α) (c : Config α) (dts : List α) (s : State α)
    (hom : 0 < omega m c) (hz : 1 ≤ c.dampingRatio)
    (hdts : ∀ d ∈ dts, 0 ≤ d ∧ 2 * c.dampingRatio * omega m c * d ≤ 1) :
    (s.tx ≤ s.x ∧ s.vx ≤ 0 ∧ -s.vx ≤ c.dampingRatio * omega m c * (s.x - s.tx) →
      s.tx ≤ (runSpring m c s dts).x ∧ (runSpring m c s dts).vx ≤ 0 ∧
      -(runSpring m c s dts).vx
        ≤ c.dampingRatio * omega m c * ((runSpring m c s dts).x - s.tx)) ∧
    (s.ty ≤ s.y ∧ s.vy ≤ 0 ∧ -s.vy ≤ c.dampingRatio * omega m c * (s.y - s.ty) →
      s.ty ≤ (runSpring m c s dts).y ∧ (runSpring m c s dts).vy ≤ 0 ∧
      -(runSpring m c s dts).vy
        ≤ c.dampingRatio * omega m c * ((runSpring m c s dts).y - s.ty)) := by
  induction dts generalizing s with
  | nil => exact ⟨fun h => h, fun h => h⟩
  | cons d ds ih =>
    have hd := hdts d (List.mem_cons_self d ds)
    have ih1 := ih (stepSpring m c s d) (fun e he => hdts e (List.mem_cons_of_mem d he))
    obtain ⟨ex, evx⟩ := stepSpring_x_fst m c s d
    obtain ⟨ey, evy⟩ := stepSpring_y_fst m c s d
    constructor
    · rintro ⟨h1, h2, h3⟩
      obtain ⟨a1, a2, _, a4⟩ := axis_step_behind hz hom hd.1 hd.2 h1 h2 h3
      rw [← evx] at a1
      rw [← ex, ← evx] at a2
      rw [← ex] at a4
      exact ih1.1 ⟨a4, a1, a2⟩
    · rintro ⟨h1, h2, h3⟩
      obtain ⟨a1, a2, _, a4⟩ := axis_step_behind hz hom hd.1 hd.2 h1 h2 h3
      rw [← evy] at a1
      rw [← ey, ← evy] at a2
      rw [← ey] at a4
      exact ih1.2 ⟨a4, a1, a2⟩

/-- From rest at offset 0, with admissible frame deltas, every step moves each axis towards
its target without passing it, and the error does not grow. -/
theorem spring_from_rest (m : JsMath α) (c : Config α) (s : State α) (dts : List α) (dt : α)
    (hom : 0 < omega m c) (hz : 1 ≤ c.dampingRatio)
    (hdts : ∀ d ∈ dt :: dts, 0 ≤ d ∧ 2 * c.dampingRatio * omega m c * d ≤ 1)
    (hx : s.x = 0) (hvx : s.vx = 0) (hy : s.y = 0) (hvy : s.vy = 0) :
    ((0 ≤ s.tx → (runSpring m c s dts).x ≤ (stepSpring m c (runSpring m c s dts) dt).x ∧
        (stepSpring m c (runSpring m c s dts) dt).x ≤ s.tx) ∧
     (s.tx ≤ 0 → s.tx ≤ (stepSpring m c (runSpring m c s dts) dt).x ∧
        (stepSpring m c (runSpring m c s dts) dt).x ≤ (runSpring m c s dts).x) ∧
     |(stepSpring m c (runSpring m c s dts) dt).x - s.tx| ≤ |(runSpring m c s dts).x - s.tx|) ∧
    ((0 ≤ s.ty → (runSpring m c s dts).y ≤ (stepSpring m c (runSpring m c s dts) dt).y ∧
        (stepSpring m c (runSpring m c s dts) dt).y ≤ s.ty) ∧
     (s.ty ≤ 0 → s.ty ≤ (stepSpring m c (runSpring m c s dts) dt).y ∧
        (stepSpring m c (runSpring m c s dts) dt).y ≤ (runSpring m c s dts).y) ∧
     |(stepSpring m c (runSpring m c s dts) dt).y - s.ty| ≤ |(runSpring m c s dts).y - s.ty|) := by
  have hd := hdts dt (List.mem_cons_self dt dts)
  have hds : ∀ d ∈ dts, 0 ≤ d ∧ 2 * c.dampingRatio * omega m c * d ≤ 1 :=
    fun e he => hdts e (List.mem_cons_of_mem dt he)
  have hzo : 0 ≤ c.dampingRatio * omega m c :=
    mul_nonneg (le_trans zero_le_one hz) hom.le
  have ht := runSpring_tx m c dts s
  obtain ⟨ex, _⟩ := stepSpring_x_fst m c (runSpring m c s dts) dt
  obtain ⟨ey, _⟩ := stepSpring_y_fst m c (runSpring m c s dts) dt
  rw [ht.1] at ex
  rw [ht.2] at ey
  have xa : 0 ≤ s.tx → (runSpring m c s dts).x ≤ (stepSpring m c (runSpring m c s dts) dt).x ∧
      (stepSpring m c (runSpring m c s dts) dt).x ≤ s.tx := by
    intro h
    obtain ⟨r1, r2, r3⟩ := (runSpring_ahead m c dts s hom hz hds).1
      ⟨by rw [hx]; exact h, by rw [hvx], by rw [hvx, hx, sub_zero]; exact mul_nonneg hzo h⟩
    obtain ⟨_, _, a3, a4⟩ := axis_step_ahead hz hom hd.1 hd.2 r1 r2 r3
    rw [← ex] at a3 a4
    exact ⟨a3, a4⟩
  have xb : s.tx ≤ 0 → s.tx ≤ (stepSpring m c (runSpring m c s dts) dt).x ∧
      (stepSpring m c (runSpring m c s dts) dt).x ≤ (runSpring m c s dts).x := by
    intro h
    obtain ⟨r1, r2, r3⟩ := (runSpring_behind m c dts s hom hz hds).1
      ⟨by rw [hx]; exact h, by rw [hvx], by
        rw [hvx, hx, neg_zero, zero_sub]; exact mul_nonneg hzo (neg_nonneg.mpr h)⟩
    obtain ⟨_, _, a3, a4⟩ := axis_step_behind hz hom hd.1 hd.2 r1 r2 r3
    rw [← ex] at a3 a4
    exact ⟨a4, a3⟩
  have ya : 0 ≤ s.ty → (runSpring m c s dts).y ≤ (stepSpring m c (runSpring m c s dts) dt).y ∧
      (stepSpring m c (runSpring m c s dts) dt).y ≤ s.ty := by
    intro h
    obtain ⟨r1, r2, r3⟩ := (runSpring_ahead m c dts s hom hz hds).2
      ⟨by rw [hy]; exact h, by rw [hvy], by rw [hvy, hy, sub_zero]; exact mul_nonneg hzo h⟩
    obtain ⟨_, _, a3, a4⟩ := axis_step_ahead hz hom hd.1 hd.2 r1 r2 r3
    rw [← ey] at a3 a4
    exact ⟨a3, a4⟩
  have yb : s.ty ≤ 0 → s.ty ≤ (stepSpring m c (runSpring m c s dts) dt).y ∧
      (stepSpring m c (runSpring m c s dts) dt).y ≤ (runSpring m c s dts).y := by
    intro h
    obtain ⟨r1, r2, r3⟩ := (runSpring_behind m c dts s hom hz hds).2
      ⟨by rw [hy]; exact h, by rw [hvy], by
        rw [hvy, hy, neg_zero, zero_sub]; exact mul_nonneg hzo (neg_nonneg.mpr h)⟩
    obtain ⟨_, _, a3, a4⟩ := axis_step_behind hz hom hd.1 hd.2 r1 r2 r3
    rw [← ey] at a3 a4
    exact ⟨a4, a3⟩
  refine ⟨⟨xa, xb, ?_⟩, ⟨ya, yb, ?_⟩⟩
  · rcases le_total 0 s.tx with h | h
    · obtain ⟨b1, b2⟩ := xa h
      rw [abs_of_nonpos (by linarith), abs_of_nonpos (by linarith)]
      linarith
    · obtain ⟨b1, b2⟩ := xb h
      rw [abs_of_nonneg (by linarith), abs_of_nonneg (by linarith)]
      linarith
  · rcases le_total 0 s.ty with h | h
    · obtain ⟨b1, b2⟩ := ya h
      rw [abs_of_nonpos (by linarith), abs_of_nonpos (by linarith)]
      linarith
    · obtain ⟨b1, b2⟩ := yb h
      rw [abs_of_nonneg (by linarith), abs_of_nonneg (by linarith)]
      linarith

end

/-- With the configured constants and the real `π`, every frame delta up to 0.033
satisfies the stability bound `2·ζ·ω·dt ≤ 1`. -/
theorem configured_stable (d : ℝ) (h1 : d ≤ 33 / 1000) :
    2 * (configured : Config ℝ).dampingRatio
      * omega (JsMath.mk Real.pi Real.cos Real.sin) (configured : Config ℝ) * d ≤ 1 := by
  have hp := Real.pi_pos
  have hq := Real.pi_lt_d2
  simp only [configured, omega, TWO_PI]
  have h2 : Real.pi * d ≤ 3.15 * (33 / 1000) := by
    calc Real.pi * d ≤ Real.pi * (33 / 1000) := mul_le_mul_of_nonneg_left h1 hp.le
      _ ≤ 3.15 * (33 / 1000) := mul_le_mul_of_nonneg_right hq.le (by norm_num)
  have e : 2 * (105 / 100) * (Real.pi * 2 * (22 / 10)) * d = (924 / 100) * (Real.pi * d) := by
    ring
  rw [e]
  norm_num at h2 ⊢
  linarith

/-- C11. With the configured constants (`freqHz = 2.2`, `dampingRatio = 1.05`,
`ω = 2π·2.2`), from a freshly selected session (`x = y = 0`, `vx = vy = 0`) with the target
held fixed, for every sequence of frame deltas in `[0, 0.033]` each `stepSpring` step moves
the offset towards the target without passing it: `x - tx` keeps its sign and `|x - tx|`
does not grow; likewise for `y`. -/
theorem configured_spring_monotone (s : State ℝ) (dts : List ℝ) (dt : ℝ)
    (hx : s.x = 0) (hvx : s.vx = 0) (hy : s.y = 0) (hvy : s.vy = 0)
    (hdts : ∀ d ∈ dt :: dts, 0 ≤ d ∧ d ≤ 33 / 1000) :
    ((0 ≤ s.tx →
        (runSpring (JsMath.mk Real.pi Real.cos Real.sin) configured s dts).x
          ≤ (stepSpring (JsMath.mk Real.pi Real.cos Real.sin) configured
              (runSpring (JsMath.mk Real.pi Real.cos Real.sin) configured s dts) dt).x ∧
        (stepSpring (JsMath.mk Real.pi Real.cos Real.sin) configured
            (runSpring (JsMath.mk Real.pi Real.cos Real.sin) configured s dts) dt).x ≤ s.tx) ∧
     (s.tx ≤ 0 →
        s.tx ≤ (stepSpring (JsMath.mk Real.pi Real.cos Real.sin) configured
            (runSpring (JsMath.mk Real.pi Real.cos Real.sin) configured s dts) dt).x ∧
        (stepSpring (JsMath.mk Real.pi Real.cos Real.sin) configured
            (runSpring (JsMath.mk Real.pi Real.cos Real.sin) configured s dts) dt).x
          ≤ (runSpring (JsMath.mk Real.pi Real.cos Real.sin) configured s dts).x) ∧
     |(stepSpring (JsMath.mk Real.pi Real.cos Real.sin) configured
          (runSpring (JsMath.mk Real.pi Real.cos Real.sin) configured s dts) dt).x - s.tx|
       ≤ |(runSpring (JsMath.mk Real.pi Real.cos Real.sin) configured s dts).x - s.tx|) ∧
    ((0 ≤ s.ty →
        (runSpring (JsMath.mk Real.pi Real.cos Real.sin) configured s dts).y
          ≤ (stepSpring (JsMath.mk Real.pi Real.cos Real.sin) configured
              (runSpring (JsMath.mk Real.pi Real.cos Real.sin) configured s dts) dt).y ∧
        (stepSpring (JsMath.mk Real.pi Real.cos Real.sin) configured
            (runSpring (JsMath.mk Real.pi Real.cos Real.sin) configured s dts) dt).y ≤ s.ty) ∧
     (s.ty ≤ 0 →
        s.ty ≤ (stepSpring (JsMath.mk Real.pi Real.cos Real.sin) configured
            (runSpring (JsMath.mk Real.pi Real.cos Real.sin) configured s dts) dt).y ∧
        (stepSpring (JsMath.mk Real.pi Real.cos Real.sin) configured
            (runSpring (JsMath.mk Real.pi Real.cos Real.sin) configured s dts) dt).y
          ≤ (runSpring (JsMath.mk Real.pi Real.cos Real.sin) configured s dts).y) ∧
     |(stepSpring (JsMath.mk Real.pi Real.cos Real.sin) configured
          (runSpring (JsMath.mk Real.pi Real.cos Real.sin) configured s dts) dt).y - s.ty|
       ≤ |(runSpring (JsMath.mk Real.pi Real.cos Real.sin) configured s dts).y - s.ty|) := by
  have hom : 0 < omega (JsMath.mk Real.pi Real.cos Real.sin) (configured : Config ℝ) :=
    omega_pos _ _ Real.pi_pos (by simp only [configured]; norm_num)
  have hz : 1 ≤ (configured : Config ℝ).dampingRatio := by
    simp only [configured]; norm_num
  exact spring_from_rest (JsMath.mk Real.pi Real.cos Real.sin) configured s dts dt hom hz
    (fun d hd => ⟨(hdts d hd).1, configured_stable d (hdts d hd).2⟩)
    hx hvx hy hvy

/-- Witness for C11: the rest state with target `(120, -40)` and frame deltas 0.016, 0 and
0.033, then a step of 0.033. -/
theorem configured_spring_monotone_witness :
    (runSpring (JsMath.mk Real.pi Real.cos Real.sin) configured (restState (120 : ℝ) (-40))
        [16 / 1000, 0, 33 / 1000]).x
      ≤ (stepSpring (JsMath.mk Real.pi Real.cos Real.sin) configured
          (runSpring (JsMath.mk Real.pi Real.cos Real.sin) configured (restState (120 : ℝ) (-40))
            [16 / 1000, 0, 33 / 1000]) (33 / 1000)).x ∧
    (stepSpring (JsMath.mk Real.pi Real.cos Real.sin) configured
        (runSpring (JsMath.mk Real.pi Real.cos Real.sin) configured (restState (120 : ℝ) (-40))
          [16 / 1000, 0, 33 / 1000]) (33 / 1000)).x ≤ 120 :=
  (configured_spring_monotone (restState (120 : ℝ) (-40)) [16 / 1000, 0, 33 / 1000] (33 / 1000)
    rfl rfl rfl rfl
    (by
      intro d hd
      simp only [List.mem_cons, List.mem_singleton, List.not_mem_nil, or_false] at hd
      rcases hd with rfl | rfl | rfl | rfl <;> norm_num)).1.1
    (by simp only [restState]; norm_num)

end IconFollow

/-! Theorems: symmetry of the radial layout (`circular-menu.js`, lines 149-162). -/

namespace CircularMenu

/-- The angles of items `i` and `n - 1 - i` add up to `-π`. -/
theorem polar_angle_mirror (P S : ℝ) (n i : Nat) (hi : i < n) :
    -P / 2 - S / 2 + (((n - 1 - i : Nat) : ℝ) + 1 / 2) * S / (n : ℝ)
      = -(-P / 2 - S / 2 + ((i : ℝ) + 1 / 2) * S / (n : ℝ) + P) := by
  have hn : (n : ℝ) ≠ 0 := by
    have : 0 < n := by omega
    exact_mod_cast this.ne'
  have hc : ((n - 1 - i : Nat) : ℝ) = (n : ℝ) - 1 - (i : ℝ) := by
    have h1 : 1 ≤ n := by omega
    have h2 : i ≤ n - 1 := by omega
    rw [Nat.cast_sub h2, Nat.cast_sub h1, Nat.cast_one]
  rw [hc]
  field_simp
  ring

/-- The angle of the middle item of an odd number of items is `-π/2`. -/
theorem polar_angle_middle (P S : ℝ) (k : Nat) :
    -P / 2 - S / 2 + ((k : ℝ) + 1 / 2) * S / ((2 * k + 1 : Nat) : ℝ) = -(P / 2) := by
  have hn : ((2 * k + 1 : Nat) : ℝ) ≠ 0 := by
    have : 0 < 2 * k + 1 := by omega
    exact_mod_cast this.ne'
  have hc : ((2 * k + 1 : Nat) : ℝ) = 2 * (k : ℝ) + 1 := by push_cast; ring
  rw [hc] at hn ⊢
  field_simp
  ring

/-- In exact real arithmetic (the real `cos`, `sin` and `π`, no rounding) the layout of
`polarPlace` is symmetric about the vertical line through the anchor: items `i` and
`n - 1 - i` have `x_i - cx = -(x_(n-1-i) - cx)` and `y_i = y_(n-1-i)`; for odd `n` the
middle item is at `(cx, cy - radius)`. -/
theorem polarPlace_mirror (root : Node) (cx cy radius gapDeg : ℝ) (items : List (ItemNode ℝ)) :
    (∀ i : Nat, i < items.length →
      ∃ a b : ItemNode ℝ, ∃ xa ya xb yb : ℝ,
        (polarPlace (JsMath.mk Real.pi Real.cos Real.sin) root cx cy radius items gapDeg)[i]?
          = some a ∧
        (polarPlace (JsMath.mk Real.pi Real.cos Real.sin) root cx cy radius items
            gapDeg)[items.length - 1 - i]? = some b ∧
        a.left = some xa ∧ a.top = some ya ∧ b.left = some xb ∧ b.top = some yb ∧
        xa - cx = -(xb - cx) ∧ ya = yb) ∧
    (∀ k : Nat, items.length = 2 * k + 1 →
      ∃ a : ItemNode ℝ,
        (polarPlace (JsMath.mk Real.pi Real.cos Real.sin) root cx cy radius items gapDeg)[k]?
          = some a ∧
        a.left = some cx ∧ a.top = some (cy - radius)) := by
  constructor
  · intro i hi
    have hj : items.length - 1 - i < items.length := by omega
    have ea := polarPlace_getElem (JsMath.mk Real.pi Real.cos Real.sin) root cx cy radius
      items gapDeg i hi
    have eb := polarPlace_getElem (JsMath.mk Real.pi Real.cos Real.sin) root cx cy radius
      items gapDeg (items.length - 1 - i) hj
    have hang := polar_angle_mirror Real.pi (2 * Real.pi - gapDeg * Real.pi / 180)
      items.length i hi
    refine ⟨_, _, _, _, _, _, ea, eb, rfl, rfl, rfl, rfl, ?_, ?_⟩
    · simp only [hang, Real.cos_neg, Real.cos_add_pi]
      ring
    · simp only [hang, Real.sin_neg, Real.sin_add_pi, neg_neg]
  · intro k hk
    have hlt : k < items.length := by omega
    have ea := polarPlace_getElem (JsMath.mk Real.pi Real.cos Real.sin) root cx cy radius
      items gapDeg k hlt
    have hang := polar_angle_middle Real.pi (2 * Real.pi - gapDeg * Real.pi / 180) k
    rw [hk] at ea
    refine ⟨_, ea, ?_, ?_⟩
    · simp only [hang, Real.cos_neg, Real.cos_pi_div_two, mul_zero, add_zero]
    · simp only [hang, Real.sin_neg, Real.sin_pi_div_two]
      congr 1
      ring

end CircularMenu

/-! Theorems: binary64 rounding. -/

section
variable {α : Type} [LinearOrderedField α]

theorem two_zpow_pos (e : ℤ) : (0 : α) < (2 : α) ^ e := zpow_pos (by norm_num) e

end

section
variable {α : Type} [LinearOrderedField α] [FloorRing α]

/-- Rounding to the nearest integer moves a number by at most one half. -/
theorem roundHalfEven_error (x : α) : |((roundHalfEven x : ℤ) : α) - x| ≤ 1 / 2 := by
  have h0 : (⌊x⌋ : α) ≤ x := Int.floor_le x
  have h1 : x < (⌊x⌋ : α) + 1 := Int.lt_floor_add_one x
  unfold roundHalfEven
  split_ifs with a b c
  · rw [abs_le]; constructor <;> linarith
  · push_cast; rw [abs_le]; constructor <;> linarith
  · rw [abs_le]; constructor <;> linarith
  · push_cast; rw [abs_le]; constructor <;> linarith

/-- An integer closer than one half to `x` is the rounding of `x`. -/
theorem roundHalfEven_eq (x : α) (k : ℤ) (h : |x - (k : α)| < 1 / 2) : roundHalfEven x = k := by
  have h1 := roundHalfEven_error x
  have h2 : |((roundHalfEven x : ℤ) : α) - (k : α)| < 1 := by
    calc |((roundHalfEven x : ℤ) : α) - (k : α)|
        = |(((roundHalfEven x : ℤ) : α) - x) + (x - (k : α))| := by ring_nf
      _ ≤ |((roundHalfEven x : ℤ) : α) - x| + |x - (k : α)| := abs_add _ _
      _ < 1 := by linarith
  have h3 : |roundHalfEven x - k| < 1 := by
    have : ((|roundHalfEven x - k| : ℤ) : α) < 1 := by
      push_cast; exact h2
    exact_mod_cast this
  have h4 : roundHalfEven x - k = 0 := by
    rw [← abs_eq_zero]
    have := abs_nonneg (roundHalfEven x - k)
    omega
  omega

/-- The binary exponent of `x`, from a bracket by powers of two. -/
theorem log_two_eq (x : α) (e : ℤ) (h1 : (2 : α) ^ e ≤ |x|) (h2 : |x| < (2 : α) ^ (e + 1)) :
    Int.log 2 |x| = e := by
  have hpos : 0 < |x| := lt_of_lt_of_le (two_zpow_pos e) h1
  have a : e ≤ Int.log 2 |x| := by
    rw [← Int.zpow_le_iff_le_log (by norm_num) hpos]
    simpa using h1
  have b : Int.log 2 |x| < e + 1 := by
    rw [← Int.lt_zpow_iff_log_lt (by norm_num) hpos]
    simpa using h2
  omega

/-- Rounding to binary64 moves `x` by at most half a unit in the last place. -/
theorem fl64_abs_error (x : α) (hx : x ≠ 0) :
    |fl64 x - x| ≤ (2 : α) ^ (Int.log 2 |x| - 53) := by
  have hp : (0 : α) < (2 : α) ^ (Int.log 2 |x| - 52) := two_zpow_pos _
  have h1 := roundHalfEven_error (x / (2 : α) ^ (Int.log 2 |x| - 52))
  have e1 : fl64 x - x
      = (((roundHalfEven (x / (2 : α) ^ (Int.log 2 |x| - 52)) : ℤ) : α)
          - x / (2 : α) ^ (Int.log 2 |x| - 52)) * (2 : α) ^ (Int.log 2 |x| - 52) := by
    simp only [fl64, if_neg hx]
    field_simp
  have e2 : (2 : α) ^ (Int.log 2 |x| - 53) = 1 / 2 * (2 : α) ^ (Int.log 2 |x| - 52) := by
    have : Int.log 2 |x| - 52 = (Int.log 2 |x| - 53) + 1 := by ring
    rw [this, zpow_add_one₀ (by norm_num : (2 : α) ≠ 0)]
    ring
  rw [e1, abs_mul, abs_of_pos hp, e2]
  exact mul_le_mul_of_nonneg_right h1 hp.le

/-- Rounding to binary64 has relative error at most `2⁻⁵³`. -/
theorem fl64_rel_error (x : α) : |fl64 x - x| ≤ 1 / 2 ^ 53 * |x| := by
  by_cases hx : x = 0
  · simp [fl64, hx]
  · have h := fl64_abs_error x hx
    have hpos : 0 < |x| := abs_pos.mpr hx
    have hl : ((2 : ℕ) : α) ^ Int.log 2 |x| ≤ |x| := Int.zpow_log_le_self (by norm_num) hpos
    have e : (2 : α) ^ (Int.log 2 |x| - 53) = 1 / 2 ^ 53 * (2 : α) ^ Int.log 2 |x| := by
      rw [zpow_sub₀ (by norm_num : (2 : α) ≠ 0)]
      rw [zpow_ofNat]
      ring
    rw [e] at h
    have hl1 : (2 : α) ^ Int.log 2 |x| ≤ |x| := by simpa using hl
    calc |fl64 x - x| ≤ 1 / 2 ^ 53 * (2 : α) ^ Int.log 2 |x| := h
      _ ≤ 1 / 2 ^ 53 * |x| := mul_le_mul_of_nonneg_left hl1 (by positivity)

/-- The binary64 value of `x` from its exponent `e` and its 53-bit significand `k`. -/
theorem fl64_eq (x : α) (e k : ℤ) (h1 : (2 : α) ^ e ≤ |x|) (h2 : |x| < (2 : α) ^ (e + 1))
    (hk : |x / (2 : α) ^ (e - 52) - (k : α)| < 1 / 2) :
    fl64 x = (k : α) * (2 : α) ^ (e - 52) := by
  have hpos : 0 < |x| := lt_of_lt_of_le (two_zpow_pos e) h1
  have hx : x ≠ 0 := abs_pos.mp hpos
  have hl := log_two_eq x e h1 h2
  simp only [fl64, if_neg hx, hl]
  rw [roundHalfEven_eq _ k hk]

/-- A binary64 value with exponent `e` is a multiple of `2^(e - 52)`. -/
theorem fl64_grid (x : α) (e : ℤ) (h1 : (2 : α) ^ e ≤ |x|) (h2 : |x| < (2 : α) ^ (e + 1)) :
    ∃ k : ℤ, fl64 x = (k : α) * (2 : α) ^ (e - 52) := by
  have hpos : 0 < |x| := lt_of_lt_of_le (two_zpow_pos e) h1
  have hx : x ≠ 0 := abs_pos.mp hpos
  have hl := log_two_eq x e h1 h2
  refine ⟨roundHalfEven (x / (2 : α) ^ (e - 52)), ?_⟩
  simp only [fl64, if_neg hx, hl]

theorem fl64_zero : fl64 (0 : α) = 0 := by simp [fl64]

/-- Evaluation of `fl64` at a positive number from its exponent and significand. -/
theorem fl64_eval_pos (x v : α) (e k : ℤ) (h1 : (2 : α) ^ e ≤ x) (h2 : x < (2 : α) ^ (e + 1))
    (h3 : -(1 / 2) < x / (2 : α) ^ (e - 52) - (k : α))
    (h4 : x / (2 : α) ^ (e - 52) - (k : α) < 1 / 2)
    (hv : (k : α) * (2 : α) ^ (e - 52) = v) : fl64 x = v := by
  have hx : 0 < x := lt_of_lt_of_le (two_zpow_pos e) h1
  rw [← hv]
  exact fl64_eq x e k (by rw [abs_of_pos hx]; exact h1) (by rw [abs_of_pos hx]; exact h2)
    (abs_lt.mpr ⟨h3, h4⟩)

/-- A number half way below the even integer `k` rounds to `k`. -/
theorem roundHalfEven_tie_up (x : α) (k : ℤ) (hx : x = (k : α) - 1 / 2) (hk : k % 2 = 0) :
    roundHalfEven x = k := by
  have hf : ⌊x⌋ = k - 1 := by
    rw [Int.floor_eq_iff, hx]
    push_cast
    constructor <;> linarith
  have e : x - ((k - 1 : ℤ) : α) = 1 / 2 := by
    rw [hx]; push_cast; ring
  have hodd : ¬ (k - 1) % 2 = 0 := by omega
  simp only [roundHalfEven, hf, e, lt_irrefl, if_false, hodd]
  omega

/-- Evaluation of `fl64` at a positive number half way between two doubles, the upper one
having the even significand `k`. -/
theorem fl64_eval_tie_up (x v : α) (e k : ℤ) (h1 : (2 : α) ^ e ≤ x)
    (h2 : x < (2 : α) ^ (e + 1)) (h3 : x / (2 : α) ^ (e - 52) = (k : α) - 1 / 2)
    (hk : k % 2 = 0) (hv : (k : α) * (2 : α) ^ (e - 52) = v) : fl64 x = v := by
  have hx : 0 < x := lt_of_lt_of_le (two_zpow_pos e) h1
  have hx0 : x ≠ 0 := hx.ne'
  have hl := log_two_eq x e (by rw [abs_of_pos hx]; exact h1) (by rw [abs_of_pos hx]; exact h2)
  rw [← hv]
  simp only [fl64, if_neg hx0, hl]
  rw [roundHalfEven_tie_up _ k h3 hk]

/-- Evaluation of `fl64` at a negative number from its exponent and significand. -/
theorem fl64_eval_neg (x v : α) (e k : ℤ) (h1 : (2 : α) ^ e ≤ -x) (h2 : -x < (2 : α) ^ (e + 1))
    (h3 : -(1 / 2) < x / (2 : α) ^ (e - 52) - (k : α))
    (h4 : x / (2 : α) ^ (e - 52) - (k : α) < 1 / 2)
    (hv : (k : α) * (2 : α) ^ (e - 52) = v) : fl64 x = v := by
  have hx : x < 0 := neg_pos.mp (lt_of_lt_of_le (two_zpow_pos e) h1)
  rw [← hv]
  exact fl64_eq x e k (by rw [abs_of_neg hx]; exact h1) (by rw [abs_of_neg hx]; exact h2)
    (abs_lt.mpr ⟨h3, h4⟩)

end

/-! Theorems: the pointer target on doubles (`icon-follow.js`, lines 86-109, 160-220). -/

namespace IconFollow

section
variable {α : Type} [LinearOrderedField α]

/-- With the identity for rounding, the rounded `setTargetFromClientXY` is the exact
one. -/
theorem setTargetFl_id (c : Config α) (lay : Layout α) (s : State α) (cx cy : α)
    (mode : Mode) :
    setTargetFromClientXYFl (fun x => x) c lay s cx cy mode
      = setTargetFromClientXY c lay s cx cy mode := rfl

/-- When the clamp keeps the rounded desired corner, the target is the rounded difference
between that corner and the base. -/
theorem setTargetFl_unclamped (fl : α → α) (c : Config α) (lay : Layout α) (s : State α)
    (cx cy : α) (mode : Mode) (hact : s.active.isSome = true)
    (hk : ClampKeepsFl fl c lay (desiredCornerFl fl s cx cy mode)) :
    (setTargetFromClientXYFl fl c lay s cx cy mode).tx
      = fl ((desiredCornerFl fl s cx cy mode).1 - s.baseLeft) ∧
    (setTargetFromClientXYFl fl c lay s cx cy mode).ty
      = fl ((desiredCornerFl fl s cx cy mode).2 - s.baseTop) := by
  have hn : s.active.isNone = false := by
    cases h : s.active with
    | none => rw [h] at hact; exact absurd hact (by simp)
    | some a => rfl
  rcases hk with hoff | ⟨a1, a2, a3, a4⟩
  · simp [setTargetFromClientXYFl, hn, hoff, desiredCornerFl]
  · simp only [desiredCornerFl] at a1 a2 a3 a4
    simp only [setTargetFromClientXYFl, hn, desiredCornerFl, Bool.false_eq_true, if_false]
    rw [if_neg (not_lt.mpr a1), if_neg (not_lt.mpr a2), if_neg (not_lt.mpr a3),
      if_neg (not_lt.mpr a4)]
    simp

/-- Two rounded subtractions `fl (fl (p - h) - b)` return to `p` within the two rounding
errors. -/
theorem two_sub_near (fl : α → α) (u : α) (hfl : ∀ x, |fl x - x| ≤ u * |x|) (p h b : α) :
    |b + fl (fl (p - h) - b) + h - p| ≤ u * (|p - h| + |fl (p - h) - b|) := by
  have h1 := hfl (p - h)
  have h2 := hfl (fl (p - h) - b)
  have e : b + fl (fl (p - h) - b) + h - p
      = (fl (fl (p - h) - b) - (fl (p - h) - b)) + (fl (p - h) - (p - h)) := by ring
  rw [e]
  calc |(fl (fl (p - h) - b) - (fl (p - h) - b)) + (fl (p - h) - (p - h))|
      ≤ |fl (fl (p - h) - b) - (fl (p - h) - b)| + |fl (p - h) - (p - h)| := abs_add _ _
    _ ≤ u * |fl (p - h) - b| + u * |p - h| := add_le_add h2 h1
    _ = u * (|p - h| + |fl (p - h) - b|) := by ring

/-- The first-touch target `fl (fl (p - fl (p - l)) - l)` is zero up to the rounding
errors of the three subtractions. -/
theorem first_touch_near (fl : α → α) (u : α) (hfl : ∀ x, |fl x - x| ≤ u * |x|)
    (hu0 : 0 ≤ u) (hu1 : u ≤ 1 / 4) (p l : α) :
    |fl (fl (p - fl (p - l)) - l)| ≤ 2 * u * (|p - l| + |l|) := by
  have h1 := hfl (p - l)
  have h2 := hfl (p - fl (p - l))
  have h3 := hfl (fl (p - fl (p - l)) - l)
  have ha := abs_nonneg (p - l)
  have hl := abs_nonneg l
  -- the second difference is `l` up to the first error
  have b2 : |p - fl (p - l)| ≤ |l| + u * |p - l| := by
    have e : p - fl (p - l) = l - (fl (p - l) - (p - l)) := by ring
    rw [e]
    calc |l - (fl (p - l) - (p - l))| ≤ |l| + |fl (p - l) - (p - l)| := abs_sub _ _
      _ ≤ |l| + u * |p - l| := by linarith
  -- the third difference is the sum of the first two errors
  have b3 : |fl (p - fl (p - l)) - l| ≤ u * (|l| + u * |p - l|) + u * |p - l| := by
    have e : fl (p - fl (p - l)) - l
        = (fl (p - fl (p - l)) - (p - fl (p - l))) - (fl (p - l) - (p - l)) := by ring
    rw [e]
    calc |(fl (p - fl (p - l)) - (p - fl (p - l))) - (fl (p - l) - (p - l))|
        ≤ |fl (p - fl (p - l)) - (p - fl (p - l))| + |fl (p - l) - (p - l)| := abs_sub _ _
      _ ≤ u * |p - fl (p - l)| + u * |p - l| := add_le_add h2 h1
      _ ≤ u * (|l| + u * |p - l|) + u * |p - l| := by
          have := mul_le_mul_of_nonneg_left b2 hu0
          linarith
  have b4 : |fl (fl (p - fl (p - l)) - l)|
      ≤ |fl (p - fl (p - l)) - l| + u * |fl (p - fl (p - l)) - l| := by
    have e : fl (fl (p - fl (p - l)) - l)
        = (fl (p - fl (p - l)) - l)
          + (fl (fl (p - fl (p - l)) - l) - (fl (p - fl (p - l)) - l)) := by ring
    rw [e]
    calc _ ≤ |fl (p - fl (p - l)) - l|
          + |fl (fl (p - fl (p - l)) - l) - (fl (p - fl (p - l)) - l)| := abs_add _ _
      _ ≤ _ := by linarith
  have hz := abs_nonneg (fl (p - fl (p - l)) - l)
  have c1 : u * |fl (p - fl (p - l)) - l| ≤ 1 / 4 * |fl (p - fl (p - l)) - l| :=
    mul_le_mul_of_nonneg_right hu1 hz
  have c2 : u * (u * |p - l|) ≤ u * (1 / 4 * |p - l|) :=
    mul_le_mul_of_nonneg_left (mul_le_mul_of_nonneg_right hu1 ha) hu0
  have c3 : 0 ≤ u * |p - l| := mul_nonneg hu0 ha
  have c4 : 0 ≤ u * |l| := mul_nonneg hu0 hl
  nlinarith [b3, b4, c1, c2, c3, c4]

/-- On a touch or pen pointer-down on an icon, when the clamp keeps the desired corner, the
target is `fl (fl (p - fl (p - l)) - l)` on each axis, `p` the pointer coordinate and `l`
the icon corner. -/
theorem onIconPointerDown_touch (fl : α → α) (c : Config α) (lay : Layout α) (s : State α)
    (el : Nat) (r : Rect α) (e : PointerEvent α) (raf : Nat)
    (hne : e.pointerType ≠ PointerType.mouse)
    (hk : ClampKeepsFl fl c lay
      (fl (e.clientX - fl (e.clientX - r.left)), fl (e.clientY - fl (e.clientY - r.top)))) :
    (onIconPointerDown fl c lay s el r e raf).tx
      = fl (fl (e.clientX - fl (e.clientX - r.left)) - r.left) ∧
    (onIconPointerDown fl c lay s el r e raf).ty
      = fl (fl (e.clientY - fl (e.clientY - r.top)) - r.top) := by
  simp only [onIconPointerDown, if_neg hne]
  refine setTargetFl_unclamped fl c lay _ e.clientX e.clientY Mode.touch ?_ ?_
  · rfl
  · simpa [desiredCornerFl] using hk

end

section
variable {α : Type} [LinearOrderedField α] [FloorRing α]

theorem fl64_rel (x : α) : |fl64 x - x| ≤ 1 / 2 ^ 53 * |x| := fl64_rel_error x

/-- C5 (amended). On doubles, whenever the clamp leaves the desired corner unchanged,
`setTargetFromClientXY` puts the reference point of the element (its centre in mouse mode,
the grab point in touch mode) under the pointer up to the rounding of its two subtractions,
each of relative error at most `2⁻⁵³`, and exactly when both subtractions are exact. On the
first touch or pen pointer-down on an icon the grab offset is the rounded difference between
the pointer and the icon corner, and the target offset is at most
`2⁻⁵²·(|clientX - left| + |left|)` in size (likewise in `y`); it is exactly 0 when the grab
subtraction is exact. -/
theorem setTarget_reference_near_pointer (c : Config α) (lay : Layout α) :
    (∀ (s : State α) (cx cy : α), s.active.isSome = true →
      ClampKeepsFl fl64 c lay (desiredCornerFl fl64 s cx cy Mode.mouse) →
      |s.baseLeft + (setTargetFromClientXYFl fl64 c lay s cx cy Mode.mouse).tx + s.halfW - cx|
        ≤ 1 / 2 ^ 53 * (|cx - s.halfW| + |fl64 (cx - s.halfW) - s.baseLeft|) ∧
      |s.baseTop + (setTargetFromClientXYFl fl64 c lay s cx cy Mode.mouse).ty + s.halfH - cy|
        ≤ 1 / 2 ^ 53 * (|cy - s.halfH| + |fl64 (cy - s.halfH) - s.baseTop|) ∧
      (fl64 (cx - s.halfW) = cx - s.halfW →
        fl64 (cx - s.halfW - s.baseLeft) = cx - s.halfW - s.baseLeft →
        s.baseLeft + (setTargetFromClientXYFl fl64 c lay s cx cy Mode.mouse).tx + s.halfW
          = cx) ∧
      (fl64 (cy - s.halfH) = cy - s.halfH →
        fl64 (cy - s.halfH - s.baseTop) = cy - s.halfH - s.baseTop →
        s.baseTop + (setTargetFromClientXYFl fl64 c lay s cx cy Mode.mouse).ty + s.halfH
          = cy)) ∧
    (∀ (s : State α) (cx cy : α), s.active.isSome = true →
      ClampKeepsFl fl64 c lay (desiredCornerFl fl64 s cx cy Mode.touch) →
      |s.baseLeft + (setTargetFromClientXYFl fl64 c lay s cx cy Mode.touch).tx + s.grab.x - cx|
        ≤ 1 / 2 ^ 53 * (|cx - s.grab.x| + |fl64 (cx - s.grab.x) - s.baseLeft|) ∧
      |s.baseTop + (setTargetFromClientXYFl fl64 c lay s cx cy Mode.touch).ty + s.grab.y - cy|
        ≤ 1 / 2 ^ 53 * (|cy - s.grab.y| + |fl64 (cy - s.grab.y) - s.baseTop|) ∧
      (fl64 (cx - s.grab.x) = cx - s.grab.x →
        fl64 (cx - s.grab.x - s.baseLeft) = cx - s.grab.x - s.baseLeft →
        s.baseLeft + (setTargetFromClientXYFl fl64 c lay s cx cy Mode.touch).tx + s.grab.x
          = cx) ∧
      (fl64 (cy - s.grab.y) = cy - s.grab.y →
        fl64 (cy - s.grab.y - s.baseTop) = cy - s.grab.y - s.baseTop →
        s.baseTop + (setTargetFromClientXYFl fl64 c lay s cx cy Mode.touch).ty + s.grab.y
          = cy)) ∧
    (∀ (s : State α) (el : Nat) (r : Rect α) (e : PointerEvent α) (raf : Nat),
      e.pointerType ≠ PointerType.mouse →
      ClampKeepsFl fl64 c lay
        (fl64 (e.clientX - fl64 (e.clientX - r.left)),
         fl64 (e.clientY - fl64 (e.clientY - r.top))) →
      (onIconPointerDown fl64 c lay s el r e raf).grab.x = fl64 (e.clientX - r.left) ∧
      (onIconPointerDown fl64 c lay s el r e raf).grab.y = fl64 (e.clientY - r.top) ∧
      |(onIconPointerDown fl64 c lay s el r e raf).tx|
        ≤ 1 / 2 ^ 52 * (|e.clientX - r.left| + |r.left|) ∧
      |(onIconPointerDown fl64 c lay s el r e raf).ty|
        ≤ 1 / 2 ^ 52 * (|e.clientY - r.top| + |r.top|) ∧
      (fl64 (e.clientX - r.left) = e.clientX - r.left → fl64 r.left = r.left →
        (onIconPointerDown fl64 c lay s el r e raf).tx = 0) ∧
      (fl64 (e.clientY - r.top) = e.clientY - r.top → fl64 r.top = r.top →
        (onIconPointerDown fl64 c lay s el r e raf).ty = 0)) := by
  refine ⟨?_, ?_, ?_⟩
  · intro s cx cy hact hk
    obtain ⟨h1, h2⟩ := setTargetFl_unclamped fl64 c lay s cx cy Mode.mouse hact hk
    simp only [desiredCornerFl, if_true] at h1 h2
    rw [h1, h2]
    refine ⟨two_sub_near fl64 _ fl64_rel cx s.halfW s.baseLeft,
      two_sub_near fl64 _ fl64_rel cy s.halfH s.baseTop, ?_, ?_⟩
    · intro e1 e2
      rw [e1, e2]; ring
    · intro e1 e2
      rw [e1, e2]; ring
  · intro s cx cy hact hk
    obtain ⟨h1, h2⟩ := setTargetFl_unclamped fl64 c lay s cx cy Mode.touch hact hk
    simp only [desiredCornerFl, reduceCtorEq, if_false] at h1 h2
    rw [h1, h2]
    refine ⟨two_sub_near fl64 _ fl64_rel cx s.grab.x s.baseLeft,
      two_sub_near fl64 _ fl64_rel cy s.grab.y s.baseTop, ?_, ?_⟩
    · intro e1 e2
      rw [e1, e2]; ring
    · intro e1 e2
      rw [e1, e2]; ring
  · intro s el r e raf hne hk
    have hu : (1 : α) / 2 ^ 53 ≤ 1 / 4 := by norm_num
    have hu0 : (0 : α) ≤ 1 / 2 ^ 53 := by positivity
    obtain ⟨etx, ety⟩ := onIconPointerDown_touch fl64 c lay s el r e raf hne hk
    have b1 := first_touch_near fl64 _ fl64_rel hu0 hu e.clientX r.left
    have b2 := first_touch_near fl64 _ fl64_rel hu0 hu e.clientY r.top
    have e52 : (2 : α) * (1 / 2 ^ 53) = 1 / 2 ^ 52 := by norm_num
    rw [e52] at b1 b2
    refine ⟨?_, ?_, ?_, ?_, ?_, ?_⟩
    · simp [onIconPointerDown, hne, setTargetFromClientXYFl]
    · simp [onIconPointerDown, hne, setTargetFromClientXYFl]
    · rw [etx]; exact b1
    · rw [ety]; exact b2
    · intro e1 e2
      rw [etx, e1, sub_sub_cancel, e2, sub_self, fl64_zero]
    · intro e1 e2
      rw [ety, e1, sub_sub_cancel, e2, sub_self, fl64_zero]

end

/-- Witness for C5 (amended): a touch pointer-down at (110, 215) on an icon whose box is
(100, 200, 64, 64), in a 1280 by 720 viewport; all subtractions are exact and the target
is 0. -/
theorem setTarget_reference_near_pointer_witness :
    (onIconPointerDown fl64 (configured : Config ℚ) (Layout.mk 1280 720 64 64) initState 7
      (Rect.mk 100 200 64 64) (PointerEvent.mk PointerType.touch 1 110 215) 1).tx = 0 := by
  have h10 : fl64 (110 - 100 : ℚ) = 110 - 100 :=
    fl64_eval_pos _ _ 3 5629499534213120 (by norm_num) (by norm_num) (by norm_num)
      (by norm_num) (by norm_num)
  have h100 : fl64 (100 : ℚ) = 100 :=
    fl64_eval_pos _ _ 6 7036874417766400 (by norm_num) (by norm_num) (by norm_num)
      (by norm_num) (by norm_num)
  have h15 : fl64 (215 - 200 : ℚ) = 215 - 200 :=
    fl64_eval_pos _ _ 3 8444249301319680 (by norm_num) (by norm_num) (by norm_num)
      (by norm_num) (by norm_num)
  have h200 : fl64 (200 : ℚ) = 200 :=
    fl64_eval_pos _ _ 7 7036874417766400 (by norm_num) (by norm_num) (by norm_num)
      (by norm_num) (by norm_num)
  have hmaxL : fl64 (1280 - 64 : ℚ) = 1216 :=
    fl64_eval_pos _ _ 10 5348024557502464 (by norm_num) (by norm_num) (by norm_num)
      (by norm_num) (by norm_num)
  have hmaxT : fl64 (720 - 64 : ℚ) = 656 :=
    fl64_eval_pos _ _ 9 5770237022568448 (by norm_num) (by norm_num) (by norm_num)
      (by norm_num) (by norm_num)
  refine ((setTarget_reference_near_pointer (configured : Config ℚ)
    (Layout.mk 1280 720 64 64)).2.2 initState 7 (Rect.mk 100 200 64 64)
    (PointerEvent.mk PointerType.touch 1 110 215) 1 (by decide) ?_).2.2.2.2.1 h10 h100
  right
  simp only [h10, h15, sub_sub_cancel, h100, h200, hmaxL, hmaxT]
  norm_num

/-- C5 fails as stated on doubles. (a) First touch pointer-down at `clientX = 379.3`,
`clientY = 215` on an icon whose box is `(119.7, 200, 64, 64)`, in a 1280 by 720 viewport:
the clamp keeps the desired corner, the grab offset rounds to `259.6`, and the target is
`tx = -2⁻⁴⁶`, about `-1.4e-14`, not 0. (b) Mouse mode with `baseLeft = 100.2`,
`halfW = 32.05` and the pointer at `cx = 200.1`: `baseLeft + tx + halfW` exceeds `cx` by
`2⁻⁴⁶`. -/
theorem pointer_target_rounds :
    (ClampKeepsFl fl64 (configured : Config ℚ) (Layout.mk 1280 720 64 64)
        (fl64 (fl64 (3793 / 10) - fl64 (fl64 (3793 / 10) - fl64 (1197 / 10))),
         fl64 (215 - fl64 (215 - 200))) ∧
     (onIconPointerDown fl64 (configured : Config ℚ) (Layout.mk 1280 720 64 64) initState 7
        (Rect.mk (fl64 (1197 / 10)) 200 64 64)
        (PointerEvent.mk PointerType.touch 1 (fl64 (3793 / 10)) 215) 1).tx = -(1 / 2 ^ 46)) ∧
    (ClampKeepsFl fl64 (configured : Config ℚ) (Layout.mk 1280 720 64 64)
        (desiredCornerFl fl64
          { (restState (0 : ℚ) 0) with
            baseLeft := fl64 (1002 / 10), baseTop := 200,
            halfW := fl64 (3205 / 100), halfH := 32 }
          (fl64 (2001 / 10)) 232 Mode.mouse) ∧
     ({ (restState (0 : ℚ) 0) with
          baseLeft := fl64 (1002 / 10), baseTop := 200,
          halfW := fl64 (3205 / 100), halfH := 32 } : State ℚ).baseLeft
       + (setTargetFromClientXYFl fl64 (configured : Config ℚ) (Layout.mk 1280 720 64 64)
          { (restState (0 : ℚ) 0) with
            baseLeft := fl64 (1002 / 10), baseTop := 200,
            halfW := fl64 (3205 / 100), halfH := 32 }
          (fl64 (2001 / 10)) 232 Mode.mouse).tx
       + fl64 (3205 / 100)
       = fl64 (2001 / 10) + 1 / 2 ^ 46) := by
  have hX : fl64 (3793 / 10 : ℚ) = 6672716166646989 / 2 ^ 44 :=
    fl64_eval_pos _ _ 8 6672716166646989 (by norm_num) (by norm_num) (by norm_num)
      (by norm_num) (by norm_num)
  have hL : fl64 (1197 / 10 : ℚ) = 8423138678066381 / 2 ^ 46 :=
    fl64_eval_pos _ _ 6 8423138678066381 (by norm_num) (by norm_num) (by norm_num)
      (by norm_num) (by norm_num)
  have hg : fl64 (6672716166646989 / 2 ^ 44 - 8423138678066381 / 2 ^ 46 : ℚ)
      = 4566931497130394 / 2 ^ 44 :=
    fl64_eval_pos _ _ 8 4566931497130394 (by norm_num) (by norm_num) (by norm_num)
      (by norm_num) (by norm_num)
  have hd : fl64 (6672716166646989 / 2 ^ 44 - 4566931497130394 / 2 ^ 44 : ℚ)
      = 8423138678066380 / 2 ^ 46 :=
    fl64_eval_pos _ _ 6 8423138678066380 (by norm_num) (by norm_num) (by norm_num)
      (by norm_num) (by norm_num)
  have ht : fl64 (8423138678066380 / 2 ^ 46 - 8423138678066381 / 2 ^ 46 : ℚ)
      = -(1 / 2 ^ 46) :=
    fl64_eval_neg _ _ (-46) (-4503599627370496) (by norm_num) (by norm_num) (by norm_num)
      (by norm_num) (by norm_num)
  have h15 : fl64 (215 - 200 : ℚ) = 15 :=
    fl64_eval_pos _ _ 3 8444249301319680 (by norm_num) (by norm_num) (by norm_num)
      (by norm_num) (by norm_num)
  have h200 : fl64 (215 - 15 : ℚ) = 200 :=
    fl64_eval_pos _ _ 7 7036874417766400 (by norm_num) (by norm_num) (by norm_num)
      (by norm_num) (by norm_num)
  have hmaxL : fl64 (1280 - 64 : ℚ) = 1216 :=
    fl64_eval_pos _ _ 10 5348024557502464 (by norm_num) (by norm_num) (by norm_num)
      (by norm_num) (by norm_num)
  have hmaxT : fl64 (720 - 64 : ℚ) = 656 :=
    fl64_eval_pos _ _ 9 5770237022568448 (by norm_num) (by norm_num) (by norm_num)
      (by norm_num) (by norm_num)
  have hb : fl64 (1002 / 10 : ℚ) = 7050948166601933 / 2 ^ 46 :=
    fl64_eval_pos _ _ 6 7050948166601933 (by norm_num) (by norm_num) (by norm_num)
      (by norm_num) (by norm_num)
  have hh : fl64 (3205 / 100 : ℚ) = 4510636501788262 / 2 ^ 47 :=
    fl64_eval_pos _ _ 5 4510636501788262 (by norm_num) (by norm_num) (by norm_num)
      (by norm_num) (by norm_num)
  have hc : fl64 (2001 / 10 : ℚ) = 7040392854975283 / 2 ^ 45 :=
    fl64_eval_pos _ _ 7 7040392854975283 (by norm_num) (by norm_num) (by norm_num)
      (by norm_num) (by norm_num)
  have hd2 : fl64 (7040392854975283 / 2 ^ 45 - 4510636501788262 / 2 ^ 47 : ℚ)
      = 5912733729528218 / 2 ^ 45 :=
    fl64_eval_tie_up _ _ 7 5912733729528218 (by norm_num) (by norm_num) (by norm_num)
      (by decide) (by norm_num)
  have ht2 : fl64 (5912733729528218 / 2 ^ 45 - 7050948166601933 / 2 ^ 46 : ℚ)
      = 4774519292454503 / 2 ^ 46 :=
    fl64_eval_pos _ _ 6 4774519292454503 (by norm_num) (by norm_num) (by norm_num)
      (by norm_num) (by norm_num)
  have hdy : fl64 (232 - 32 : ℚ) = 200 :=
    fl64_eval_pos _ _ 7 7036874417766400 (by norm_num) (by norm_num) (by norm_num)
      (by norm_num) (by norm_num)
  have k1 : ClampKeepsFl fl64 (configured : Config ℚ) (Layout.mk 1280 720 64 64)
      (fl64 (fl64 (3793 / 10) - fl64 (fl64 (3793 / 10) - fl64 (1197 / 10))),
       fl64 (215 - fl64 (215 - 200))) := by
    right
    simp only [hX, hL, hg, hd, h15, h200, hmaxL, hmaxT]
    norm_num
  have k2 : ClampKeepsFl fl64 (configured : Config ℚ) (Layout.mk 1280 720 64 64)
      (desiredCornerFl fl64
        { (restState (0 : ℚ) 0) with
          baseLeft := fl64 (1002 / 10), baseTop := 200,
          halfW := fl64 (3205 / 100), halfH := 32 }
        (fl64 (2001 / 10)) 232 Mode.mouse) := by
    right
    simp only [desiredCornerFl, if_true, hc, hh, hd2, hdy, hmaxL, hmaxT]
    norm_num
  refine ⟨⟨k1, ?_⟩, k2, ?_⟩
  · rw [(onIconPointerDown_touch fl64 (configured : Config ℚ) (Layout.mk 1280 720 64 64)
      initState 7 (Rect.mk (fl64 (1197 / 10)) 200 64 64)
      (PointerEvent.mk PointerType.touch 1 (fl64 (3793 / 10)) 215) 1 (by decide) k1).1]
    simp only [hX, hL, hg, hd, ht]
  · rw [(setTargetFl_unclamped fl64 (configured : Config ℚ) (Layout.mk 1280 720 64 64)
      { (restState (0 : ℚ) 0) with
        baseLeft := fl64 (1002 / 10), baseTop := 200,
        halfW := fl64 (3205 / 100), halfH := 32 }
      (fl64 (2001 / 10)) 232 Mode.mouse rfl k2).1]
    simp only [desiredCornerFl, if_true, hc, hh, hd2, hb, ht2]
    norm_num

end IconFollow

/-! Theorems: the radial layout on doubles (`circular-menu.js`, lines 149-162). -/

namespace CircularMenu

/-- One rounded operation: a value `z` within `e` of `z0` is rounded to within
`e + u·(M + e)` of it, where `M` bounds `|z0|`. -/
theorem fl_near (fl : ℝ → ℝ) (u : ℝ) (hfl : ∀ x, |fl x - x| ≤ u * |x|) (hu0 : 0 ≤ u)
    (z z0 e M : ℝ) (h : |z - z0| ≤ e) (hM : |z0| ≤ M) : |fl z - z0| ≤ e + u * (M + e) := by
  have h1 := hfl z
  have h2 : |z| ≤ M + e := by
    calc |z| = |z0 + (z - z0)| := by ring_nf
      _ ≤ |z0| + |z - z0| := abs_add _ _
      _ ≤ M + e := add_le_add hM h
  have h3 : u * |z| ≤ u * (M + e) := mul_le_mul_of_nonneg_left h2 hu0
  calc |fl z - z0| = |(fl z - z) + (z - z0)| := by ring_nf
    _ ≤ |fl z - z| + |z - z0| := abs_add _ _
    _ ≤ e + u * (M + e) := by linarith only [h1, h3, h]

/-- One rounded operation in units of `u`: from an error `K·u` before rounding and a
magnitude `M` of the exact value to an error `K1·u` after rounding. -/
theorem fl_step (fl : ℝ → ℝ) (u : ℝ) (hfl : ∀ x, |fl x - x| ≤ u * |x|) (hu0 : 0 ≤ u)
    (hu1 : u ≤ 1 / 1000) (z z0 K M K1 : ℝ) (hK : 0 ≤ K) (h : |z - z0| ≤ K * u)
    (hM : |z0| ≤ M) (hK1 : K + M + K / 1000 ≤ K1) : |fl z - z0| ≤ K1 * u := by
  have h1 := fl_near fl u hfl hu0 z z0 (K * u) M h hM
  have h2 : u * (K * u) ≤ K / 1000 * u := by
    have e : u * (K * u) = (K * u) * u := by ring
    rw [e]
    have h3 : K * u ≤ K / 1000 := by
      have := mul_le_mul_of_nonneg_left hu1 hK
      linarith only [this]
    exact mul_le_mul_of_nonneg_right h3 hu0
  have h4 : (K + M + K / 1000) * u ≤ K1 * u := mul_le_mul_of_nonneg_right hK1 hu0
  have e : K * u + u * (M + K * u) = (K + M) * u + u * (K * u) := by ring
  rw [e] at h1
  have e2 : (K + M + K / 1000) * u = (K + M) * u + K / 1000 * u := by ring
  rw [e2] at h4
  linarith only [h1, h2, h4]

theorem near_sub {a a0 b b0 Ka Kb u : ℝ} (ha : |a - a0| ≤ Ka * u) (hb : |b - b0| ≤ Kb * u) :
    |(a - b) - (a0 - b0)| ≤ (Ka + Kb) * u := by
  have e : (a - b) - (a0 - b0) = (a - a0) - (b - b0) := by ring
  rw [e]
  calc |(a - a0) - (b - b0)| ≤ |a - a0| + |b - b0| := abs_sub _ _
    _ ≤ (Ka + Kb) * u := by linarith only [ha, hb]

theorem near_add {a a0 b b0 Ka Kb u : ℝ} (ha : |a - a0| ≤ Ka * u) (hb : |b - b0| ≤ Kb * u) :
    |(a + b) - (a0 + b0)| ≤ (Ka + Kb) * u := by
  have e : (a + b) - (a0 + b0) = (a - a0) + (b - b0) := by ring
  rw [e]
  calc |(a - a0) + (b - b0)| ≤ |a - a0| + |b - b0| := abs_add _ _
    _ ≤ (Ka + Kb) * u := by linarith only [ha, hb]

theorem near_div {a a0 K u : ℝ} (c : ℝ) (hc : 0 < c) (ha : |a - a0| ≤ K * u) :
    |a / c - a0 / c| ≤ K / c * u := by
  rw [← sub_div, abs_div, abs_of_pos hc]
  have := div_le_div_of_nonneg_right ha hc.le
  calc |a - a0| / c ≤ K * u / c := this
    _ = K / c * u := by ring

theorem mul_near {a a0 b b0 ea eb : ℝ} (ha : |a - a0| ≤ ea) (hb : |b - b0| ≤ eb) :
    |a * b - a0 * b0| ≤ |a0| * eb + |b0| * ea + ea * eb := by
  have e : a * b - a0 * b0 = a0 * (b - b0) + b0 * (a - a0) + (a - a0) * (b - b0) := by ring
  have hea : 0 ≤ ea := le_trans (abs_nonneg _) ha
  rw [e]
  have h0 := abs_add (a0 * (b - b0) + b0 * (a - a0)) ((a - a0) * (b - b0))
  have h00 := abs_add (a0 * (b - b0)) (b0 * (a - a0))
  rw [abs_mul, abs_mul] at h00
  rw [abs_mul (a - a0)] at h0
  have h1 := mul_le_mul_of_nonneg_left hb (abs_nonneg a0)
  have h2 := mul_le_mul_of_nonneg_left ha (abs_nonneg b0)
  have h3 := mul_le_mul ha hb (abs_nonneg _) hea
  linarith only [h0, h00, h1, h2, h3]

/-- The values `span` (line 153) and `-Math.PI/2` on doubles, for a gap of 0 to 360
degrees. -/
theorem polarSpan_near (fl : ℝ → ℝ) (u : ℝ) (hfl : ∀ x, |fl x - x| ≤ u * |x|)
    (hu0 : 0 ≤ u) (hu1 : u ≤ 1 / 1000) (P : ℝ) (hP : |P - Real.pi| ≤ u * Real.pi)
    (g : ℝ) (hg0 : 0 ≤ g) (hg1 : g ≤ 360) :
    |fl (fl (P * 2) - fl (fl (g * P) / 180)) - (2 * Real.pi - g * Real.pi / 180)| ≤ 39 * u ∧
    |fl (-P / 2) - -Real.pi / 2| ≤ 4 * u := by
  have hpi0 := Real.pi_pos
  have hpi1 := Real.pi_lt_d2
  have hupi : u * Real.pi ≤ 315 / 100 * u := by nlinarith only [hu0, hpi1]
  have eP : |P - Real.pi| ≤ 315 / 100 * u := le_trans hP hupi
  have preF : |P * 2 - 2 * Real.pi| ≤ 63 / 10 * u := by
    have e : P * 2 - 2 * Real.pi = 2 * (P - Real.pi) := by ring
    rw [e, abs_mul, abs_of_pos (by norm_num : (0 : ℝ) < 2)]
    linarith only [eP]
  have eF := fl_step fl u hfl hu0 hu1 (P * 2) (2 * Real.pi) (63 / 10) (63 / 10) 13
    (by norm_num) preF
    (by rw [abs_of_pos (by linarith only [hpi0])]; linarith only [hpi1]) (by norm_num)
  have pre3 : |g * P - g * Real.pi| ≤ 1134 * u := by
    have e : g * P - g * Real.pi = g * (P - Real.pi) := by ring
    rw [e, abs_mul, abs_of_nonneg hg0]
    calc g * |P - Real.pi| ≤ 360 * (315 / 100 * u) :=
          mul_le_mul hg1 eP (abs_nonneg _) (by norm_num)
      _ = 1134 * u := by ring
  have mag3 : |g * Real.pi| ≤ 1134 := by
    rw [abs_of_nonneg (mul_nonneg hg0 hpi0.le)]
    nlinarith only [hg0, hg1, hpi0, hpi1]
  have eG := fl_step fl u hfl hu0 hu1 (g * P) (g * Real.pi) 1134 1134 2270 (by norm_num)
    pre3 mag3 (by norm_num)
  have mag4 : |g * Real.pi / 180| ≤ 63 / 10 := by
    rw [abs_of_nonneg (div_nonneg (mul_nonneg hg0 hpi0.le) (by norm_num))]
    nlinarith only [hg0, hg1, hpi0, hpi1]
  have eH := fl_step fl u hfl hu0 hu1 (fl (g * P) / 180) (g * Real.pi / 180) (2270 / 180)
    (63 / 10) 19 (by norm_num) (near_div 180 (by norm_num) eG) mag4 (by norm_num)
  have hS0 : 0 ≤ 2 * Real.pi - g * Real.pi / 180 := by nlinarith only [hg0, hg1, hpi0]
  have hS1 : 2 * Real.pi - g * Real.pi / 180 ≤ 63 / 10 := by
    nlinarith only [hg0, hg1, hpi0, hpi1]
  have eS := fl_step fl u hfl hu0 hu1 (fl (P * 2) - fl (fl (g * P) / 180))
    (2 * Real.pi - g * Real.pi / 180) (13 + 19) (63 / 10) 39 (by norm_num)
    (near_sub eF eH) (by rw [abs_of_nonneg hS0]; exact hS1) (by norm_num)
  have preA : |-P / 2 - -Real.pi / 2| ≤ 1575 / 1000 * u := by
    have e : -P / 2 - -Real.pi / 2 = -(1 / 2) * (P - Real.pi) := by ring
    rw [e, abs_mul, abs_of_neg (by norm_num : -(1 / 2 : ℝ) < 0)]
    linarith only [eP]
  have eA := fl_step fl u hfl hu0 hu1 (-P / 2) (-Real.pi / 2) (1575 / 1000) (1575 / 1000) 4
    (by norm_num) preA
    (by rw [abs_of_neg (by linarith only [hpi0])]; linarith only [hpi1]) (by norm_num)
  exact ⟨eS, eA⟩

/-- The value `angle` (line 156) on doubles, from the accuracy of `span` and `-Math.PI/2`. -/
theorem polarAngle_core (fl : ℝ → ℝ) (u : ℝ) (hfl : ∀ x, |fl x - x| ≤ u * |x|)
    (hu0 : 0 ≤ u) (hu1 : u ≤ 1 / 1000) (sp S A : ℝ) (hS0 : 0 ≤ S) (hS1 : S ≤ 63 / 10)
    (eS : |sp - S| ≤ 39 * u) (eA : |A - -Real.pi / 2| ≤ 4 * u) (n i : Nat) (hi : i < n) :
    |fl (fl (A - fl (sp / 2)) + fl (fl ((i : ℝ) + 1 / 2) * fl (sp / (n : ℝ))))
      - (-Real.pi / 2 - S / 2 + ((i : ℝ) + 1 / 2) * S / (n : ℝ))| ≤ 97 * u := by
  have hpi0 := Real.pi_pos
  have hpi1 := Real.pi_lt_d2
  have hn : (0 : ℝ) < (n : ℝ) := by
    have : 0 < n := by omega
    exact_mod_cast this
  have hin : (i : ℝ) + 1 ≤ (n : ℝ) := by exact_mod_cast hi
  have hi0 : (0 : ℝ) ≤ (i : ℝ) := Nat.cast_nonneg i
  have hk0 : (0 : ℝ) ≤ (i : ℝ) + 1 / 2 := by linarith only [hi0]
  have ht0 : 0 ≤ ((i : ℝ) + 1 / 2) / (n : ℝ) := div_nonneg hk0 hn.le
  have ht1 : ((i : ℝ) + 1 / 2) / (n : ℝ) ≤ 1 := by
    rw [div_le_one hn]
    linarith only [hin]
  -- span / 2
  have eB := fl_step fl u hfl hu0 hu1 (sp / 2) (S / 2) (39 / 2) (315 / 100) 23 (by norm_num)
    (near_div 2 (by norm_num) eS)
    (by rw [abs_of_nonneg (by linarith only [hS0])]; linarith only [hS1]) (by norm_num)
  -- start
  have eC := fl_step fl u hfl hu0 hu1 (A - fl (sp / 2)) (-Real.pi / 2 - S / 2) (4 + 23)
    (4725 / 1000) 32 (by norm_num) (near_sub eA eB)
    (by rw [abs_of_nonpos (by linarith only [hS0, hpi0])]; linarith only [hS1, hpi1])
    (by norm_num)
  -- span / n
  have hSn0 : 0 ≤ S / (n : ℝ) := div_nonneg hS0 hn.le
  have eD := fl_step fl u hfl hu0 hu1 (sp / (n : ℝ)) (S / (n : ℝ)) (39 / (n : ℝ))
    ((63 / 10) / (n : ℝ)) (46 / (n : ℝ)) (div_nonneg (by norm_num) hn.le)
    (near_div (n : ℝ) hn eS)
    (by rw [abs_of_nonneg hSn0]; exact div_le_div_of_nonneg_right hS1 hn.le)
    (by
      have e : 39 / (n : ℝ) + 63 / 10 / (n : ℝ) + 39 / (n : ℝ) / 1000
          = (39 + 63 / 10 + 39 / 1000) / (n : ℝ) := by ring
      rw [e]
      exact div_le_div_of_nonneg_right (by norm_num) hn.le)
  -- i + 0.5
  have eK := fl_step fl u hfl hu0 hu1 ((i : ℝ) + 1 / 2) ((i : ℝ) + 1 / 2) 0
    ((i : ℝ) + 1 / 2) ((i : ℝ) + 1 / 2) (le_refl 0) (by simp)
    (by rw [abs_of_nonneg hk0]) (by norm_num)
  -- the product
  have hm := mul_near eK eD
  rw [abs_of_nonneg hk0, abs_of_nonneg hSn0] at hm
  have e1 : ((i : ℝ) + 1 / 2) * (46 / (n : ℝ) * u) + S / (n : ℝ) * (((i : ℝ) + 1 / 2) * u)
        + ((i : ℝ) + 1 / 2) * u * (46 / (n : ℝ) * u)
      = 46 * (((i : ℝ) + 1 / 2) / (n : ℝ) * u) + S * (((i : ℝ) + 1 / 2) / (n : ℝ) * u)
        + 46 * (((i : ℝ) + 1 / 2) / (n : ℝ) * u * u) := by ring
  rw [e1] at hm
  have htu0 : 0 ≤ ((i : ℝ) + 1 / 2) / (n : ℝ) * u := mul_nonneg ht0 hu0
  have htu1 : ((i : ℝ) + 1 / 2) / (n : ℝ) * u ≤ u := mul_le_of_le_one_left hu0 ht1
  have hs2 : S * (((i : ℝ) + 1 / 2) / (n : ℝ) * u) ≤ 63 / 10 * u :=
    mul_le_mul hS1 htu1 htu0 (by norm_num)
  have hs3 : ((i : ℝ) + 1 / 2) / (n : ℝ) * u * u ≤ u * (1 / 1000) :=
    mul_le_mul htu1 hu1 hu0 hu0
  have preP : |fl ((i : ℝ) + 1 / 2) * fl (sp / (n : ℝ))
      - ((i : ℝ) + 1 / 2) * (S / (n : ℝ))| ≤ 53 * u := by
    linarith only [hm, htu1, hs2, hs3, hu0]
  have magP : |((i : ℝ) + 1 / 2) * (S / (n : ℝ))| ≤ 63 / 10 := by
    rw [abs_of_nonneg (mul_nonneg hk0 hSn0)]
    have e : ((i : ℝ) + 1 / 2) * (S / (n : ℝ)) = S * (((i : ℝ) + 1 / 2) / (n : ℝ)) := by ring
    rw [e]
    calc S * (((i : ℝ) + 1 / 2) / (n : ℝ)) ≤ 63 / 10 * 1 :=
          mul_le_mul hS1 ht1 ht0 (by norm_num)
      _ = 63 / 10 := by ring
  have eP := fl_step fl u hfl hu0 hu1 (fl ((i : ℝ) + 1 / 2) * fl (sp / (n : ℝ)))
    (((i : ℝ) + 1 / 2) * (S / (n : ℝ))) 53 (63 / 10) 60 (by norm_num) preP magP (by norm_num)
  -- the angle
  have hth : -Real.pi / 2 - S / 2 + ((i : ℝ) + 1 / 2) * S / (n : ℝ)
      = (-Real.pi / 2 - S / 2) + ((i : ℝ) + 1 / 2) * (S / (n : ℝ)) := by ring
  have hp0 : 0 ≤ ((i : ℝ) + 1 / 2) * (S / (n : ℝ)) := mul_nonneg hk0 hSn0
  have hp1 : ((i : ℝ) + 1 / 2) * (S / (n : ℝ)) ≤ S := by
    have e : ((i : ℝ) + 1 / 2) * (S / (n : ℝ)) = S * (((i : ℝ) + 1 / 2) / (n : ℝ)) := by ring
    rw [e]
    exact mul_le_of_le_one_right hS0 ht1
  have magT : |(-Real.pi / 2 - S / 2) + ((i : ℝ) + 1 / 2) * (S / (n : ℝ))| ≤ 4725 / 1000 := by
    rw [abs_le]
    constructor
    · linarith only [hp0, hS1, hpi1]
    · linarith only [hp1, hS0, hS1, hpi0]
  rw [hth]
  exact fl_step fl u hfl hu0 hu1
    (fl (A - fl (sp / 2)) + fl (fl ((i : ℝ) + 1 / 2) * fl (sp / (n : ℝ))))
    ((-Real.pi / 2 - S / 2) + ((i : ℝ) + 1 / 2) * (S / (n : ℝ))) (32 + 60) (4725 / 1000) 97
    (by norm_num) (near_add eC eP) magT (by norm_num)

/-- The value `angle` (line 156) on doubles is within `97·u` of the exact angle, for a gap
of 0 to 360 degrees, a rounding `fl` of relative error `u` and `Math.PI` within `u·π` of
`π`. -/
theorem polarAngle_near (fl : ℝ → ℝ) (u : ℝ) (hfl : ∀ x, |fl x - x| ≤ u * |x|)
    (hu0 : 0 ≤ u) (hu1 : u ≤ 1 / 1000) (m : JsMath ℝ) (hP : |m.PI - Real.pi| ≤ u * Real.pi)
    (g : ℝ) (hg0 : 0 ≤ g) (hg1 : g ≤ 360) (n i : Nat) (hi : i < n) :
    |polarAngleFl fl m g n i
      - (-Real.pi / 2 - (2 * Real.pi - g * Real.pi / 180) / 2
          + ((i : ℝ) + 1 / 2) * (2 * Real.pi - g * Real.pi / 180) / (n : ℝ))| ≤ 97 * u := by
  have hpi0 := Real.pi_pos
  have hpi1 := Real.pi_lt_d2
  have hS0 : 0 ≤ 2 * Real.pi - g * Real.pi / 180 := by nlinarith only [hg0, hg1, hpi0]
  have hS1 : 2 * Real.pi - g * Real.pi / 180 ≤ 63 / 10 := by
    nlinarith only [hg0, hg1, hpi0, hpi1]
  have h := polarSpan_near fl u hfl hu0 hu1 m.PI hP g hg0 hg1
  exact polarAngle_core fl u hfl hu0 hu1 (fl (fl (m.PI * 2) - fl (fl (g * m.PI) / 180)))
    (2 * Real.pi - g * Real.pi / 180) (fl (-m.PI / 2)) hS0 hS1 h.1 h.2 n i hi

/-- The cosine moves by at most the distance of its arguments. -/
theorem cos_near (a b : ℝ) : |Real.cos a - Real.cos b| ≤ |a - b| := by
  rw [Real.cos_sub_cos, abs_mul, abs_mul]
  have h1 := Real.abs_sin_le_one ((a + b) / 2)
  have h2 := @Real.abs_sin_le_abs ((a - b) / 2)
  have h3 : |(a - b) / 2| = |a - b| / 2 := by
    rw [abs_div, abs_of_pos (by norm_num : (0 : ℝ) < 2)]
  have h4 : |(-2 : ℝ)| = 2 := by norm_num
  rw [h3] at h2
  rw [h4]
  have h5 := mul_le_mul h1 h2 (abs_nonneg _) (by norm_num : (0 : ℝ) ≤ 1)
  linarith only [h5]

/-- The sine moves by at most the distance of its arguments. -/
theorem sin_near (a b : ℝ) : |Real.sin a - Real.sin b| ≤ |a - b| := by
  rw [Real.sin_sub_sin, abs_mul, abs_mul]
  have h1 := Real.abs_cos_le_one ((a + b) / 2)
  have h2 := @Real.abs_sin_le_abs ((a - b) / 2)
  have h3 : |(a - b) / 2| = |a - b| / 2 := by
    rw [abs_div, abs_of_pos (by norm_num : (0 : ℝ) < 2)]
  have h4 : |(2 : ℝ)| = 2 := by norm_num
  rw [h3] at h2
  rw [h4]
  have h5 := mul_le_mul h2 h1 (abs_nonneg _) (by linarith only [h2, abs_nonneg (Real.sin ((a - b) / 2))])
  linarith only [h5]

/-- One written coordinate `c + radius·f(angle)` on doubles: `f` is the exact cosine or
sine, `fh` its implementation, accurate to `2·u`. -/
theorem polarCoord_near (fl : ℝ → ℝ) (u : ℝ) (hfl : ∀ x, |fl x - x| ≤ u * |x|)
    (hu0 : 0 ≤ u) (hu1 : u ≤ 1 / 1000) (f fh : ℝ → ℝ) (hf1 : ∀ x, |f x| ≤ 1)
    (hfL : ∀ a b, |f a - f b| ≤ |a - b|) (hfh : ∀ x, |fh x - f x| ≤ 2 * u)
    (c r a t : ℝ) (hat : |a - t| ≤ 97 * u) :
    |fl (c + fl (r * fh a)) - (c + r * f t)| ≤ 128 * u * |r| + u * |c| := by
  have hr0 := abs_nonneg r
  have h1 : |fh a - f t| ≤ 99 * u := by
    calc |fh a - f t| = |(fh a - f a) + (f a - f t)| := by ring_nf
      _ ≤ |fh a - f a| + |f a - f t| := abs_add _ _
      _ ≤ 99 * u := by linarith only [hfh a, hfL a t, hat]
  have h2 : |r * fh a - r * f t| ≤ 99 * u * |r| := by
    rw [← mul_sub, abs_mul]
    calc |r| * |fh a - f t| ≤ |r| * (99 * u) := mul_le_mul_of_nonneg_left h1 hr0
      _ = 99 * u * |r| := by ring
  have h3 : |r * f t| ≤ |r| := by
    rw [abs_mul]
    exact mul_le_of_le_one_right hr0 (hf1 t)
  have h4 := fl_near fl u hfl hu0 (r * fh a) (r * f t) (99 * u * |r|) |r| h2 h3
  have hur : 0 ≤ u * |r| := mul_nonneg hu0 hr0
  have huur : u * (u * |r|) ≤ 1 / 1000 * (u * |r|) := mul_le_mul_of_nonneg_right hu1 hur
  have h5 : |fl (r * fh a) - r * f t| ≤ 101 * u * |r| := by
    have e : 99 * u * |r| + u * (|r| + 99 * u * |r|)
        = 100 * (u * |r|) + 99 * (u * (u * |r|)) := by ring
    rw [e] at h4
    linarith only [h4, huur, hur]
  have h6 : |(c + fl (r * fh a)) - (c + r * f t)| ≤ 101 * u * |r| := by
    have e : (c + fl (r * fh a)) - (c + r * f t) = fl (r * fh a) - r * f t := by ring
    rw [e]
    exact h5
  have h7 : |c + r * f t| ≤ |c| + |r| := le_trans (abs_add _ _) (by linarith only [h3])
  have h8 := fl_near fl u hfl hu0 (c + fl (r * fh a)) (c + r * f t) (101 * u * |r|)
    (|c| + |r|) h6 h7
  have e : 101 * u * |r| + u * (|c| + |r| + 101 * u * |r|)
      = 102 * (u * |r|) + 101 * (u * (u * |r|)) + u * |c| := by ring
  rw [e] at h8
  linarith only [h8, huur, hur]

end CircularMenu

namespace CircularMenu

section
variable {α : Type} [LinearOrderedField α]

/-- With the identity as rounding, `polarPlaceFl` is `polarPlace`. -/
theorem polarPlaceFl_id (m : JsMath α) (root : Node) (cx cy radius : α)
    (items : List (ItemNode α)) (gapDeg : α) :
    polarPlaceFl id m root cx cy radius items gapDeg
      = polarPlace m root cx cy radius items gapDeg := rfl

/-- The entry that `polarPlaceFl` writes for item `i`. -/
theorem polarPlaceFl_getElem (fl : α → α) (m : JsMath α) (root : Node) (cx cy radius : α)
    (items : List (ItemNode α)) (gapDeg : α) (i : Nat) (hi : i < items.length) :
    (polarPlaceFl fl m root cx cy radius items gapDeg)[i]? =
      some { items[i] with
        left := some (fl (cx + fl (radius * m.cos (polarAngleFl fl m gapDeg items.length i)))),
        top := some (fl (cy + fl (radius * m.sin (polarAngleFl fl m gapDeg items.length i)))) }
    := by
  have hn : items.length ≠ 0 := by omega
  simp only [polarPlaceFl, polarAngleFl, if_neg hn, List.getElem?_mapIdx,
    List.getElem?_eq_getElem hi, Option.map_some']

end

/-- On doubles the abscissas of a mirror pair are opposite, and the ordinates equal, up to
rounding. -/
theorem polarPair_near (fl : ℝ → ℝ) (u : ℝ) (hfl : ∀ x, |fl x - x| ≤ u * |x|)
    (hu0 : 0 ≤ u) (hu1 : u ≤ 1 / 1000) (m : JsMath ℝ) (hP : |m.PI - Real.pi| ≤ u * Real.pi)
    (hcos : ∀ x, |m.cos x - Real.cos x| ≤ 2 * u) (hsin : ∀ x, |m.sin x - Real.sin x| ≤ 2 * u)
    (cx cy r g : ℝ) (hg0 : 0 ≤ g) (hg1 : g ≤ 360) (n i : Nat) (hi : i < n) :
    |(fl (cx + fl (r * m.cos (polarAngleFl fl m g n i))) - cx)
        + (fl (cx + fl (r * m.cos (polarAngleFl fl m g n (n - 1 - i)))) - cx)|
      ≤ 2 * (128 * u * |r| + u * |cx|) ∧
    |fl (cy + fl (r * m.sin (polarAngleFl fl m g n i)))
        - fl (cy + fl (r * m.sin (polarAngleFl fl m g n (n - 1 - i))))|
      ≤ 2 * (128 * u * |r| + u * |cy|) := by
  have hj : n - 1 - i < n := by omega
  have ai := polarAngle_near fl u hfl hu0 hu1 m hP g hg0 hg1 n i hi
  have aj := polarAngle_near fl u hfl hu0 hu1 m hP g hg0 hg1 n (n - 1 - i) hj
  have hang := polar_angle_mirror Real.pi (2 * Real.pi - g * Real.pi / 180) n i hi
  rw [hang] at aj
  have xi := polarCoord_near fl u hfl hu0 hu1 Real.cos m.cos Real.abs_cos_le_one cos_near hcos
    cx r _ _ ai
  have xj := polarCoord_near fl u hfl hu0 hu1 Real.cos m.cos Real.abs_cos_le_one cos_near hcos
    cx r _ _ aj
  have yi := polarCoord_near fl u hfl hu0 hu1 Real.sin m.sin Real.abs_sin_le_one sin_near hsin
    cy r _ _ ai
  have yj := polarCoord_near fl u hfl hu0 hu1 Real.sin m.sin Real.abs_sin_le_one sin_near hsin
    cy r _ _ aj
  rw [Real.cos_neg, Real.cos_add_pi] at xj
  rw [Real.sin_neg, Real.sin_add_pi, neg_neg] at yj
  rw [abs_le] at xi xj yi yj
  constructor
  · rw [abs_le]
    constructor
    · linarith only [xi.1, xj.1]
    · linarith only [xi.2, xj.2]
  · rw [abs_le]
    constructor
    · linarith only [yi.1, yj.2]
    · linarith only [yi.2, yj.1]

/-- On doubles the middle item of an odd number of items is at `(cx, cy - radius)` up to
rounding. -/
theorem polarMiddle_near (fl : ℝ → ℝ) (u : ℝ) (hfl : ∀ x, |fl x - x| ≤ u * |x|)
    (hu0 : 0 ≤ u) (hu1 : u ≤ 1 / 1000) (m : JsMath ℝ) (hP : |m.PI - Real.pi| ≤ u * Real.pi)
    (hcos : ∀ x, |m.cos x - Real.cos x| ≤ 2 * u) (hsin : ∀ x, |m.sin x - Real.sin x| ≤ 2 * u)
    (cx cy r g : ℝ) (hg0 : 0 ≤ g) (hg1 : g ≤ 360) (k : Nat) :
    |fl (cx + fl (r * m.cos (polarAngleFl fl m g (2 * k + 1) k))) - cx|
      ≤ 128 * u * |r| + u * |cx| ∧
    |fl (cy + fl (r * m.sin (polarAngleFl fl m g (2 * k + 1) k))) - (cy - r)|
      ≤ 128 * u * |r| + u * |cy| := by
  have ak := polarAngle_near fl u hfl hu0 hu1 m hP g hg0 hg1 (2 * k + 1) k (by omega)
  rw [polar_angle_middle Real.pi (2 * Real.pi - g * Real.pi / 180) k] at ak
  have xk := polarCoord_near fl u hfl hu0 hu1 Real.cos m.cos Real.abs_cos_le_one cos_near hcos
    cx r _ _ ak
  have yk := polarCoord_near fl u hfl hu0 hu1 Real.sin m.sin Real.abs_sin_le_one sin_near hsin
    cy r _ _ ak
  rw [Real.cos_neg, Real.cos_pi_div_two, mul_zero, add_zero] at xk
  rw [Real.sin_neg, Real.sin_pi_div_two] at yk
  have e : cy + r * -1 = cy - r := by ring
  rw [e] at yk
  exact ⟨xk, yk⟩

/-- C12. In exact real arithmetic (real `π`, `cos`, `sin`, no rounding) the layout of
`polarPlace` is symmetric about the vertical line through the anchor: items `i` and
`n - 1 - i` have `x_i - cx = -(x_(n-1-i) - cx)` and `y_i = y_(n-1-i)`, and for odd `n` the
middle item is at `(cx, cy - radius)`. On doubles (`polarPlaceFl fl64`), for a gap of 0 to
360 degrees, `Math.PI` within `2⁻⁵³·π` of `π` and `Math.cos`, `Math.sin` within `2⁻⁵²` of the
cosine and sine, the same holds up to rounding:
`|(x_i - cx) + (x_(n-1-i) - cx)| ≤ 2⁻⁴⁵·|radius| + 2⁻⁵²·|cx|`,
`|y_i - y_(n-1-i)| ≤ 2⁻⁴⁵·|radius| + 2⁻⁵²·|cy|`, and for odd `n` the middle item has
`|x - cx| ≤ 2⁻⁴⁶·|radius| + 2⁻⁵³·|cx|` and
`|y - (cy - radius)| ≤ 2⁻⁴⁶·|radius| + 2⁻⁵³·|cy|`. -/
theorem polarPlace_mirror_near (root : Node) (cx cy radius gapDeg : ℝ)
    (items : List (ItemNode ℝ)) :
    ((∀ i : Nat, i < items.length →
        ∃ a b : ItemNode ℝ, ∃ xa ya xb yb : ℝ,
          (polarPlace (JsMath.mk Real.pi Real.cos Real.sin) root cx cy radius items gapDeg)[i]?
            = some a ∧
          (polarPlace (JsMath.mk Real.pi Real.cos Real.sin) root cx cy radius items
              gapDeg)[items.length - 1 - i]? = some b ∧
          a.left = some xa ∧ a.top = some ya ∧ b.left = some xb ∧ b.top = some yb ∧
          xa - cx = -(xb - cx) ∧ ya = yb) ∧
      (∀ k : Nat, items.length = 2 * k + 1 →
        ∃ a : ItemNode ℝ,
          (polarPlace (JsMath.mk Real.pi Real.cos Real.sin) root cx cy radius items gapDeg)[k]?
            = some a ∧
          a.left = some cx ∧ a.top = some (cy - radius))) ∧
    (∀ m : JsMath ℝ, |m.PI - Real.pi| ≤ 1 / 2 ^ 53 * Real.pi →
      (∀ x, |m.cos x - Real.cos x| ≤ 1 / 2 ^ 52) →
      (∀ x, |m.sin x - Real.sin x| ≤ 1 / 2 ^ 52) →
      0 ≤ gapDeg → gapDeg ≤ 360 →
      (∀ i : Nat, i < items.length →
        ∃ a b : ItemNode ℝ, ∃ xa ya xb yb : ℝ,
          (polarPlaceFl fl64 m root cx cy radius items gapDeg)[i]? = some a ∧
          (polarPlaceFl fl64 m root cx cy radius items gapDeg)[items.length - 1 - i]?
            = some b ∧
          a.left = some xa ∧ a.top = some ya ∧ b.left = some xb ∧ b.top = some yb ∧
          |(xa - cx) + (xb - cx)| ≤ 1 / 2 ^ 45 * |radius| + 1 / 2 ^ 52 * |cx| ∧
          |ya - yb| ≤ 1 / 2 ^ 45 * |radius| + 1 / 2 ^ 52 * |cy|) ∧
      (∀ k : Nat, items.length = 2 * k + 1 →
        ∃ a : ItemNode ℝ, ∃ xa ya : ℝ,
          (polarPlaceFl fl64 m root cx cy radius items gapDeg)[k]? = some a ∧
          a.left = some xa ∧ a.top = some ya ∧
          |xa - cx| ≤ 1 / 2 ^ 46 * |radius| + 1 / 2 ^ 53 * |cx| ∧
          |ya - (cy - radius)| ≤ 1 / 2 ^ 46 * |radius| + 1 / 2 ^ 53 * |cy|)) := by
  refine ⟨polarPlace_mirror root cx cy radius gapDeg items, ?_⟩
  intro m hP hcos hsin hg0 hg1
  have hu0 : (0 : ℝ) ≤ 1 / 2 ^ 53 := by norm_num
  have hu1 : (1 : ℝ) / 2 ^ 53 ≤ 1 / 1000 := by norm_num
  have e2 : (1 : ℝ) / 2 ^ 52 = 2 * (1 / 2 ^ 53) := by norm_num
  rw [e2] at hcos hsin
  constructor
  · intro i hi
    have hj : items.length - 1 - i < items.length := by omega
    have ea := polarPlaceFl_getElem fl64 m root cx cy radius items gapDeg i hi
    have eb := polarPlaceFl_getElem fl64 m root cx cy radius items gapDeg
      (items.length - 1 - i) hj
    have h := polarPair_near fl64 (1 / 2 ^ 53) fl64_rel_error hu0 hu1 m hP hcos hsin
      cx cy radius gapDeg hg0 hg1 items.length i hi
    refine ⟨_, _, _, _, _, _, ea, eb, rfl, rfl, rfl, rfl, ?_, ?_⟩
    · refine le_trans h.1 (le_of_eq ?_)
      ring
    · refine le_trans h.2 (le_of_eq ?_)
      ring
  · intro k hk
    have hlt : k < items.length := by omega
    have ea := polarPlaceFl_getElem fl64 m root cx cy radius items gapDeg k hlt
    have h := polarMiddle_near fl64 (1 / 2 ^ 53) fl64_rel_error hu0 hu1 m hP hcos hsin
      cx cy radius gapDeg hg0 hg1 k
    rw [hk] at ea
    refine ⟨_, _, _, ea, rfl, rfl, ?_, ?_⟩
    · refine le_trans h.1 (le_of_eq ?_)
      ring
    · refine le_trans h.2 (le_of_eq ?_)
      ring

/-- Witness for C12: three items, radius 100, gap 20 degrees, anchor `(50, 60)`, `Math.PI`
the double nearest to `π` and correctly rounded `Math.cos`, `Math.sin`; the middle item is
written within `2⁻⁴⁶·100 + 2⁻⁵³·50` of `x = 50` and within `2⁻⁴⁶·100 + 2⁻⁵³·60` of
`y = -40`. -/
theorem polarPlace_mirror_near_witness :
    ∃ a : ItemNode ℝ, ∃ xa ya : ℝ,
      (polarPlaceFl fl64
        (JsMath.mk (fl64 Real.pi) (fun x => fl64 (Real.cos x)) (fun x => fl64 (Real.sin x)))
        (Node.made Cls.root 1) 50 60 100
        [ItemNode.mk (Node.made Cls.item 2) (MenuItemSpec.mk "note" none none []) none none,
         ItemNode.mk (Node.made Cls.item 3) (MenuItemSpec.mk "tag" none none []) none none,
         ItemNode.mk (Node.made Cls.item 4) (MenuItemSpec.mk "share" none none []) none none]
        20)[1]? = some a ∧
      a.left = some xa ∧ a.top = some ya ∧
      |xa - 50| ≤ 1 / 2 ^ 46 * |(100 : ℝ)| + 1 / 2 ^ 53 * |(50 : ℝ)| ∧
      |ya - (60 - 100)| ≤ 1 / 2 ^ 46 * |(100 : ℝ)| + 1 / 2 ^ 53 * |(60 : ℝ)| :=
  ((polarPlace_mirror_near (Node.made Cls.root 1) 50 60 100 20
    [ItemNode.mk (Node.made Cls.item 2) (MenuItemSpec.mk "note" none none []) none none,
     ItemNode.mk (Node.made Cls.item 3) (MenuItemSpec.mk "tag" none none []) none none,
     ItemNode.mk (Node.made Cls.item 4) (MenuItemSpec.mk "share" none none []) none none]).2
    (JsMath.mk (fl64 Real.pi) (fun x => fl64 (Real.cos x)) (fun x => fl64 (Real.sin x)))
    (by
      have h := fl64_rel_error Real.pi
      rw [abs_of_pos Real.pi_pos] at h
      exact h)
    (fun x => le_trans (fl64_rel_error (Real.cos x))
      (by
        have h := Real.abs_cos_le_one x
        have e : (1 : ℝ) / 2 ^ 52 = 1 / 2 ^ 53 * 2 := by norm_num
        rw [e]
        exact mul_le_mul_of_nonneg_left (by linarith only [h]) (by norm_num)))
    (fun x => le_trans (fl64_rel_error (Real.sin x))
      (by
        have h := Real.abs_sin_le_one x
        have e : (1 : ℝ) / 2 ^ 52 = 1 / 2 ^ 53 * 2 := by norm_num
        rw [e]
        exact mul_le_mul_of_nonneg_left (by linarith only [h]) (by norm_num)))
    (by norm_num) (by norm_num)).2 1 rfl

/-- The double nearest to `π` is `884279719003555 / 2^48`, the value of `Math.PI`. -/
theorem fl64_pi : fl64 Real.pi = 884279719003555 / 2 ^ 48 := by
  have h1 := Real.pi_gt_d20
  have h2 := Real.pi_lt_d20
  have e : (2 : ℝ) ^ ((1 : ℤ) - 52) = 1 / 2 ^ 51 := by norm_num
  have e3 : Real.pi / (1 / 2 ^ 51) = Real.pi * 2 ^ 51 := by field_simp
  refine fl64_eval_pos Real.pi _ 1 7074237752028440 ?_ ?_ ?_ ?_ ?_
  · norm_num
    linarith only [h1]
  · norm_num
    linarith only [h2]
  · rw [e, e3]
    norm_num
    linarith only [h1]
  · rw [e, e3]
    norm_num
    linarith only [h2]
  · norm_num

/-- The value of `angle` for the middle of three items with a gap of 20 degrees, with
`Math.PI` the double nearest to `π`: it is `-Math.PI/2`. -/
theorem polarAngleFl_three_middle (c s : ℝ → ℝ) :
    polarAngleFl fl64 (JsMath.mk (fl64 Real.pi) c s) 20 3 1
      = -(884279719003555 / 2 ^ 49) := by
  have hfull : fl64 (884279719003555 / 2 ^ 48 * 2 : ℝ) = 884279719003555 / 2 ^ 47 :=
    fl64_eval_pos _ _ 2 7074237752028440 (by norm_num) (by norm_num) (by norm_num)
      (by norm_num) (by norm_num)
  have hgP : fl64 (20 * (884279719003555 / 2 ^ 48) : ℝ) = 4421398595017775 / 2 ^ 46 :=
    fl64_eval_pos _ _ 5 8842797190035550 (by norm_num) (by norm_num) (by norm_num)
      (by norm_num) (by norm_num)
  have hh : fl64 (4421398595017775 / 2 ^ 46 / 180 : ℝ) = 6288211335136391 / 2 ^ 54 :=
    fl64_eval_pos _ _ (-2) 6288211335136391 (by norm_num) (by norm_num) (by norm_num)
      (by norm_num) (by norm_num)
  have hspan : fl64 (884279719003555 / 2 ^ 47 - 6288211335136391 / 2 ^ 54 : ℝ)
      = 417576533973901 / 2 ^ 46 :=
    fl64_eval_pos _ _ 2 6681224543582416 (by norm_num) (by norm_num) (by norm_num)
      (by norm_num) (by norm_num)
  have ha : fl64 (-(884279719003555 / 2 ^ 48) / 2 : ℝ) = -(884279719003555 / 2 ^ 49) :=
    fl64_eval_neg _ _ 0 (-7074237752028440) (by norm_num) (by norm_num) (by norm_num)
      (by norm_num) (by norm_num)
  have hb : fl64 (417576533973901 / 2 ^ 46 / 2 : ℝ) = 417576533973901 / 2 ^ 47 :=
    fl64_eval_pos _ _ 1 6681224543582416 (by norm_num) (by norm_num) (by norm_num)
      (by norm_num) (by norm_num)
  have hstart : fl64 (-(884279719003555 / 2 ^ 49) - 417576533973901 / 2 ^ 47 : ℝ)
      = -(2554585854899159 / 2 ^ 49) :=
    fl64_eval_neg _ _ 2 (-5109171709798318) (by norm_num) (by norm_num) (by norm_num)
      (by norm_num) (by norm_num)
  have hk : fl64 (1 + 1 / 2 : ℝ) = 3 / 2 :=
    fl64_eval_pos _ _ 0 6755399441055744 (by norm_num) (by norm_num) (by norm_num)
      (by norm_num) (by norm_num)
  have hstep : fl64 (417576533973901 / 2 ^ 46 / 3 : ℝ) = 8908299391443221 / 2 ^ 52 :=
    fl64_eval_pos _ _ 0 8908299391443221 (by norm_num) (by norm_num) (by norm_num)
      (by norm_num) (by norm_num)
  have hprod : fl64 (3 / 2 * (8908299391443221 / 2 ^ 52) : ℝ) = 417576533973901 / 2 ^ 47 :=
    fl64_eval_pos _ _ 1 6681224543582416 (by norm_num) (by norm_num) (by norm_num)
      (by norm_num) (by norm_num)
  have hang : fl64 (-(2554585854899159 / 2 ^ 49) + 417576533973901 / 2 ^ 47 : ℝ)
      = -(884279719003555 / 2 ^ 49) :=
    fl64_eval_neg _ _ 0 (-7074237752028440) (by norm_num) (by norm_num) (by norm_num)
      (by norm_num) (by norm_num)
  simp only [polarAngleFl, fl64_pi, Nat.cast_one, Nat.cast_ofNat, hfull, hgP, hh, hspan, ha,
    hb, hstart, hk, hstep, hprod, hang]

/-- The cosine of `-Math.PI/2` lies between `45·10⁻¹⁸` and `62·10⁻¹⁸`: it is not zero. -/
theorem cos_neg_half_PI :
    45 / 10 ^ 18 < Real.cos (-(884279719003555 / 2 ^ 49)) ∧
    Real.cos (-(884279719003555 / 2 ^ 49)) < 62 / 10 ^ 18 := by
  have h1 := Real.pi_gt_d20
  have h2 := Real.pi_lt_d20
  have e : Real.cos (-(884279719003555 / 2 ^ 49))
      = Real.sin (Real.pi / 2 - 884279719003555 / 2 ^ 49) := by
    rw [Real.cos_neg, Real.sin_pi_div_two_sub]
  have d0 : 61 / 10 ^ 18 < Real.pi / 2 - 884279719003555 / 2 ^ 49 := by
    norm_num
    linarith only [h1]
  have d1 : Real.pi / 2 - 884279719003555 / 2 ^ 49 < 62 / 10 ^ 18 := by
    norm_num
    linarith only [h2]
  have dpos : 0 < Real.pi / 2 - 884279719003555 / 2 ^ 49 :=
    lt_trans (by norm_num) d0
  have dle : Real.pi / 2 - 884279719003555 / 2 ^ 49 ≤ 1 :=
    le_trans d1.le (by norm_num)
  have s1 := Real.sin_lt dpos
  have s2 := Real.sin_gt_sub_cube dpos dle
  have hsq : (Real.pi / 2 - 884279719003555 / 2 ^ 49) ^ 2 ≤ 1 := by
    rw [sq]
    calc (Real.pi / 2 - 884279719003555 / 2 ^ 49) * (Real.pi / 2 - 884279719003555 / 2 ^ 49)
        ≤ 1 * 1 := mul_le_mul dle dle dpos.le (by norm_num)
      _ = 1 := by ring
  have hcube : (Real.pi / 2 - 884279719003555 / 2 ^ 49) ^ 3
      ≤ Real.pi / 2 - 884279719003555 / 2 ^ 49 := by
    have e3 : (Real.pi / 2 - 884279719003555 / 2 ^ 49) ^ 3
        = (Real.pi / 2 - 884279719003555 / 2 ^ 49)
          * (Real.pi / 2 - 884279719003555 / 2 ^ 49) ^ 2 := by ring
    rw [e3]
    exact mul_le_of_le_one_right dpos.le hsq
  rw [e]
  constructor
  · linarith only [s2, hcube, d0]
  · linarith only [s1, d1]

/-- A number between `50 + 2⁻⁴⁸` and `50 + 3·2⁻⁴⁸` rounds to the double `50 + 2⁻⁴⁷`. -/
theorem fl64_near_fifty (q : ℝ) (q0 : 43 / 10 ^ 16 < q) (q1 : q < 64 / 10 ^ 16) :
    fl64 (50 + q) = 50 + 1 / 2 ^ 47 := by
  have e47 : (2 : ℝ) ^ ((5 : ℤ) - 52) = 1 / 2 ^ 47 := by norm_num
  have e3 : (50 + q) / (1 / 2 ^ 47) = (50 + q) * 2 ^ 47 := by field_simp
  refine fl64_eval_pos _ _ 5 7036874417766401 ?_ ?_ ?_ ?_ ?_
  · norm_num
    linarith only [q0]
  · norm_num
    linarith only [q1]
  · rw [e47, e3]
    norm_num
    linarith only [q0]
  · rw [e47, e3]
    norm_num
    linarith only [q1]
  · norm_num

/-- C12, counterexample. Three items, radius 100, gap 20 degrees, anchor `(50, 60)`, with
`Math.PI` the double nearest to `π` and correctly rounded `Math.cos`, `Math.sin`: the angle
of the middle item is `-Math.PI/2`, whose cosine is about `6.1·10⁻¹⁷` and not zero, and
`polarPlace` writes `left = 50 + 2⁻⁴⁷` (printed `50.00000000000001`), not `50`. -/
theorem polarPlace_middle_off_axis :
    ((polarPlaceFl fl64
        (JsMath.mk (fl64 Real.pi) (fun x => fl64 (Real.cos x)) (fun x => fl64 (Real.sin x)))
        (Node.made Cls.root 1) 50 60 100
        [ItemNode.mk (Node.made Cls.item 2) (MenuItemSpec.mk "note" none none []) none none,
         ItemNode.mk (Node.made Cls.item 3) (MenuItemSpec.mk "tag" none none []) none none,
         ItemNode.mk (Node.made Cls.item 4) (MenuItemSpec.mk "share" none none []) none none]
        20)[1]?).map (fun it => it.left) = some (some (50 + 1 / 2 ^ 47)) ∧
    ((polarPlaceFl fl64
        (JsMath.mk (fl64 Real.pi) (fun x => fl64 (Real.cos x)) (fun x => fl64 (Real.sin x)))
        (Node.made Cls.root 1) 50 60 100
        [ItemNode.mk (Node.made Cls.item 2) (MenuItemSpec.mk "note" none none []) none none,
         ItemNode.mk (Node.made Cls.item 3) (MenuItemSpec.mk "tag" none none []) none none,
         ItemNode.mk (Node.made Cls.item 4) (MenuItemSpec.mk "share" none none []) none none]
        20)[1]?).map (fun it => it.left) ≠ some (some 50) := by
  have hc := cos_neg_half_PI
  have r1 := fl64_rel_error (Real.cos (-(884279719003555 / 2 ^ 49)))
  rw [abs_of_pos (lt_trans (by norm_num) hc.1), abs_le] at r1
  have c0 : 44 / 10 ^ 18 < fl64 (Real.cos (-(884279719003555 / 2 ^ 49))) := by
    linarith only [r1.1, hc.1, hc.2]
  have c1 : fl64 (Real.cos (-(884279719003555 / 2 ^ 49))) < 63 / 10 ^ 18 := by
    linarith only [r1.2, hc.1, hc.2]
  have r2 := fl64_rel_error (100 * fl64 (Real.cos (-(884279719003555 / 2 ^ 49))))
  have hq : 0 < 100 * fl64 (Real.cos (-(884279719003555 / 2 ^ 49))) := by
    linarith only [c0]
  rw [abs_of_pos hq, abs_le] at r2
  have q0 : 43 / 10 ^ 16
      < fl64 (100 * fl64 (Real.cos (-(884279719003555 / 2 ^ 49)))) := by
    linarith only [r2.1, c0, c1]
  have q1 : fl64 (100 * fl64 (Real.cos (-(884279719003555 / 2 ^ 49))))
      < 64 / 10 ^ 16 := by
    linarith only [r2.2, c0, c1]
  have hx := fl64_near_fifty _ q0 q1
  have hv : ((polarPlaceFl fl64
        (JsMath.mk (fl64 Real.pi) (fun x => fl64 (Real.cos x)) (fun x => fl64 (Real.sin x)))
        (Node.made Cls.root 1) 50 60 100
        [ItemNode.mk (Node.made Cls.item 2) (MenuItemSpec.mk "note" none none []) none none,
         ItemNode.mk (Node.made Cls.item 3) (MenuItemSpec.mk "tag" none none []) none none,
         ItemNode.mk (Node.made Cls.item 4) (MenuItemSpec.mk "share" none none []) none none]
        20)[1]?).map (fun it => it.left) = some (some (50 + 1 / 2 ^ 47)) := by
    rw [polarPlaceFl_getElem fl64 _ _ _ _ _ _ _ 1 (by decide)]
    simp only [Option.map_some', List.length_cons, List.length_nil]
    rw [polarAngleFl_three_middle]
    simp only [hx]
  refine ⟨hv, ?_⟩
  rw [hv]
  intro h
  have h2 : (50 : ℝ) + 1 / 2 ^ 47 = 50 := Option.some.inj (Option.some.inj h)
  norm_num at h2

end CircularMenu
